import Mathlib

/-!
# Verification of the VirtualListView virtualization engine

Shallow embedding of `src/dist/VirtualListView.js` (the ReactXP
`VirtualListView` component).  The component's mutable instance fields become
the record `VLV.VLVState`; every method that the claims touch is translated
into a pure function on that record, following the JavaScript source
statement by statement.  JavaScript numbers are modelled as exact rationals
(`ℚ`), JavaScript `Map`/`Set` objects as insertion-ordered association
lists, and the four asynchronous entry points as an `Event` type with a
`step` function, so that "for every sequence of events" claims become
statements about `runEvents`.

Modelling conventions (each noted at the definition it concerns):
* `props.skipRenderIfItemUnchanged` and `props.animateChanges` are fixed to
  `false` (their default), so the overdraw/cull constants are the defaults
  from the constructor.
* The component is always mounted (`_isMounted = true`); the handlers'
  mounted guards are dropped.
* Calls onto live cell handles (`cellRef.current`) draw pixels on the host
  and hold no engine state; they are omitted.  The per-cell bookkeeping
  that the engine itself reads back (`top`, `isVisible`, `shouldUpdate`,
  `virtualKey`, ...) is kept in `Cell`.
* `assert` (`./assert`) logs and continues in production; assertions are
  modelled as no-ops, and the statements that would dereference `undefined`
  after a failed assertion are modelled as skipping the operation.
* `_.defer` continuations are separate event-loop turns; they are modelled
  as the explicit `Event.tick` (for `_componentDidRender`'s deferred
  recalculation) or folded into the handler when no other event can
  intervene in the model (the animation-stop reconciliation).
* An out-of-range `props.itemList[i]` read yields `undefined` in the
  source; where the surrounding code would immediately fault on a property
  access of that value (`_onLayoutItem`'s `item`), the handler is modelled
  as returning without change.  The path is unreachable: the item map is
  rebuilt with every list replacement and always indexes the current list
  (`itemMapInv`).
-/

namespace VLV

/-- An entry of `props.itemList` (`VirtualListViewItemInfo`): `key`,
`height`, `measureHeight?`, `template?`, `isNavigable?`.  Absent optional
booleans are `false`, an absent template is `none`. -/
structure Item where
  key : String
  height : ℚ
  measureHeight : Bool
  template : Option String
  isNavigable : Bool
deriving DecidableEq, Repr

/-- A `VirtualCellInfo` record as built in `_allocateCell`: `virtualKey`
(the `vc_<n>` counter, kept as the number `n`), `itemTemplate`,
`isHeightConstant`, `height`, `cachedItemKey`, `top`, `isVisible`,
`shouldUpdate`.  The `cellRef` React handle is host state and omitted. -/
structure Cell where
  virtualKey : Nat
  itemTemplate : Option String
  isHeightConstant : Bool
  height : ℚ
  cachedItemKey : String
  top : ℚ
  isVisible : Bool
  shouldUpdate : Bool
deriving DecidableEq, Repr

/-- JavaScript `Map.get`. -/
def lookupKey {α : Type} : List (String × α) → String → Option α
  | [], _ => none
  | (k', v) :: rest, k => if k' = k then some v else lookupKey rest k

/-- JavaScript `Map.set`: replace in place, else append (insertion order). -/
def setKey {α : Type} : List (String × α) → String → α → List (String × α)
  | [], k, v => [(k, v)]
  | (k', v') :: rest, k, v =>
      if k' = k then (k, v) :: rest else (k', v') :: setKey rest k v

/-- JavaScript `Map.delete`. -/
def eraseKey {α : Type} : List (String × α) → String → List (String × α)
  | [], _ => []
  | (k', v') :: rest, k =>
      if k' = k then eraseKey rest k else (k', v') :: eraseKey rest k

/-- JavaScript `Set.add` (no-op when present, appended otherwise). -/
def addKeyset (l : List String) (k : String) : List String :=
  if k ∈ l then l else l ++ [k]

/-- JavaScript `Set.delete`. -/
def eraseKeyset : List String → String → List String
  | [], _ => []
  | k' :: rest, k =>
      if k' = k then eraseKeyset rest k else k' :: eraseKeyset rest k

/-- The whole mutable state of a `VirtualListView` instance, one field per
instance field read or written by the modelled methods, plus `itemList`
(the current `props.itemList`). -/
structure VLVState where
  itemList : List Item
  lastScrollTop : ℚ
  layoutHeight : ℚ
  containerHeight : ℚ
  itemMap : List (String × Nat)
  isRenderDirty : Bool
  pendingAnimations : List String
  heightAboveRenderAdjustment : ℚ
  heightAboveRenderBlock : ℚ
  heightOfRenderBlock : ℚ
  heightBelowRenderBlock : ℚ
  itemsAboveRenderBlock : Nat
  itemsInRenderBlock : Nat
  itemsBelowRenderBlock : Nat
  pendingMeasurements : List String
  isInitialFillComplete : Bool
  heightCache : List (String × ℚ)
  activeCells : List (String × Cell)
  recycledCells : List Cell
  navigatableItemsRendered : List String
  maxRecycledCells : Nat
  nextCellKey : Nat
  lastFocusedItemKey : Option String
  pendingFocusDirection : Option Int
deriving DecidableEq, Repr

/-- `_maxSimultaneousMeasures`. -/
def maxSimultaneousMeasures : Nat := 16

/-- `_maxRecycledCells`. -/
def maxRecycledCellsDefault : Nat := 50

/-- `_renderOverdrawFactor` (default build, `skipRenderIfItemUnchanged`
fixed to `false`). -/
def renderOverdrawFactor : ℚ := 1/2

/-- `_minOverdrawAmount`. -/
def minOverdrawAmount : ℚ := 512

/-- `_maxOverdrawAmount`. -/
def maxOverdrawAmount : ℚ := 4096

/-- `_cullFraction`. -/
def cullFraction : ℚ := 1

/-- `_minCullAmount = _minOverdrawAmount * 2`. -/
def minCullAmount : ℚ := 1024

/-- `_getHeightOfItem` on a present item: constant heights are
authoritative, else the cache entry, else the declared height as a guess. -/
def getHeightOfItem (cache : List (String × ℚ)) (item : Item) : ℚ :=
  if !item.measureHeight then item.height
  else
    match lookupKey cache item.key with
    | some cachedHeight => cachedHeight
    | none => item.height

/-- `_getHeightOfItem` including its `if (!item) return 0` guard, for the
call sites that index `props.itemList` possibly out of range. -/
def getHeightOfItemOpt (cache : List (String × ℚ)) : Option Item → ℚ
  | none => 0
  | some item => getHeightOfItem cache item

/-- `_isItemHeightKnown`. -/
def isItemHeightKnown (cache : List (String × ℚ)) (item : Item) : Bool :=
  !item.measureHeight || (lookupKey cache item.key).isSome

/-- `props.itemList[i]` for a possibly-negative JavaScript index. -/
def listGetI (l : List Item) (i : Int) : Option Item :=
  if i < 0 then none else l.get? i.toNat

/-- `_calcHeightOfItems props startIndex endIndex`: sum of
`_getHeightOfItem(itemList[i])` for `i = startIndex .. endIndex`
(inclusive; empty when `endIndex < startIndex`, out-of-range summands 0). -/
def calcHeightOfItems (cache : List (String × ℚ)) (l : List Item)
    (startIndex endIndex : Int) : ℚ :=
  (List.range (endIndex + 1 - startIndex).toNat).foldl
    (fun acc (j : Nat) =>
      acc + getHeightOfItemOpt cache (listGetI l (startIndex + (j : Int)))) 0

/-- `_shouldShowItem`: shown iff the height is known and the initial fill
has completed. -/
def shouldShowItem (s : VLVState) (item : Item) : Bool :=
  let isMeasuring := !isItemHeightKnown s.heightCache item
  let shouldHide := isMeasuring || !s.isInitialFillComplete
  !shouldHide

/-- `_calcOverdrawAmount`. -/
def calcOverdrawAmount (s : VLVState) : ℚ :=
  if s.isInitialFillComplete then
    min (max (s.layoutHeight * renderOverdrawFactor) minOverdrawAmount)
      maxOverdrawAmount
  else 0

/-- `_setCellTopAndVisibility` (the `animate` flag only drives the live
cell's tween and is ignored in the state; a missing cell asserts and
returns). -/
def setCellTopAndVisibility (s : VLVState) (itemKey : String)
    (isVisible : Bool) (top : ℚ) (_animateIfPreviouslyVisible : Bool) :
    VLVState :=
  match lookupKey s.activeCells itemKey with
  | none => s
  | some cellInfo =>
      { s with activeCells :=
          (setKey s.activeCells itemKey
            { cellInfo with isVisible := isVisible, top := top }) }

/-- `_isCellVisible`. -/
def isCellVisible (s : VLVState) (itemKey : String) : Bool :=
  match lookupKey s.activeCells itemKey with
  | none => false
  | some cellInfo => cellInfo.isVisible

/-- `l.splice(i, 1)`. -/
def spliceAt {α : Type} (l : List α) (i : Nat) : List α :=
  l.take i ++ l.drop (i + 1)

/-- The recycled-cell search of `_allocateCell`: first an exact
`template`+`cachedItemKey`+`height` match, else a template-only match,
and only for templated constant-height items. -/
def poolMatchIndex (recycledCells : List Cell) (itemKey : String)
    (itemTemplate : Option String) (isHeightConstant : Bool) (height : ℚ) :
    Option Nat :=
  if itemTemplate.isSome && isHeightConstant then
    match recycledCells.findIdx? (fun cell =>
        cell.itemTemplate = itemTemplate ∧
        cell.cachedItemKey = itemKey ∧ cell.height = height) with
    | some i => some i
    | none =>
        recycledCells.findIdx? (fun cell => cell.itemTemplate = itemTemplate)
  else none

/-- `_allocateCell`.  Reuses the active cell bound to the key if any; else
rebinds a pool match when one exists; else mints a brand-new cell with the
next virtual key.  (`itemIndex` is a parameter of the source function that
its body never reads.) -/
def allocateCell (s : VLVState) (itemKey : String)
    (itemTemplate : Option String) (_itemIndex : Nat)
    (isHeightConstant : Bool) (height : ℚ) (top : ℚ) (isVisible : Bool) :
    VLVState :=
  match lookupKey s.activeCells itemKey with
  | some cell =>
      { s with
          isRenderDirty := true
          activeCells := setKey s.activeCells itemKey
            { cell with isVisible := isVisible, top := top,
                        shouldUpdate := true } }
  | none =>
      match poolMatchIndex s.recycledCells itemKey itemTemplate
          isHeightConstant height with
      | some i =>
          match s.recycledCells.get? i with
          | some cell =>
              { s with
                  recycledCells := spliceAt s.recycledCells i
                  isRenderDirty := true
                  activeCells := setKey s.activeCells itemKey
                    { cell with isVisible := isVisible, top := top,
                                shouldUpdate := true } }
          | none => s
      | none =>
          let newCell : Cell :=
            { virtualKey := s.nextCellKey
              itemTemplate := itemTemplate
              isHeightConstant := isHeightConstant
              height := height
              cachedItemKey := itemKey
              top := top
              isVisible := isVisible
              shouldUpdate := true }
          { s with
              nextCellKey := s.nextCellKey + 1
              isRenderDirty := true
              activeCells := setKey s.activeCells itemKey newCell }

/-- `_recycleCell`: hide the cell in place, pool it when it carries a
template and a constant height (trimming the oldest past capacity and
marking dirty), else drop it marking dirty; with recycling off
(`maxRecycledCells = 0`) just drop it; finally unbind the key. -/
def recycleCell (s : VLVState) (itemKey : String) : VLVState :=
  match lookupKey s.activeCells itemKey with
  | none => s
  | some virtualCellInfo =>
      if s.maxRecycledCells > 0 then
        let hidden := { virtualCellInfo with isVisible := false }
        if virtualCellInfo.itemTemplate.isSome &&
            virtualCellInfo.isHeightConstant then
          let pool := s.recycledCells ++ [hidden]
          if pool.length > s.maxRecycledCells then
            { s with
                recycledCells := spliceAt pool 0
                isRenderDirty := true
                activeCells := eraseKey s.activeCells itemKey }
          else
            { s with
                recycledCells := pool
                activeCells := eraseKey s.activeCells itemKey }
        else
          { s with
              isRenderDirty := true
              activeCells := eraseKey s.activeCells itemKey }
      else
        { s with activeCells := eraseKey s.activeCells itemKey }

/-- The top cull loop of `_calcNewRenderedItemState`: while the block is
non-empty and the first in-block item has a known height and its bottom
edge lies strictly below `topCullLine`, move it from "in" to "above" and
recycle its cell.  `fuel` starts at `itemsInRenderBlock`, which strictly
decreases, so the recursion mirrors the `while` loop exactly. -/
def cullTop : Nat → VLVState → ℚ → VLVState
  | 0, s, _ => s
  | fuel + 1, s, topCullLine =>
      if s.itemsInRenderBlock = 0 then s
      else
        match s.itemList.get? s.itemsAboveRenderBlock with
        | none => s
        | some item =>
            if !isItemHeightKnown s.heightCache item then s
            else
              let itemHeight := getHeightOfItem s.heightCache item
              if s.heightAboveRenderAdjustment + s.heightAboveRenderBlock +
                  itemHeight ≥ topCullLine then s
              else
                cullTop fuel
                  (recycleCell
                    { s with
                        itemsInRenderBlock := s.itemsInRenderBlock - 1
                        heightOfRenderBlock :=
                          s.heightOfRenderBlock - itemHeight
                        itemsAboveRenderBlock := s.itemsAboveRenderBlock + 1
                        heightAboveRenderBlock :=
                          s.heightAboveRenderBlock + itemHeight }
                    item.key)
                  topCullLine

/-- The bottom cull loop of `_calcNewRenderedItemState` (symmetric to
`cullTop`, trimming against `bottomCullLine`). -/
def cullBottom : Nat → VLVState → ℚ → VLVState
  | 0, s, _ => s
  | fuel + 1, s, bottomCullLine =>
      if s.itemsInRenderBlock = 0 then s
      else
        match s.itemList.get? (s.itemsAboveRenderBlock +
            s.itemsInRenderBlock - 1) with
        | none => s
        | some item =>
            if !isItemHeightKnown s.heightCache item then s
            else
              let itemHeight := getHeightOfItem s.heightCache item
              if s.heightAboveRenderAdjustment + s.heightAboveRenderBlock +
                  s.heightOfRenderBlock - itemHeight ≤ bottomCullLine then s
              else
                cullBottom fuel
                  (recycleCell
                    { s with
                        itemsInRenderBlock := s.itemsInRenderBlock - 1
                        heightOfRenderBlock :=
                          s.heightOfRenderBlock - itemHeight
                        itemsBelowRenderBlock :=
                          s.itemsBelowRenderBlock + 1
                        heightBelowRenderBlock :=
                          s.heightBelowRenderBlock + itemHeight }
                    item.key)
                  bottomCullLine

/-- The seeding scan of `_calcNewRenderedItemState` (`itemsInRenderBlock
=== 0` case): walk the list accumulating heights until the running bottom
edge exceeds `renderBlockTopLimit`; that item becomes the single block
member and gets a cell (queued for measurement if its height is unknown). -/
def seedLoop : List Item → Nat → ℚ → ℚ → VLVState → VLVState
  | [], _, _, _, s => s
  | item :: rest, i, yPosition, renderBlockTopLimit, s =>
      let itemHeight := getHeightOfItem s.heightCache item
      let yPosition := yPosition + itemHeight
      if yPosition > renderBlockTopLimit then
        let s := { s with itemsAboveRenderBlock := i, itemsInRenderBlock := 1 }
        let s := allocateCell s item.key item.template i (!item.measureHeight)
          item.height (yPosition - itemHeight) (shouldShowItem s item)
        if !isItemHeightKnown s.heightCache item then
          { s with pendingMeasurements := addKeyset s.pendingMeasurements item.key }
        else s
      else seedLoop rest (i + 1) yPosition renderBlockTopLimit s

/-- The repositioning pass of `_calcNewRenderedItemState`: walk the block
top to bottom assigning each bound cell its cumulative `top` and its
policy visibility.  Returns the state together with the running position
(`bottomOfRenderBlockY` at the end). -/
def repositionLoop : Nat → Nat → ℚ → VLVState → VLVState × ℚ
  | 0, _, yPosition, s => (s, yPosition)
  | count + 1, itemIndex, yPosition, s =>
      match s.itemList.get? itemIndex with
      | none => (s, yPosition)
      | some item =>
          let s := setCellTopAndVisibility s item.key (shouldShowItem s item)
            yPosition false
          let height := getHeightOfItem s.heightCache item
          repositionLoop count (itemIndex + 1) (yPosition + height) s

/-- `buildItem` from `_calcNewRenderedItemState` (shared by both grow
loops): move one item at `itemIndex` into the block from above or below,
updating the count/height pairs, queueing a measurement when the height is
unknown, and allocating its cell at the given placement.  Returns the new
state and the item's height (for the caller's running edge). -/
def buildItem (s : VLVState) (itemIndex : Nat) (above : Bool)
    (yPlacement : ℚ) : VLVState × ℚ :=
  match s.itemList.get? itemIndex with
  | none => (s, 0)
  | some item =>
      let isHeightKnown := isItemHeightKnown s.heightCache item
      let itemHeight := getHeightOfItem s.heightCache item
      let s := { s with
        itemsInRenderBlock := s.itemsInRenderBlock + 1
        heightOfRenderBlock := s.heightOfRenderBlock + itemHeight }
      let s :=
        if above then
          { s with
              itemsAboveRenderBlock := s.itemsAboveRenderBlock - 1
              heightAboveRenderBlock := s.heightAboveRenderBlock - itemHeight }
        else
          { s with
              itemsBelowRenderBlock := s.itemsBelowRenderBlock - 1
              heightBelowRenderBlock := s.heightBelowRenderBlock - itemHeight }
      let s :=
        if !isHeightKnown then
          { s with pendingMeasurements :=
              addKeyset s.pendingMeasurements item.key }
        else s
      let s := allocateCell s item.key item.template itemIndex
        (!item.measureHeight) item.height yPlacement (shouldShowItem s item)
      (s, itemHeight)

/-- The bottom grow loop: while fewer than `maxSimultaneousMeasures`
measurements are outstanding, there are items below, and the block's
bottom edge is above `renderBlockBottomLimit`, append the next item below.
`fuel` starts at `itemsBelowRenderBlock`, which strictly decreases. -/
def growBottom : Nat → VLVState → ℚ → ℚ → VLVState × ℚ
  | 0, s, bottomOfRenderBlockY, _ => (s, bottomOfRenderBlockY)
  | fuel + 1, s, bottomOfRenderBlockY, renderBlockBottomLimit =>
      if s.pendingMeasurements.length ≥ maxSimultaneousMeasures then
        (s, bottomOfRenderBlockY)
      else if s.itemsBelowRenderBlock = 0 ∨
          s.heightAboveRenderAdjustment + s.heightAboveRenderBlock +
            s.heightOfRenderBlock ≥ renderBlockBottomLimit then
        (s, bottomOfRenderBlockY)
      else
        let p := buildItem s (s.itemsAboveRenderBlock + s.itemsInRenderBlock)
          false bottomOfRenderBlockY
        growBottom fuel p.1 (bottomOfRenderBlockY + p.2) renderBlockBottomLimit

/-- The top grow loop (symmetric to `growBottom`, prepending above while
the block's top edge is below `renderBlockTopLimit`). -/
def growTop : Nat → VLVState → ℚ → ℚ → VLVState × ℚ
  | 0, s, topOfRenderBlockY, _ => (s, topOfRenderBlockY)
  | fuel + 1, s, topOfRenderBlockY, renderBlockTopLimit =>
      if s.pendingMeasurements.length ≥ maxSimultaneousMeasures then
        (s, topOfRenderBlockY)
      else if s.itemsAboveRenderBlock = 0 ∨
          s.heightAboveRenderAdjustment + s.heightAboveRenderBlock ≤
            renderBlockTopLimit then
        (s, topOfRenderBlockY)
      else
        let p := buildItem s (s.itemsAboveRenderBlock - 1) true
          (topOfRenderBlockY - getHeightOfItemOpt s.heightCache
            (s.itemList.get? (s.itemsAboveRenderBlock - 1)))
        growTop fuel p.1 (topOfRenderBlockY - p.2) renderBlockTopLimit

/-- One iteration of the `_popInvisibleIntoView` loop: snap the cell of
the block item at offset `i` to its policy visibility at its current
`top`, without animation (a missing cell would crash the source; it is
skipped). -/
def popCellIntoView (t : VLVState) (i : Nat) : VLVState :=
  match t.itemList.get? (t.itemsAboveRenderBlock + i) with
  | none => t
  | some item =>
      match lookupKey t.activeCells item.key with
      | none => t
      | some cellInfo =>
          setCellTopAndVisibility t item.key (shouldShowItem t item)
            cellInfo.top false

/-- `_popInvisibleIntoView`: mark the initial fill complete and snap every
in-block cell into view. -/
def popInvisibleIntoView (s : VLVState) : VLVState :=
  (List.range s.itemsInRenderBlock).foldl popCellIntoView
    { s with isInitialFillComplete := true }

/-- The cull passes of `_calcNewRenderedItemState`: compute the cull lines
and trim the block from the top and then from the bottom. -/
def calcCullPhase (s : VLVState) : VLVState :=
  let cullMargin := max (s.layoutHeight * cullFraction) minCullAmount
  let topCullLine := s.lastScrollTop - cullMargin
  let bottomCullLine := s.lastScrollTop + s.layoutHeight + cullMargin
  let s1 := cullTop s.itemsInRenderBlock s topCullLine
  cullBottom s1.itemsInRenderBlock s1 bottomCullLine

/-- The seed pass of `_calcNewRenderedItemState` (`itemsInRenderBlock ===
0` case): find the first item past the top render limit, allocate it as
the sole block member, and re-derive `itemsBelowRenderBlock` and the three
cumulative heights from scratch. -/
def calcSeedPhase (renderBlockTopLimit : ℚ) (s : VLVState) : VLVState :=
  if s.itemsInRenderBlock = 0 then
    let s := { s with itemsAboveRenderBlock := 0 }
    let s := seedLoop s.itemList 0 s.heightAboveRenderAdjustment
      renderBlockTopLimit s
    let len := s.itemList.length
    let s := { s with itemsBelowRenderBlock :=
      len - s.itemsAboveRenderBlock - s.itemsInRenderBlock }
    { s with
        heightAboveRenderBlock := calcHeightOfItems s.heightCache
          s.itemList 0 ((s.itemsAboveRenderBlock : Int) - 1)
        heightOfRenderBlock := calcHeightOfItems s.heightCache
          s.itemList (s.itemsAboveRenderBlock : Int)
          ((s.itemsAboveRenderBlock : Int) +
            (s.itemsInRenderBlock : Int) - 1)
        heightBelowRenderBlock := calcHeightOfItems s.heightCache
          s.itemList
          ((s.itemsAboveRenderBlock : Int) + (s.itemsInRenderBlock : Int))
          ((len : Int) - 1) }
  else s

/-- The tail of `_calcNewRenderedItemState`: compute the container height,
reposition the block, update the stored container height on change, grow
the block downward then upward, and on completing the initial fill pop the
hidden cells into view (the `_componentDidRender` call there clears the
dirty flag synchronously and defers another recalculation, which is a
separate `Event.tick`). -/
def calcMainPhase (renderBlockTopLimit renderBlockBottomLimit : ℚ)
    (s : VLVState) : VLVState :=
  let itemBlockHeight := s.heightAboveRenderAdjustment +
    s.heightAboveRenderBlock + s.heightOfRenderBlock +
    s.heightBelowRenderBlock
  let containerHeight := max itemBlockHeight s.layoutHeight
  let yPosition := s.heightAboveRenderBlock + s.heightAboveRenderAdjustment
  let topOfRenderBlockY := yPosition
  let rp := repositionLoop s.itemsInRenderBlock s.itemsAboveRenderBlock
    yPosition s
  let s := rp.1
  let bottomOfRenderBlockY := rp.2
  let s :=
    if containerHeight ≠ s.containerHeight then
      { s with containerHeight := containerHeight }
    else s
  let gb := growBottom s.itemsBelowRenderBlock s bottomOfRenderBlockY
    renderBlockBottomLimit
  let s := gb.1
  let gt := growTop s.itemsAboveRenderBlock s topOfRenderBlockY
    renderBlockTopLimit
  let s := gt.1
  if !s.isInitialFillComplete ∧ !s.isRenderDirty ∧
      s.pendingMeasurements.length = 0 then
    { popInvisibleIntoView s with isRenderDirty := false }
  else s

/-- `_calcNewRenderedItemState`: the single recomputation that every event
funnels into — no-op guards, then cull, seed, and the container/reposition/
grow/initial-fill tail, with the render limits computed from the post-cull
state. -/
def calcNewRenderedItemState (s : VLVState) : VLVState :=
  if s.layoutHeight = 0 then s
  else if s.itemList.length = 0 then s
  else if s.pendingMeasurements.length > 0 then s
  else
    let s := calcCullPhase s
    let overdrawAmount := calcOverdrawAmount s
    let renderMargin := if s.isInitialFillComplete then overdrawAmount else 0
    let renderBlockTopLimit := s.lastScrollTop - renderMargin
    let renderBlockBottomLimit :=
      s.lastScrollTop + s.layoutHeight + renderMargin
    let s := calcSeedPhase renderBlockTopLimit s
    calcMainPhase renderBlockTopLimit renderBlockBottomLimit s

/-- One iteration of the correction loop in `_reconcileCorrections`:
shift the cell of the block item at offset `i` by minus the accumulated
adjustment, keeping its visibility, without animation (the adjustment
field is only zeroed after the loop, so reading it from the accumulator
equals the source's read of the still-unchanged instance field; a missing
cell would crash the source and is skipped). -/
def reconcileShiftCell (t : VLVState) (i : Nat) : VLVState :=
  match t.itemList.get? (t.itemsAboveRenderBlock + i) with
  | none => t
  | some item =>
      match lookupKey t.activeCells item.key with
      | none => t
      | some cell =>
          setCellTopAndVisibility t item.key cell.isVisible
            (cell.top - t.heightAboveRenderAdjustment) false

/-- `_reconcileCorrections`: deferred while item animations are pending;
otherwise, with the allowed slack hard-coded to zero, any nonzero
accumulated `heightAboveRenderAdjustment` triggers the atomic correction:
shrink the container by the offset, shift every in-block cell's `top` by
`-offset` without animating (a missing cell would crash the source; it is
skipped), and zero the offset. -/
def reconcileCorrections (s : VLVState) : VLVState :=
  if s.pendingAnimations.length > 0 then s
  else
    let maxFakeSpaceOffset : ℚ := 0
    let maxFakeSpaceOffset :=
      if s.lastScrollTop = 0 ∨
          s.lastScrollTop < s.heightAboveRenderAdjustment then (0 : ℚ)
      else maxFakeSpaceOffset
    if |s.heightAboveRenderAdjustment| > maxFakeSpaceOffset then
      { (List.range s.itemsInRenderBlock).foldl reconcileShiftCell
          { s with containerHeight :=
              s.containerHeight - s.heightAboveRenderAdjustment } with
        heightAboveRenderAdjustment := 0 }
    else s

/-- `render()` + `componentDidUpdate` + the synchronous part of
`_componentDidRender`: rebuild the list of rendered navigable items from
the block, clear every rendered cell's `shouldUpdate`, and clear the dirty
flag.  (The JSX tree handed to the host holds no further engine state.) -/
def renderStep (s : VLVState) : VLVState :=
  let navigatable := (((s.itemList.drop s.itemsAboveRenderBlock).take
    s.itemsInRenderBlock).filter (fun item => item.isNavigable)).map
    (fun item => item.key)
  let blockKeys := ((s.itemList.drop s.itemsAboveRenderBlock).take
    s.itemsInRenderBlock).map (fun item => item.key)
  { s with
      navigatableItemsRendered := navigatable
      activeCells := s.activeCells.map (fun p =>
        if p.1 ∈ blockKeys then (p.1, { p.2 with shouldUpdate := false })
        else p)
      recycledCells := s.recycledCells.map
        (fun cell => { cell with shouldUpdate := false })
      isRenderDirty := false }

/-- `_renderIfDirty`: force a render pass when the dirty flag is set. -/
def renderIfDirty (s : VLVState) : VLVState :=
  if s.isRenderDirty then renderStep s else s

/-- `_focusSubsequentItem direction viaKeyboard retry` (modelled for the
`viaKeyboard = false` call sites; the keyboard variant additionally
scrolls, which reaches the engine only as a later scroll event).  Returns
whether a focus change was found or deferred, together with the state
(changed only by the scroll-and-defer retry, which records
`pendingFocusDirection`). -/
def focusSubsequentItem (s : VLVState) (direction : Int) (retry : Bool) :
    Bool × VLVState :=
  let index? := s.navigatableItemsRendered.findIdx? (fun k =>
    s.lastFocusedItemKey = some k)
  match index? with
  | some index =>
      if 0 ≤ (index : Int) + direction ∧
          (index : Int) + direction < (s.navigatableItemsRendered.length : Int)
      then (true, s)
      else (false, s)
  | none =>
      match s.lastFocusedItemKey with
      | none => (false, s)
      | some lastKey =>
          if retry then
            match lookupKey s.itemMap lastKey with
            | none => (false, s)
            | some _ =>
                (true, { s with pendingFocusDirection := some direction })
          else (false, s)

/-- One step of the deleted-items pass of `_handleItemListChange`,
applied to the old item at `itemIndex`: if its key left the list,
re-target focus if it was focused (falling back down then up, resetting
to `none` when both fail), fold its height into the phantom offset when
it sat above the block, drop its cache and pending entries, and recycle
its cell. -/
def hlcDeleteItem (newItemMap : List (String × Nat)) (itemIndex : Nat)
    (item : Item) (s : VLVState) : VLVState :=
  if (lookupKey newItemMap item.key).isSome then s
  else
    let s :=
      if s.lastFocusedItemKey = some item.key then
        if !(focusSubsequentItem s 1 false).1 ∧
            !(focusSubsequentItem s (-1) false).1 then
          { s with lastFocusedItemKey := none }
        else s
      else s
    let s :=
      if itemIndex < s.itemsAboveRenderBlock then
        { s with heightAboveRenderAdjustment :=
            s.heightAboveRenderAdjustment +
              getHeightOfItem s.heightCache item }
      else s
    let s := { s with
      heightCache := eraseKey s.heightCache item.key
      pendingMeasurements := eraseKeyset s.pendingMeasurements item.key }
    if (lookupKey s.activeCells item.key).isSome then
      recycleCell s item.key
    else s

/-- The deleted-items pass of `_handleItemListChange` over the old list. -/
def hlcDeletedPass (newItemMap : List (String × Nat)) :
    List Item → Nat → VLVState → VLVState
  | [], _, s => s
  | item :: rest, itemIndex, s =>
      hlcDeletedPass newItemMap rest (itemIndex + 1)
        (hlcDeleteItem newItemMap itemIndex item s)

/-- The bounds walk of `_handleItemListChange`: sweep the new list
accumulating heights; recycle cells that fall before the top limit or past
the bottom limit, and for items within the limits count the block
(recording its first index), repositioning already-active cells and
allocating the rest (queueing unknown heights for measurement). -/
def hlcBoundsWalk (renderBlockTopLimit renderBlockBottomLimit : ℚ) :
    List Item → Nat → ℚ → Bool → VLVState → VLVState
  | [], _, _, _, s => s
  | item :: rest, itemIndex, yPosition, lookingForStart, s =>
      let itemHeight := getHeightOfItem s.heightCache item
      let yPosition := yPosition + itemHeight
      if yPosition ≤ renderBlockTopLimit then
        let s :=
          if (lookupKey s.activeCells item.key).isSome then
            recycleCell s item.key
          else s
        hlcBoundsWalk renderBlockTopLimit renderBlockBottomLimit rest
          (itemIndex + 1) yPosition lookingForStart s
      else
        let s :=
          if lookingForStart then
            { s with itemsAboveRenderBlock := itemIndex }
          else s
        if yPosition - itemHeight < renderBlockBottomLimit then
          let s := { s with itemsInRenderBlock := s.itemsInRenderBlock + 1 }
          let s :=
            if (lookupKey s.activeCells item.key).isSome then
              setCellTopAndVisibility s item.key (shouldShowItem s item)
                (yPosition - itemHeight) false
            else
              let s := allocateCell s item.key item.template itemIndex
                (!item.measureHeight) item.height (yPosition - itemHeight)
                (shouldShowItem s item)
              if !isItemHeightKnown s.heightCache item then
                { s with pendingMeasurements :=
                    addKeyset s.pendingMeasurements item.key }
              else s
          hlcBoundsWalk renderBlockTopLimit renderBlockBottomLimit rest
            (itemIndex + 1) yPosition false s
        else
          let s :=
            if (lookupKey s.activeCells item.key).isSome then
              recycleCell s item.key
            else s
          hlcBoundsWalk renderBlockTopLimit renderBlockBottomLimit rest
            (itemIndex + 1) yPosition false s

/-- The `newItemMap.set(item.key, itemIndex)` loop of
`_handleItemListChange` (a duplicated key keeps its last index; the
duplicate only trips a non-fatal assertion). -/
def buildItemMapAux : List Item → Nat → List (String × Nat) →
    List (String × Nat)
  | [], _, m => m
  | item :: rest, itemIndex, m =>
      buildItemMapAux rest (itemIndex + 1) (setKey m item.key itemIndex)

/-- The item map built by `_handleItemListChange`. -/
def buildItemMap (items : List Item) : List (String × Nat) :=
  buildItemMapAux items 0 []

/-- One step of the `shouldUpdate` marking in the first pass of
`_handleItemListChange`: an active cell whose item is new to the map or
whose item value changed is marked (with `skipRenderIfItemUnchanged` fixed
`false`, the test is `!_.isEqual(oldItem, item)`). -/
def hlcMarkCell (oldList : List Item) (oldItemMap : List (String × Nat))
    (item : Item) (s : VLVState) : VLVState :=
  match lookupKey s.activeCells item.key with
  | none => s
  | some cell =>
      match lookupKey oldItemMap item.key with
      | none =>
          { s with activeCells := (setKey s.activeCells item.key
              { cell with shouldUpdate := true }) }
      | some oldItemIndex =>
          match oldList.get? oldItemIndex with
          | none =>
              { s with activeCells := (setKey s.activeCells item.key
                  { cell with shouldUpdate := true }) }
          | some oldItem =>
              if oldItem ≠ item then
                { s with activeCells := (setKey s.activeCells item.key
                    { cell with shouldUpdate := true }) }
              else s

/-- The marking pass of `_handleItemListChange` over the new list. -/
def hlcMarkPass (oldList : List Item) (oldItemMap : List (String × Nat)) :
    List Item → VLVState → VLVState
  | [], s => s
  | item :: rest, s =>
      hlcMarkPass oldList oldItemMap rest (hlcMarkCell oldList oldItemMap item s)

/-- The tail of `_handleItemListChange`, from the bounds sweep on: zero
the block counters, sweep the new list for the new block bounds, replace
the item map and list, derive `itemsBelowRenderBlock` and the three
cumulative heights, and pre-populate the container height when it is
still zero.  (`s0.heightAboveRenderAdjustment` is read before the counter
zeroing, which does not touch it.) -/
def handleItemListChangePost (newItems : List Item)
    (newItemMap : List (String × Nat))
    (renderBlockTopLimit renderBlockBottomLimit : ℚ) (s0 : VLVState) :
    VLVState :=
  let s := hlcBoundsWalk renderBlockTopLimit renderBlockBottomLimit newItems
    0 s0.heightAboveRenderAdjustment true
    { s0 with itemsAboveRenderBlock := 0, itemsInRenderBlock := 0 }
  let s := { s with itemMap := newItemMap, itemList := newItems }
  let s := { s with itemsBelowRenderBlock :=
    s.itemList.length - s.itemsAboveRenderBlock - s.itemsInRenderBlock }
  let s := { s with
    heightAboveRenderBlock := calcHeightOfItems s.heightCache s.itemList 0
      ((s.itemsAboveRenderBlock : Int) - 1)
    heightOfRenderBlock := calcHeightOfItems s.heightCache s.itemList
      (s.itemsAboveRenderBlock : Int)
      ((s.itemsAboveRenderBlock : Int) + (s.itemsInRenderBlock : Int) - 1)
    heightBelowRenderBlock := calcHeightOfItems s.heightCache s.itemList
      ((s.itemsAboveRenderBlock : Int) + (s.itemsInRenderBlock : Int))
      ((s.itemList.length : Int) - 1) }
  if s.containerHeight = 0 then
    { s with containerHeight := s.heightAboveRenderBlock +
        s.heightOfRenderBlock + s.heightBelowRenderBlock }
  else s

/-- `_handleItemListChange props` for a new item list: mark changed active
cells, process deletions, then rebuild the render-block bookkeeping with
the overdraw limits computed from the post-deletion state. -/
def handleItemListChange (newItems : List Item) (s : VLVState) : VLVState :=
  let newItemMap := buildItemMap newItems
  let s := hlcMarkPass s.itemList s.itemMap newItems s
  let s := hlcDeletedPass newItemMap s.itemList 0 s
  let overdrawAmount := calcOverdrawAmount s
  handleItemListChangePost newItems newItemMap
    (s.lastScrollTop - overdrawAmount)
    (s.lastScrollTop + s.layoutHeight + overdrawAmount) s

/-- The `foundVisibleItemBefore` scan in `_onLayoutItem`: walk the block
from its first item, stopping (false) at the reported item's index, or
succeeding (true) at the first visible cell. -/
def foundVisibleItemBeforeLoop (s : VLVState) (itemIndex : Nat) :
    Nat → Nat → Bool
  | 0, _ => false
  | count + 1, i =>
      match s.itemList.get? i with
      | none => false
      | some item =>
          if isCellVisible s item.key then true
          else if i = itemIndex then false
          else foundVisibleItemBeforeLoop s itemIndex count (i + 1)

/-- `_onLayoutItem itemKey newHeight` (a measured-height report): ignore
unknown keys and constant-height items; cache the height; for an item
outside the tracked block stop there; otherwise fold the delta into the
block height (and, post-fill, into the phantom offset when no visible cell
precedes it), clear the pending entry, recalculate when the height changed
or the pending set drained, and finally reconcile. -/
def onLayoutItem (itemKey : String) (newHeight : ℚ) (s : VLVState) :
    VLVState :=
  match lookupKey s.itemMap itemKey with
  | none => s
  | some itemIndex =>
      match s.itemList.get? itemIndex with
      | none => s
      | some item =>
          let oldHeight := getHeightOfItem s.heightCache item
          if !item.measureHeight then s
          else
            let s := { s with
              heightCache := setKey s.heightCache itemKey newHeight }
            if itemIndex < s.itemsAboveRenderBlock ∨
                itemIndex ≥ s.itemsAboveRenderBlock + s.itemsInRenderBlock
            then s
            else
              let s :=
                if oldHeight ≠ newHeight then
                  let s := { s with
                    heightOfRenderBlock :=
                      s.heightOfRenderBlock + (newHeight - oldHeight) }
                  if s.isInitialFillComplete then
                    if !foundVisibleItemBeforeLoop s itemIndex
                        s.itemsInRenderBlock s.itemsAboveRenderBlock then
                      { s with heightAboveRenderAdjustment :=
                          s.heightAboveRenderAdjustment +
                            (oldHeight - newHeight) }
                    else s
                  else s
                else s
              let needsRecalc : Bool := decide (oldHeight ≠ newHeight)
              let s := { s with
                pendingMeasurements :=
                  eraseKeyset s.pendingMeasurements itemKey }
              let needsRecalc : Bool := needsRecalc ||
                s.pendingMeasurements.isEmpty
              let s :=
                if needsRecalc = true then
                  renderIfDirty (calcNewRenderedItemState s)
                else s
              reconcileCorrections s

/-- `_onScroll scrollTop`: ignore a position already known; otherwise
record it, recalculate, render if dirty, and reconcile. -/
def onScroll (scrollTop : ℚ) (s : VLVState) : VLVState :=
  if s.lastScrollTop = scrollTop then s
  else
    let s := { s with lastScrollTop := scrollTop }
    let s := renderIfDirty (calcNewRenderedItemState s)
    reconcileCorrections s

/-- The height branch of `_onLayoutContainer` (a viewport resize; the
width branch only caches the content width for the next JSX pass). -/
def onLayoutContainer (layoutHeight : ℚ) (s : VLVState) : VLVState :=
  if s.layoutHeight = layoutHeight then s
  else
    let s := { s with layoutHeight := layoutHeight }
    let s := renderIfDirty (calcNewRenderedItemState s)
    reconcileCorrections s

/-- `_onAnimateStartStopItem`: track the pending-animation set; on the last
stop, the deferred continuation reconciles (no other event can intervene
before the deferred turn in this model, so it is folded in). -/
def onAnimateStartStopItem (itemKey : String) (animateStart : Bool)
    (s : VLVState) : VLVState :=
  if animateStart then
    { s with pendingAnimations := addKeyset s.pendingAnimations itemKey }
  else
    let s := { s with
      pendingAnimations := eraseKeyset s.pendingAnimations itemKey }
    if s.pendingAnimations.length = 0 then reconcileCorrections s else s

/-- The deferred continuation scheduled by `_componentDidRender`:
recalculate, render if dirty, reconcile, and resolve a pending deferred
focus (which, with `retry = false`, only clears the recorded direction). -/
def deferredTick (s : VLVState) : VLVState :=
  let s := renderIfDirty (calcNewRenderedItemState s)
  let s := reconcileCorrections s
  match s.pendingFocusDirection with
  | none => s
  | some direction =>
      let s := (focusSubsequentItem s direction false).2
      { s with pendingFocusDirection := none }

/-- The events that reach the engine: the three host entry points, a
measured-height report, an animation lifecycle notification, and the
deferred render-completion turn. -/
inductive Event where
  | listChange (newItems : List Item)
  | scroll (scrollTop : ℚ)
  | resize (layoutHeight : ℚ)
  | heightReport (itemKey : String) (newHeight : ℚ)
  | animStartStop (itemKey : String) (animateStart : Bool)
  | tick
deriving DecidableEq, Repr

/-- One event-loop turn.  A list change runs `_updateStateFromProps`:
`_handleItemListChange`, `_calcNewRenderedItemState`, `_renderIfDirty`. -/
def step (s : VLVState) : Event → VLVState
  | .listChange newItems =>
      renderIfDirty (calcNewRenderedItemState (handleItemListChange newItems s))
  | .scroll scrollTop => onScroll scrollTop s
  | .resize layoutHeight => onLayoutContainer layoutHeight s
  | .heightReport itemKey newHeight => onLayoutItem itemKey newHeight s
  | .animStartStop itemKey animateStart =>
      onAnimateStartStopItem itemKey animateStart s
  | .tick => deferredTick s

/-- The constructor's field initializers (before `_updateStateFromProps`). -/
def emptyState (items : List Item) : VLVState :=
  { itemList := items
    lastScrollTop := 0
    layoutHeight := 0
    containerHeight := 0
    itemMap := []
    isRenderDirty := false
    pendingAnimations := []
    heightAboveRenderAdjustment := 0
    heightAboveRenderBlock := 0
    heightOfRenderBlock := 0
    heightBelowRenderBlock := 0
    itemsAboveRenderBlock := 0
    itemsInRenderBlock := 0
    itemsBelowRenderBlock := 0
    pendingMeasurements := []
    isInitialFillComplete := false
    heightCache := []
    activeCells := []
    recycledCells := []
    navigatableItemsRendered := []
    maxRecycledCells := maxRecycledCellsDefault
    nextCellKey := 1
    lastFocusedItemKey := none
    pendingFocusDirection := none }

/-- The constructor: field initializers followed by
`_updateStateFromProps props true` (`this.props` is already `props`, so
the old list equals the new one). -/
def initState (items : List Item) : VLVState :=
  step (emptyState items) (.listChange items)

/-- Run a sequence of events from the freshly constructed component. -/
def runEvents (items : List Item) (events : List Event) : VLVState :=
  events.foldl step (initState items)

/-! ## Specification-side definitions -/

/-- Sum of the oracle heights of a list of items. -/
def sumHeights (cache : List (String × ℚ)) (items : List Item) : ℚ :=
  (items.map (getHeightOfItem cache)).sum

/-- The items of the render block `[itemsAbove, itemsAbove + itemsIn)`. -/
def blockItems (s : VLVState) : List Item :=
  (s.itemList.drop s.itemsAboveRenderBlock).take s.itemsInRenderBlock

/-- The items above the render block. -/
def aboveItems (s : VLVState) : List Item :=
  s.itemList.take s.itemsAboveRenderBlock

/-- The items below the render block. -/
def belowItems (s : VLVState) : List Item :=
  s.itemList.drop (s.itemsAboveRenderBlock + s.itemsInRenderBlock)

/-- Claim C1's invariant: the three render-block counters partition the
item list. -/
def sumInv (s : VLVState) : Prop :=
  s.itemsAboveRenderBlock + s.itemsInRenderBlock + s.itemsBelowRenderBlock =
    s.itemList.length

/-- The in-block part of claim C2's invariant. -/
def heightsInvBlock (s : VLVState) : Prop :=
  s.heightOfRenderBlock = sumHeights s.heightCache (blockItems s)

/-- Claim C2's full invariant: each cumulative height equals the oracle sum
over its index range. -/
def heightsInvFull (s : VLVState) : Prop :=
  s.heightAboveRenderBlock = sumHeights s.heightCache (aboveItems s) ∧
  s.heightOfRenderBlock = sumHeights s.heightCache (blockItems s) ∧
  s.heightBelowRenderBlock = sumHeights s.heightCache (belowItems s)

instance (s : VLVState) : Decidable (sumInv s) := by
  unfold sumInv; infer_instance

instance (s : VLVState) : Decidable (heightsInvBlock s) := by
  unfold heightsInvBlock; infer_instance

instance (s : VLVState) : Decidable (heightsInvFull s) := by
  unfold heightsInvFull; infer_instance

/-! ## Association list and keyset lemmas -/

/-- Abbreviation for the counter total. -/
def counts (s : VLVState) : Nat :=
  s.itemsAboveRenderBlock + s.itemsInRenderBlock + s.itemsBelowRenderBlock

/-- Every binding of the item map points at an item carrying that key. -/
def itemMapInv (s : VLVState) : Prop :=
  ∀ k i, lookupKey s.itemMap k = some i →
    ∃ it, s.itemList.get? i = some it ∧ it.key = k

/-- The data-model invariant that item keys are unique. -/
def nodupKeys (s : VLVState) : Prop := (s.itemList.map Item.key).Nodup

instance (s : VLVState) : Decidable (nodupKeys s) := by
  unfold nodupKeys
  infer_instance

/-- The fields the height invariants depend on. -/
def hfields (s : VLVState) :
    List Item × List (String × ℚ) × Nat × Nat × ℚ × ℚ × ℚ :=
  (s.itemList, s.heightCache, s.itemsAboveRenderBlock,
   s.itemsInRenderBlock, s.heightAboveRenderBlock,
   s.heightOfRenderBlock, s.heightBelowRenderBlock)

/-- The well-formedness of a single event assumed by the data model: a
replacement item list carries unique keys (the source asserts this). -/
def wfEvent : Event → Prop
  | .listChange newItems => (newItems.map Item.key).Nodup
  | _ => True

instance : ∀ e : Event, Decidable (wfEvent e)
  | .listChange newItems => by unfold wfEvent; infer_instance
  | .scroll _ => by unfold wfEvent; infer_instance
  | .resize _ => by unfold wfEvent; infer_instance
  | .heightReport _ _ => by unfold wfEvent; infer_instance
  | .animStartStop _ _ => by unfold wfEvent; infer_instance
  | .tick => by unfold wfEvent; infer_instance

/-- The state properties that make a height report sound: the item map
indexes the item list by key, keys are unique, and the in-block cumulative
height matches the oracle sum. -/
def goodState (s : VLVState) : Prop :=
  itemMapInv s ∧ nodupKeys s ∧ heightsInvBlock s

/-- Whether an event is a measured-height report. -/
def isHeightReport : Event → Bool
  | .heightReport _ _ => true
  | _ => false

/-! ## Fixtures for concrete witnesses and counterexamples -/

/-- A twelve-item fixture: items `k0`..`k11`, each measurable with declared
height 50 and a shared template. -/
def items12 : List Item :=
  (List.range 12).map (fun i =>
    { key := "k" ++ toString i, height := 50, measureHeight := true,
      template := some "t", isNavigable := true })

/-- A thirty-item fixture of constant-height items (declared height 50,
not measured). -/
def items30 : List Item :=
  (List.range 30).map (fun i =>
    { key := "c" ++ toString i, height := 50, measureHeight := false,
      template := some "t", isNavigable := true })

/-- A single constant-height item used by concrete reconciliation and
focus fixtures. -/
def itemA : Item :=
  { key := "a", height := 50, measureHeight := false, template := some "t",
    isNavigable := true }

/-- A state with one in-block cell and a phantom offset of 30, for the C4
witness. -/
def c4state : VLVState :=
  { emptyState [itemA] with
      itemsInRenderBlock := 1
      containerHeight := 100
      heightAboveRenderAdjustment := 30
      activeCells := [("a",
        { virtualKey := 1, itemTemplate := some "t", isHeightConstant := true,
          height := 50, cachedItemKey := "a", top := 40, isVisible := true,
          shouldUpdate := false })] }

/-- The total content height tracked by the engine: the phantom offset plus
the three cumulative heights. -/
def htotal (s : VLVState) : ℚ :=
  s.heightAboveRenderAdjustment + s.heightAboveRenderBlock +
    s.heightOfRenderBlock + s.heightBelowRenderBlock

/-- Two measurable items whose declared heights differ from their eventual
measurements, for the C5 counterexample. -/
def itemsAB : List Item :=
  [{ key := "A", height := 100, measureHeight := true,
     template := some "t", isNavigable := true },
   { key := "B", height := 600, measureHeight := true,
     template := some "t", isNavigable := true }]

theorem lookupKey_setKey_self {α : Type} (l : List (String × α)) (k : String)
    (v : α) : lookupKey (setKey l k v) k = some v := by
  induction l with
  | nil => simp [setKey, lookupKey]
  | cons p rest ih =>
      obtain ⟨k', v'⟩ := p
      by_cases h : k' = k
      · simp [setKey, lookupKey, h]
      · simp [setKey, lookupKey, h, ih]

theorem lookupKey_setKey_ne {α : Type} (l : List (String × α))
    (k k' : String) (v : α) (h : k' ≠ k) :
    lookupKey (setKey l k v) k' = lookupKey l k' := by
  induction l with
  | nil =>
      simp only [setKey, lookupKey]
      rw [if_neg (fun hk => h (hk.symm))]
  | cons p rest ih =>
      obtain ⟨k₀, v₀⟩ := p
      by_cases h₀ : k₀ = k
      · subst h₀
        simp only [setKey, if_pos rfl, lookupKey]
        rw [if_neg (fun hk : k₀ = k' => h hk.symm),
          if_neg (fun hk : k₀ = k' => h hk.symm)]
      · simp only [setKey, if_neg h₀, lookupKey]
        by_cases h₁ : k₀ = k'
        · rw [if_pos h₁, if_pos h₁]
        · rw [if_neg h₁, if_neg h₁, ih]

theorem setKey_self {α : Type} (l : List (String × α)) (k : String) (v : α)
    (h : lookupKey l k = some v) : setKey l k v = l := by
  induction l with
  | nil => simp [lookupKey] at h
  | cons p rest ih =>
      obtain ⟨k', v'⟩ := p
      by_cases hk : k' = k
      · subst hk
        simp only [lookupKey, eq_self_iff_true, if_true,
          Option.some.injEq] at h
        simp [setKey, h]
      · simp only [lookupKey, if_neg hk] at h
        simp [setKey, hk, ih h]

/-- `getHeightOfItem` only depends on the cache entry at the item's key. -/
theorem getHeightOfItem_setKey_ne (cache : List (String × ℚ)) (k : String)
    (v : ℚ) (item : Item) (h : item.key ≠ k) :
    getHeightOfItem (setKey cache k v) item = getHeightOfItem cache item := by
  unfold getHeightOfItem
  rw [lookupKey_setKey_ne cache k item.key v h]

theorem getHeightOfItem_setKey_self (cache : List (String × ℚ)) (v : ℚ)
    (item : Item) (h : item.measureHeight = true) :
    getHeightOfItem (setKey cache item.key v) item = v := by
  unfold getHeightOfItem
  rw [lookupKey_setKey_self cache item.key v]
  simp [h]

theorem sumHeights_setKey_notMem (cache : List (String × ℚ)) (k : String)
    (v : ℚ) (items : List Item) (h : ∀ it ∈ items, it.key ≠ k) :
    sumHeights (setKey cache k v) items = sumHeights cache items := by
  induction items with
  | nil => rfl
  | cons it rest ih =>
      simp only [sumHeights, List.map_cons, List.sum_cons] at ih ⊢
      rw [getHeightOfItem_setKey_ne cache k v it (h it (by simp)),
        ih (fun x hx => h x (by simp [hx]))]

/-! ## Frame lemmas: the cell operations only touch cell state -/

theorem setCellTopAndVisibility_frame (s : VLVState) (k : String)
    (vis : Bool) (top : ℚ) (a : Bool) :
    ∃ ac, setCellTopAndVisibility s k vis top a =
      { s with activeCells := ac } := by
  unfold setCellTopAndVisibility
  cases lookupKey s.activeCells k
  · exact ⟨s.activeCells, rfl⟩
  · exact ⟨_, rfl⟩

theorem allocateCell_frame (s : VLVState) (k : String)
    (tmpl : Option String) (idx : Nat) (hc : Bool) (h top : ℚ)
    (vis : Bool) :
    ∃ ac rc d n, allocateCell s k tmpl idx hc h top vis =
      { s with activeCells := ac, recycledCells := rc,
               isRenderDirty := d, nextCellKey := n } := by
  unfold allocateCell
  split
  · exact ⟨_, s.recycledCells, _, s.nextCellKey, rfl⟩
  · split
    · split
      · exact ⟨_, _, _, s.nextCellKey, rfl⟩
      · exact ⟨s.activeCells, s.recycledCells, s.isRenderDirty,
          s.nextCellKey, rfl⟩
    · exact ⟨_, s.recycledCells, _, _, rfl⟩

theorem recycleCell_frame (s : VLVState) (k : String) :
    ∃ ac rc d, recycleCell s k =
      { s with activeCells := ac, recycledCells := rc,
               isRenderDirty := d } := by
  unfold recycleCell
  split
  · exact ⟨s.activeCells, s.recycledCells, s.isRenderDirty, rfl⟩
  · split
    · split
      · dsimp only
        split
        · exact ⟨_, _, _, rfl⟩
        · exact ⟨_, _, s.isRenderDirty, rfl⟩
      · exact ⟨_, s.recycledCells, _, rfl⟩
    · exact ⟨_, s.recycledCells, s.isRenderDirty, rfl⟩

/-- Any fold whose body only rewrites `activeCells` only rewrites
`activeCells`. -/
theorem foldl_activeCells_frame {β : Type}
    (f : VLVState → β → VLVState)
    (hf : ∀ t b, ∃ ac, f t b = { t with activeCells := ac }) :
    ∀ (l : List β) (t : VLVState), ∃ ac,
      l.foldl f t = { t with activeCells := ac } := by
  intro l
  induction l with
  | nil => exact fun t => ⟨t.activeCells, rfl⟩
  | cons b rest ih =>
      intro t
      obtain ⟨ac₀, h₀⟩ := hf t b
      obtain ⟨ac₁, h₁⟩ := ih (f t b)
      exact ⟨ac₁, by rw [List.foldl_cons, h₁, h₀]⟩

theorem popCellIntoView_frame (t : VLVState) (i : Nat) :
    ∃ ac, popCellIntoView t i = { t with activeCells := ac } := by
  unfold popCellIntoView
  split
  · exact ⟨t.activeCells, rfl⟩
  · split
    · exact ⟨t.activeCells, rfl⟩
    · exact setCellTopAndVisibility_frame _ _ _ _ _

theorem reconcileShiftCell_frame (t : VLVState) (i : Nat) :
    ∃ ac, reconcileShiftCell t i = { t with activeCells := ac } := by
  unfold reconcileShiftCell
  split
  · exact ⟨t.activeCells, rfl⟩
  · split
    · exact ⟨t.activeCells, rfl⟩
    · exact setCellTopAndVisibility_frame _ _ _ _ _

theorem popInvisibleIntoView_frame (s : VLVState) :
    ∃ ac, popInvisibleIntoView s =
      { s with isInitialFillComplete := true, activeCells := ac } := by
  unfold popInvisibleIntoView
  obtain ⟨ac, h⟩ := foldl_activeCells_frame popCellIntoView
    popCellIntoView_frame (List.range s.itemsInRenderBlock)
    { s with isInitialFillComplete := true }
  exact ⟨ac, h⟩

theorem reconcileCorrections_frame (s : VLVState) :
    ∃ ac ch adj, reconcileCorrections s =
      { s with activeCells := ac, containerHeight := ch,
               heightAboveRenderAdjustment := adj } := by
  unfold reconcileCorrections
  split
  · exact ⟨s.activeCells, s.containerHeight,
      s.heightAboveRenderAdjustment, rfl⟩
  · split
    · dsimp only
      split
      · obtain ⟨ac, h⟩ := foldl_activeCells_frame reconcileShiftCell
          reconcileShiftCell_frame (List.range s.itemsInRenderBlock)
          { s with containerHeight :=
              s.containerHeight - s.heightAboveRenderAdjustment }
        rw [h]
        exact ⟨ac, s.containerHeight - s.heightAboveRenderAdjustment, 0, rfl⟩
      · exact ⟨s.activeCells, s.containerHeight,
          s.heightAboveRenderAdjustment, rfl⟩
    · dsimp only
      split
      · obtain ⟨ac, h⟩ := foldl_activeCells_frame reconcileShiftCell
          reconcileShiftCell_frame (List.range s.itemsInRenderBlock)
          { s with containerHeight :=
              s.containerHeight - s.heightAboveRenderAdjustment }
        rw [h]
        exact ⟨ac, s.containerHeight - s.heightAboveRenderAdjustment, 0, rfl⟩
      · exact ⟨s.activeCells, s.containerHeight,
          s.heightAboveRenderAdjustment, rfl⟩

theorem renderStep_frame (s : VLVState) :
    ∃ nav ac rc, renderStep s =
      { s with navigatableItemsRendered := nav, activeCells := ac,
               recycledCells := rc, isRenderDirty := false } :=
  ⟨_, _, _, rfl⟩

theorem renderIfDirty_frame (s : VLVState) :
    ∃ nav ac rc d, renderIfDirty s =
      { s with navigatableItemsRendered := nav, activeCells := ac,
               recycledCells := rc, isRenderDirty := d } := by
  unfold renderIfDirty
  split
  · obtain ⟨nav, ac, rc, h⟩ := renderStep_frame s
    exact ⟨nav, ac, rc, false, h⟩
  · exact ⟨s.navigatableItemsRendered, s.activeCells, s.recycledCells,
      s.isRenderDirty, rfl⟩

theorem focusSubsequentItem_frame (s : VLVState) (d : Int) (r : Bool) :
    ∃ pfd, (focusSubsequentItem s d r).2 =
      { s with pendingFocusDirection := pfd } := by
  unfold focusSubsequentItem
  dsimp only
  repeat' split
  all_goals first
    | exact ⟨s.pendingFocusDirection, rfl⟩
    | exact ⟨_, rfl⟩

/-! ## Counter bookkeeping (claim C1) -/

theorem sumInv_iff (s : VLVState) :
    sumInv s ↔ counts s = s.itemList.length := Iff.rfl

theorem cullTop_counts (line : ℚ) :
    ∀ (fuel : Nat) (s : VLVState),
      (cullTop fuel s line).itemList = s.itemList ∧
      counts (cullTop fuel s line) = counts s := by
  intro fuel
  induction fuel with
  | zero => exact fun s => ⟨rfl, rfl⟩
  | succ n ih =>
      intro s
      unfold cullTop
      split
      · exact ⟨rfl, rfl⟩
      · split
        · exact ⟨rfl, rfl⟩
        · split
          · exact ⟨rfl, rfl⟩
          · dsimp only
            split
            · exact ⟨rfl, rfl⟩
            · rename_i hin _ _ _ _
              obtain ⟨ac, rc, d, hrec⟩ := recycleCell_frame
                { s with
                    itemsInRenderBlock := s.itemsInRenderBlock - 1
                    heightOfRenderBlock := s.heightOfRenderBlock -
                      getHeightOfItem s.heightCache _
                    itemsAboveRenderBlock := s.itemsAboveRenderBlock + 1
                    heightAboveRenderBlock := s.heightAboveRenderBlock +
                      getHeightOfItem s.heightCache _ } _
              rw [hrec]
              obtain ⟨hl, hc⟩ := ih _
              refine ⟨by rw [hl], ?_⟩
              rw [hc]
              simp only [counts]
              omega

theorem cullBottom_counts (line : ℚ) :
    ∀ (fuel : Nat) (s : VLVState),
      (cullBottom fuel s line).itemList = s.itemList ∧
      counts (cullBottom fuel s line) = counts s := by
  intro fuel
  induction fuel with
  | zero => exact fun s => ⟨rfl, rfl⟩
  | succ n ih =>
      intro s
      unfold cullBottom
      split
      · exact ⟨rfl, rfl⟩
      · split
        · exact ⟨rfl, rfl⟩
        · split
          · exact ⟨rfl, rfl⟩
          · dsimp only
            split
            · exact ⟨rfl, rfl⟩
            · rename_i hin _ _ _ _
              obtain ⟨ac, rc, d, hrec⟩ := recycleCell_frame
                { s with
                    itemsInRenderBlock := s.itemsInRenderBlock - 1
                    heightOfRenderBlock := s.heightOfRenderBlock -
                      getHeightOfItem s.heightCache _
                    itemsBelowRenderBlock := s.itemsBelowRenderBlock + 1
                    heightBelowRenderBlock := s.heightBelowRenderBlock +
                      getHeightOfItem s.heightCache _ } _
              rw [hrec]
              obtain ⟨hl, hc⟩ := ih _
              refine ⟨by rw [hl], ?_⟩
              rw [hc]
              simp only [counts]
              omega

theorem repositionLoop_frame :
    ∀ (count idx : Nat) (y : ℚ) (s : VLVState),
      ∃ ac, (repositionLoop count idx y s).1 =
        { s with activeCells := ac } := by
  intro count
  induction count with
  | zero => exact fun idx y s => ⟨s.activeCells, rfl⟩
  | succ n ih =>
      intro idx y s
      unfold repositionLoop
      split
      · exact ⟨s.activeCells, rfl⟩
      · obtain ⟨ac₀, h₀⟩ := setCellTopAndVisibility_frame s _ _ y false
        rw [h₀]
        obtain ⟨ac₁, h₁⟩ := ih (idx + 1) _ { s with activeCells := ac₀ }
        rw [h₁]
        exact ⟨ac₁, rfl⟩

theorem buildItem_counts (s : VLVState) (idx : Nat) (ab : Bool)
    (y : ℚ) (hab : ab = true → s.itemsAboveRenderBlock ≠ 0) :
    (buildItem s idx ab y).1.itemList = s.itemList ∧
    (s.itemsBelowRenderBlock ≠ 0 ∨ ab = true →
      counts (buildItem s idx ab y).1 = counts s) := by
  unfold buildItem
  split
  · exact ⟨rfl, fun _ => rfl⟩
  · dsimp only
    repeat' split
    all_goals obtain ⟨ac, rc, d, n, halloc⟩ :=
      allocateCell_frame _ _ _ _ _ _ _ _
    all_goals rw [halloc]
    all_goals refine ⟨rfl, fun hB => ?_⟩
    all_goals first
      | (have hA := hab ‹ab = true›
         simp only [counts]
         omega)
      | (have hBn : s.itemsBelowRenderBlock ≠ 0 := by
           rcases hB with h | h
           · exact h
           · exact absurd h ‹¬ab = true›
         simp only [counts]
         omega)

theorem growBottom_counts (lim : ℚ) :
    ∀ (fuel : Nat) (s : VLVState) (y : ℚ),
      (growBottom fuel s y lim).1.itemList = s.itemList ∧
      counts (growBottom fuel s y lim).1 = counts s := by
  intro fuel
  induction fuel with
  | zero => exact fun s y => ⟨rfl, rfl⟩
  | succ n ih =>
      intro s y
      unfold growBottom
      split
      · exact ⟨rfl, rfl⟩
      · split
        · exact ⟨rfl, rfl⟩
        · rename_i hcond
          push_neg at hcond
          obtain ⟨hl, hc⟩ := buildItem_counts s
            (s.itemsAboveRenderBlock + s.itemsInRenderBlock) false y
            (by simp)
          obtain ⟨hl', hc'⟩ := ih (buildItem s
            (s.itemsAboveRenderBlock + s.itemsInRenderBlock) false y).1 _
          exact ⟨by rw [hl', hl], by rw [hc', hc (Or.inl hcond.1)]⟩

theorem growTop_counts (lim : ℚ) :
    ∀ (fuel : Nat) (s : VLVState) (y : ℚ),
      (growTop fuel s y lim).1.itemList = s.itemList ∧
      counts (growTop fuel s y lim).1 = counts s := by
  intro fuel
  induction fuel with
  | zero => exact fun s y => ⟨rfl, rfl⟩
  | succ n ih =>
      intro s y
      unfold growTop
      split
      · exact ⟨rfl, rfl⟩
      · split
        · exact ⟨rfl, rfl⟩
        · rename_i hcond
          push_neg at hcond
          obtain ⟨hl, hc⟩ := buildItem_counts s
            (s.itemsAboveRenderBlock - 1) true _
            (fun _ => hcond.1)
          obtain ⟨hl', hc'⟩ := ih (buildItem s
            (s.itemsAboveRenderBlock - 1) true _).1 _
          exact ⟨by rw [hl', hl], by rw [hc', hc (Or.inr rfl)]⟩

theorem seedLoop_bound (lim : ℚ) :
    ∀ (items : List Item) (i : Nat) (y : ℚ) (s : VLVState),
      s.itemsInRenderBlock = 0 → s.itemsAboveRenderBlock = 0 →
      (seedLoop items i y lim s).itemList = s.itemList ∧
      (seedLoop items i y lim s).itemsBelowRenderBlock =
        s.itemsBelowRenderBlock ∧
      (seedLoop items i y lim s = s ∨
        ((seedLoop items i y lim s).itemsInRenderBlock = 1 ∧
         (seedLoop items i y lim s).itemsAboveRenderBlock + 1 ≤
           i + items.length)) := by
  intro items
  induction items with
  | nil => exact fun i y s hin hab => ⟨rfl, rfl, Or.inl rfl⟩
  | cons item rest ih =>
      intro i y s hin hab
      unfold seedLoop
      dsimp only
      split
      · repeat' split
        all_goals obtain ⟨ac, rc, d, n, halloc⟩ :=
          allocateCell_frame _ _ _ _ _ _ _ _
        all_goals rw [halloc]
        all_goals exact ⟨rfl, rfl, Or.inr ⟨rfl, by
          simp only [List.length_cons]; omega⟩⟩
      · obtain ⟨hl, hb, hres⟩ := ih (i + 1) _ s hin hab
        refine ⟨hl, hb, ?_⟩
        rcases hres with h | h
        · exact Or.inl h
        · refine Or.inr ⟨h.1, ?_⟩
          have h2 := h.2
          simp only [List.length_cons]
          omega
theorem hlcMarkCell_frame (oldList : List Item)
    (oldMap : List (String × Nat)) (item : Item) (s : VLVState) :
    ∃ ac, hlcMarkCell oldList oldMap item s = { s with activeCells := ac } := by
  unfold hlcMarkCell
  repeat' split
  all_goals first
    | exact ⟨s.activeCells, rfl⟩
    | exact ⟨_, rfl⟩

theorem hlcMarkPass_frame (oldList : List Item)
    (oldMap : List (String × Nat)) :
    ∀ (items : List Item) (s : VLVState),
      ∃ ac, hlcMarkPass oldList oldMap items s =
        { s with activeCells := ac } := by
  intro items
  induction items with
  | nil => exact fun s => ⟨s.activeCells, rfl⟩
  | cons item rest ih =>
      intro s
      unfold hlcMarkPass
      obtain ⟨ac₀, h₀⟩ := hlcMarkCell_frame oldList oldMap item s
      rw [h₀]
      obtain ⟨ac₁, h₁⟩ := ih { s with activeCells := ac₀ }
      rw [h₁]
      exact ⟨ac₁, rfl⟩

theorem hlcDeleteItem_frame (m : List (String × Nat)) (idx : Nat)
    (item : Item) (s : VLVState) :
    ∃ adj hc pm ac rc d lf, hlcDeleteItem m idx item s =
      { s with heightAboveRenderAdjustment := adj, heightCache := hc,
               pendingMeasurements := pm, activeCells := ac,
               recycledCells := rc, isRenderDirty := d,
               lastFocusedItemKey := lf } := by
  unfold hlcDeleteItem
  split
  · exact ⟨s.heightAboveRenderAdjustment, s.heightCache,
      s.pendingMeasurements, s.activeCells, s.recycledCells,
      s.isRenderDirty, s.lastFocusedItemKey, rfl⟩
  · dsimp only
    repeat' split
    all_goals first
      | exact ⟨_, _, _, _, _, _, _, rfl⟩
      | (rename_i hact
         obtain ⟨ac, rc, d, hrec⟩ := recycleCell_frame _ item.key
         rw [hrec]
         exact ⟨_, _, _, _, _, _, _, rfl⟩)

theorem hlcDeletedPass_frame (m : List (String × Nat)) :
    ∀ (items : List Item) (idx : Nat) (s : VLVState),
      ∃ adj hc pm ac rc d lf, hlcDeletedPass m items idx s =
        { s with heightAboveRenderAdjustment := adj, heightCache := hc,
                 pendingMeasurements := pm, activeCells := ac,
                 recycledCells := rc, isRenderDirty := d,
                 lastFocusedItemKey := lf } := by
  intro items
  induction items with
  | nil =>
      exact fun idx s => ⟨s.heightAboveRenderAdjustment, s.heightCache,
        s.pendingMeasurements, s.activeCells, s.recycledCells,
        s.isRenderDirty, s.lastFocusedItemKey, rfl⟩
  | cons item rest ih =>
      intro idx s
      unfold hlcDeletedPass
      obtain ⟨adj₀, hc₀, pm₀, ac₀, rc₀, d₀, lf₀, h₀⟩ :=
        hlcDeleteItem_frame m idx item s
      rw [h₀]
      obtain ⟨adj₁, hc₁, pm₁, ac₁, rc₁, d₁, lf₁, h₁⟩ := ih (idx + 1) _
      rw [h₁]
      exact ⟨adj₁, hc₁, pm₁, ac₁, rc₁, d₁, lf₁, rfl⟩


/-! ## Field-preservation simp lemmas, derived from the frame lemmas -/

@[simp] theorem setCellTopAndVisibility_itemList (s : VLVState) (k : String) (vis : Bool) (top : ℚ) (a : Bool) :
    (setCellTopAndVisibility s k vis top a).itemList = s.itemList := by
  obtain ⟨ac, h⟩ := setCellTopAndVisibility_frame s k vis top a
  rw [h]

@[simp] theorem setCellTopAndVisibility_lastScrollTop (s : VLVState) (k : String) (vis : Bool) (top : ℚ) (a : Bool) :
    (setCellTopAndVisibility s k vis top a).lastScrollTop = s.lastScrollTop := by
  obtain ⟨ac, h⟩ := setCellTopAndVisibility_frame s k vis top a
  rw [h]

@[simp] theorem setCellTopAndVisibility_layoutHeight (s : VLVState) (k : String) (vis : Bool) (top : ℚ) (a : Bool) :
    (setCellTopAndVisibility s k vis top a).layoutHeight = s.layoutHeight := by
  obtain ⟨ac, h⟩ := setCellTopAndVisibility_frame s k vis top a
  rw [h]

@[simp] theorem setCellTopAndVisibility_containerHeight (s : VLVState) (k : String) (vis : Bool) (top : ℚ) (a : Bool) :
    (setCellTopAndVisibility s k vis top a).containerHeight = s.containerHeight := by
  obtain ⟨ac, h⟩ := setCellTopAndVisibility_frame s k vis top a
  rw [h]

@[simp] theorem setCellTopAndVisibility_itemMap (s : VLVState) (k : String) (vis : Bool) (top : ℚ) (a : Bool) :
    (setCellTopAndVisibility s k vis top a).itemMap = s.itemMap := by
  obtain ⟨ac, h⟩ := setCellTopAndVisibility_frame s k vis top a
  rw [h]

@[simp] theorem setCellTopAndVisibility_isRenderDirty (s : VLVState) (k : String) (vis : Bool) (top : ℚ) (a : Bool) :
    (setCellTopAndVisibility s k vis top a).isRenderDirty = s.isRenderDirty := by
  obtain ⟨ac, h⟩ := setCellTopAndVisibility_frame s k vis top a
  rw [h]

@[simp] theorem setCellTopAndVisibility_pendingAnimations (s : VLVState) (k : String) (vis : Bool) (top : ℚ) (a : Bool) :
    (setCellTopAndVisibility s k vis top a).pendingAnimations = s.pendingAnimations := by
  obtain ⟨ac, h⟩ := setCellTopAndVisibility_frame s k vis top a
  rw [h]

@[simp] theorem setCellTopAndVisibility_heightAboveRenderAdjustment (s : VLVState) (k : String) (vis : Bool) (top : ℚ) (a : Bool) :
    (setCellTopAndVisibility s k vis top a).heightAboveRenderAdjustment = s.heightAboveRenderAdjustment := by
  obtain ⟨ac, h⟩ := setCellTopAndVisibility_frame s k vis top a
  rw [h]

@[simp] theorem setCellTopAndVisibility_heightAboveRenderBlock (s : VLVState) (k : String) (vis : Bool) (top : ℚ) (a : Bool) :
    (setCellTopAndVisibility s k vis top a).heightAboveRenderBlock = s.heightAboveRenderBlock := by
  obtain ⟨ac, h⟩ := setCellTopAndVisibility_frame s k vis top a
  rw [h]

@[simp] theorem setCellTopAndVisibility_heightOfRenderBlock (s : VLVState) (k : String) (vis : Bool) (top : ℚ) (a : Bool) :
    (setCellTopAndVisibility s k vis top a).heightOfRenderBlock = s.heightOfRenderBlock := by
  obtain ⟨ac, h⟩ := setCellTopAndVisibility_frame s k vis top a
  rw [h]

@[simp] theorem setCellTopAndVisibility_heightBelowRenderBlock (s : VLVState) (k : String) (vis : Bool) (top : ℚ) (a : Bool) :
    (setCellTopAndVisibility s k vis top a).heightBelowRenderBlock = s.heightBelowRenderBlock := by
  obtain ⟨ac, h⟩ := setCellTopAndVisibility_frame s k vis top a
  rw [h]

@[simp] theorem setCellTopAndVisibility_itemsAboveRenderBlock (s : VLVState) (k : String) (vis : Bool) (top : ℚ) (a : Bool) :
    (setCellTopAndVisibility s k vis top a).itemsAboveRenderBlock = s.itemsAboveRenderBlock := by
  obtain ⟨ac, h⟩ := setCellTopAndVisibility_frame s k vis top a
  rw [h]

@[simp] theorem setCellTopAndVisibility_itemsInRenderBlock (s : VLVState) (k : String) (vis : Bool) (top : ℚ) (a : Bool) :
    (setCellTopAndVisibility s k vis top a).itemsInRenderBlock = s.itemsInRenderBlock := by
  obtain ⟨ac, h⟩ := setCellTopAndVisibility_frame s k vis top a
  rw [h]

@[simp] theorem setCellTopAndVisibility_itemsBelowRenderBlock (s : VLVState) (k : String) (vis : Bool) (top : ℚ) (a : Bool) :
    (setCellTopAndVisibility s k vis top a).itemsBelowRenderBlock = s.itemsBelowRenderBlock := by
  obtain ⟨ac, h⟩ := setCellTopAndVisibility_frame s k vis top a
  rw [h]

@[simp] theorem setCellTopAndVisibility_pendingMeasurements (s : VLVState) (k : String) (vis : Bool) (top : ℚ) (a : Bool) :
    (setCellTopAndVisibility s k vis top a).pendingMeasurements = s.pendingMeasurements := by
  obtain ⟨ac, h⟩ := setCellTopAndVisibility_frame s k vis top a
  rw [h]

@[simp] theorem setCellTopAndVisibility_isInitialFillComplete (s : VLVState) (k : String) (vis : Bool) (top : ℚ) (a : Bool) :
    (setCellTopAndVisibility s k vis top a).isInitialFillComplete = s.isInitialFillComplete := by
  obtain ⟨ac, h⟩ := setCellTopAndVisibility_frame s k vis top a
  rw [h]

@[simp] theorem setCellTopAndVisibility_heightCache (s : VLVState) (k : String) (vis : Bool) (top : ℚ) (a : Bool) :
    (setCellTopAndVisibility s k vis top a).heightCache = s.heightCache := by
  obtain ⟨ac, h⟩ := setCellTopAndVisibility_frame s k vis top a
  rw [h]

@[simp] theorem setCellTopAndVisibility_navigatableItemsRendered (s : VLVState) (k : String) (vis : Bool) (top : ℚ) (a : Bool) :
    (setCellTopAndVisibility s k vis top a).navigatableItemsRendered = s.navigatableItemsRendered := by
  obtain ⟨ac, h⟩ := setCellTopAndVisibility_frame s k vis top a
  rw [h]

@[simp] theorem setCellTopAndVisibility_maxRecycledCells (s : VLVState) (k : String) (vis : Bool) (top : ℚ) (a : Bool) :
    (setCellTopAndVisibility s k vis top a).maxRecycledCells = s.maxRecycledCells := by
  obtain ⟨ac, h⟩ := setCellTopAndVisibility_frame s k vis top a
  rw [h]

@[simp] theorem setCellTopAndVisibility_nextCellKey (s : VLVState) (k : String) (vis : Bool) (top : ℚ) (a : Bool) :
    (setCellTopAndVisibility s k vis top a).nextCellKey = s.nextCellKey := by
  obtain ⟨ac, h⟩ := setCellTopAndVisibility_frame s k vis top a
  rw [h]

@[simp] theorem setCellTopAndVisibility_lastFocusedItemKey (s : VLVState) (k : String) (vis : Bool) (top : ℚ) (a : Bool) :
    (setCellTopAndVisibility s k vis top a).lastFocusedItemKey = s.lastFocusedItemKey := by
  obtain ⟨ac, h⟩ := setCellTopAndVisibility_frame s k vis top a
  rw [h]

@[simp] theorem setCellTopAndVisibility_pendingFocusDirection (s : VLVState) (k : String) (vis : Bool) (top : ℚ) (a : Bool) :
    (setCellTopAndVisibility s k vis top a).pendingFocusDirection = s.pendingFocusDirection := by
  obtain ⟨ac, h⟩ := setCellTopAndVisibility_frame s k vis top a
  rw [h]

@[simp] theorem allocateCell_itemList (s : VLVState) (k : String) (tmpl : Option String) (idx : Nat) (hc : Bool) (q top : ℚ) (vis : Bool) :
    (allocateCell s k tmpl idx hc q top vis).itemList = s.itemList := by
  obtain ⟨ac, rc, dd, n, h⟩ := allocateCell_frame s k tmpl idx hc q top vis
  rw [h]

@[simp] theorem allocateCell_lastScrollTop (s : VLVState) (k : String) (tmpl : Option String) (idx : Nat) (hc : Bool) (q top : ℚ) (vis : Bool) :
    (allocateCell s k tmpl idx hc q top vis).lastScrollTop = s.lastScrollTop := by
  obtain ⟨ac, rc, dd, n, h⟩ := allocateCell_frame s k tmpl idx hc q top vis
  rw [h]

@[simp] theorem allocateCell_layoutHeight (s : VLVState) (k : String) (tmpl : Option String) (idx : Nat) (hc : Bool) (q top : ℚ) (vis : Bool) :
    (allocateCell s k tmpl idx hc q top vis).layoutHeight = s.layoutHeight := by
  obtain ⟨ac, rc, dd, n, h⟩ := allocateCell_frame s k tmpl idx hc q top vis
  rw [h]

@[simp] theorem allocateCell_containerHeight (s : VLVState) (k : String) (tmpl : Option String) (idx : Nat) (hc : Bool) (q top : ℚ) (vis : Bool) :
    (allocateCell s k tmpl idx hc q top vis).containerHeight = s.containerHeight := by
  obtain ⟨ac, rc, dd, n, h⟩ := allocateCell_frame s k tmpl idx hc q top vis
  rw [h]

@[simp] theorem allocateCell_itemMap (s : VLVState) (k : String) (tmpl : Option String) (idx : Nat) (hc : Bool) (q top : ℚ) (vis : Bool) :
    (allocateCell s k tmpl idx hc q top vis).itemMap = s.itemMap := by
  obtain ⟨ac, rc, dd, n, h⟩ := allocateCell_frame s k tmpl idx hc q top vis
  rw [h]

@[simp] theorem allocateCell_pendingAnimations (s : VLVState) (k : String) (tmpl : Option String) (idx : Nat) (hc : Bool) (q top : ℚ) (vis : Bool) :
    (allocateCell s k tmpl idx hc q top vis).pendingAnimations = s.pendingAnimations := by
  obtain ⟨ac, rc, dd, n, h⟩ := allocateCell_frame s k tmpl idx hc q top vis
  rw [h]

@[simp] theorem allocateCell_heightAboveRenderAdjustment (s : VLVState) (k : String) (tmpl : Option String) (idx : Nat) (hc : Bool) (q top : ℚ) (vis : Bool) :
    (allocateCell s k tmpl idx hc q top vis).heightAboveRenderAdjustment = s.heightAboveRenderAdjustment := by
  obtain ⟨ac, rc, dd, n, h⟩ := allocateCell_frame s k tmpl idx hc q top vis
  rw [h]

@[simp] theorem allocateCell_heightAboveRenderBlock (s : VLVState) (k : String) (tmpl : Option String) (idx : Nat) (hc : Bool) (q top : ℚ) (vis : Bool) :
    (allocateCell s k tmpl idx hc q top vis).heightAboveRenderBlock = s.heightAboveRenderBlock := by
  obtain ⟨ac, rc, dd, n, h⟩ := allocateCell_frame s k tmpl idx hc q top vis
  rw [h]

@[simp] theorem allocateCell_heightOfRenderBlock (s : VLVState) (k : String) (tmpl : Option String) (idx : Nat) (hc : Bool) (q top : ℚ) (vis : Bool) :
    (allocateCell s k tmpl idx hc q top vis).heightOfRenderBlock = s.heightOfRenderBlock := by
  obtain ⟨ac, rc, dd, n, h⟩ := allocateCell_frame s k tmpl idx hc q top vis
  rw [h]

@[simp] theorem allocateCell_heightBelowRenderBlock (s : VLVState) (k : String) (tmpl : Option String) (idx : Nat) (hc : Bool) (q top : ℚ) (vis : Bool) :
    (allocateCell s k tmpl idx hc q top vis).heightBelowRenderBlock = s.heightBelowRenderBlock := by
  obtain ⟨ac, rc, dd, n, h⟩ := allocateCell_frame s k tmpl idx hc q top vis
  rw [h]

@[simp] theorem allocateCell_itemsAboveRenderBlock (s : VLVState) (k : String) (tmpl : Option String) (idx : Nat) (hc : Bool) (q top : ℚ) (vis : Bool) :
    (allocateCell s k tmpl idx hc q top vis).itemsAboveRenderBlock = s.itemsAboveRenderBlock := by
  obtain ⟨ac, rc, dd, n, h⟩ := allocateCell_frame s k tmpl idx hc q top vis
  rw [h]

@[simp] theorem allocateCell_itemsInRenderBlock (s : VLVState) (k : String) (tmpl : Option String) (idx : Nat) (hc : Bool) (q top : ℚ) (vis : Bool) :
    (allocateCell s k tmpl idx hc q top vis).itemsInRenderBlock = s.itemsInRenderBlock := by
  obtain ⟨ac, rc, dd, n, h⟩ := allocateCell_frame s k tmpl idx hc q top vis
  rw [h]

@[simp] theorem allocateCell_itemsBelowRenderBlock (s : VLVState) (k : String) (tmpl : Option String) (idx : Nat) (hc : Bool) (q top : ℚ) (vis : Bool) :
    (allocateCell s k tmpl idx hc q top vis).itemsBelowRenderBlock = s.itemsBelowRenderBlock := by
  obtain ⟨ac, rc, dd, n, h⟩ := allocateCell_frame s k tmpl idx hc q top vis
  rw [h]

@[simp] theorem allocateCell_pendingMeasurements (s : VLVState) (k : String) (tmpl : Option String) (idx : Nat) (hc : Bool) (q top : ℚ) (vis : Bool) :
    (allocateCell s k tmpl idx hc q top vis).pendingMeasurements = s.pendingMeasurements := by
  obtain ⟨ac, rc, dd, n, h⟩ := allocateCell_frame s k tmpl idx hc q top vis
  rw [h]

@[simp] theorem allocateCell_isInitialFillComplete (s : VLVState) (k : String) (tmpl : Option String) (idx : Nat) (hc : Bool) (q top : ℚ) (vis : Bool) :
    (allocateCell s k tmpl idx hc q top vis).isInitialFillComplete = s.isInitialFillComplete := by
  obtain ⟨ac, rc, dd, n, h⟩ := allocateCell_frame s k tmpl idx hc q top vis
  rw [h]

@[simp] theorem allocateCell_heightCache (s : VLVState) (k : String) (tmpl : Option String) (idx : Nat) (hc : Bool) (q top : ℚ) (vis : Bool) :
    (allocateCell s k tmpl idx hc q top vis).heightCache = s.heightCache := by
  obtain ⟨ac, rc, dd, n, h⟩ := allocateCell_frame s k tmpl idx hc q top vis
  rw [h]

@[simp] theorem allocateCell_navigatableItemsRendered (s : VLVState) (k : String) (tmpl : Option String) (idx : Nat) (hc : Bool) (q top : ℚ) (vis : Bool) :
    (allocateCell s k tmpl idx hc q top vis).navigatableItemsRendered = s.navigatableItemsRendered := by
  obtain ⟨ac, rc, dd, n, h⟩ := allocateCell_frame s k tmpl idx hc q top vis
  rw [h]

@[simp] theorem allocateCell_maxRecycledCells (s : VLVState) (k : String) (tmpl : Option String) (idx : Nat) (hc : Bool) (q top : ℚ) (vis : Bool) :
    (allocateCell s k tmpl idx hc q top vis).maxRecycledCells = s.maxRecycledCells := by
  obtain ⟨ac, rc, dd, n, h⟩ := allocateCell_frame s k tmpl idx hc q top vis
  rw [h]

@[simp] theorem allocateCell_lastFocusedItemKey (s : VLVState) (k : String) (tmpl : Option String) (idx : Nat) (hc : Bool) (q top : ℚ) (vis : Bool) :
    (allocateCell s k tmpl idx hc q top vis).lastFocusedItemKey = s.lastFocusedItemKey := by
  obtain ⟨ac, rc, dd, n, h⟩ := allocateCell_frame s k tmpl idx hc q top vis
  rw [h]

@[simp] theorem allocateCell_pendingFocusDirection (s : VLVState) (k : String) (tmpl : Option String) (idx : Nat) (hc : Bool) (q top : ℚ) (vis : Bool) :
    (allocateCell s k tmpl idx hc q top vis).pendingFocusDirection = s.pendingFocusDirection := by
  obtain ⟨ac, rc, dd, n, h⟩ := allocateCell_frame s k tmpl idx hc q top vis
  rw [h]

@[simp] theorem recycleCell_itemList (s : VLVState) (k : String) :
    (recycleCell s k).itemList = s.itemList := by
  obtain ⟨ac, rc, dd, h⟩ := recycleCell_frame s k
  rw [h]

@[simp] theorem recycleCell_lastScrollTop (s : VLVState) (k : String) :
    (recycleCell s k).lastScrollTop = s.lastScrollTop := by
  obtain ⟨ac, rc, dd, h⟩ := recycleCell_frame s k
  rw [h]

@[simp] theorem recycleCell_layoutHeight (s : VLVState) (k : String) :
    (recycleCell s k).layoutHeight = s.layoutHeight := by
  obtain ⟨ac, rc, dd, h⟩ := recycleCell_frame s k
  rw [h]

@[simp] theorem recycleCell_containerHeight (s : VLVState) (k : String) :
    (recycleCell s k).containerHeight = s.containerHeight := by
  obtain ⟨ac, rc, dd, h⟩ := recycleCell_frame s k
  rw [h]

@[simp] theorem recycleCell_itemMap (s : VLVState) (k : String) :
    (recycleCell s k).itemMap = s.itemMap := by
  obtain ⟨ac, rc, dd, h⟩ := recycleCell_frame s k
  rw [h]

@[simp] theorem recycleCell_pendingAnimations (s : VLVState) (k : String) :
    (recycleCell s k).pendingAnimations = s.pendingAnimations := by
  obtain ⟨ac, rc, dd, h⟩ := recycleCell_frame s k
  rw [h]

@[simp] theorem recycleCell_heightAboveRenderAdjustment (s : VLVState) (k : String) :
    (recycleCell s k).heightAboveRenderAdjustment = s.heightAboveRenderAdjustment := by
  obtain ⟨ac, rc, dd, h⟩ := recycleCell_frame s k
  rw [h]

@[simp] theorem recycleCell_heightAboveRenderBlock (s : VLVState) (k : String) :
    (recycleCell s k).heightAboveRenderBlock = s.heightAboveRenderBlock := by
  obtain ⟨ac, rc, dd, h⟩ := recycleCell_frame s k
  rw [h]

@[simp] theorem recycleCell_heightOfRenderBlock (s : VLVState) (k : String) :
    (recycleCell s k).heightOfRenderBlock = s.heightOfRenderBlock := by
  obtain ⟨ac, rc, dd, h⟩ := recycleCell_frame s k
  rw [h]

@[simp] theorem recycleCell_heightBelowRenderBlock (s : VLVState) (k : String) :
    (recycleCell s k).heightBelowRenderBlock = s.heightBelowRenderBlock := by
  obtain ⟨ac, rc, dd, h⟩ := recycleCell_frame s k
  rw [h]

@[simp] theorem recycleCell_itemsAboveRenderBlock (s : VLVState) (k : String) :
    (recycleCell s k).itemsAboveRenderBlock = s.itemsAboveRenderBlock := by
  obtain ⟨ac, rc, dd, h⟩ := recycleCell_frame s k
  rw [h]

@[simp] theorem recycleCell_itemsInRenderBlock (s : VLVState) (k : String) :
    (recycleCell s k).itemsInRenderBlock = s.itemsInRenderBlock := by
  obtain ⟨ac, rc, dd, h⟩ := recycleCell_frame s k
  rw [h]

@[simp] theorem recycleCell_itemsBelowRenderBlock (s : VLVState) (k : String) :
    (recycleCell s k).itemsBelowRenderBlock = s.itemsBelowRenderBlock := by
  obtain ⟨ac, rc, dd, h⟩ := recycleCell_frame s k
  rw [h]

@[simp] theorem recycleCell_pendingMeasurements (s : VLVState) (k : String) :
    (recycleCell s k).pendingMeasurements = s.pendingMeasurements := by
  obtain ⟨ac, rc, dd, h⟩ := recycleCell_frame s k
  rw [h]

@[simp] theorem recycleCell_isInitialFillComplete (s : VLVState) (k : String) :
    (recycleCell s k).isInitialFillComplete = s.isInitialFillComplete := by
  obtain ⟨ac, rc, dd, h⟩ := recycleCell_frame s k
  rw [h]

@[simp] theorem recycleCell_heightCache (s : VLVState) (k : String) :
    (recycleCell s k).heightCache = s.heightCache := by
  obtain ⟨ac, rc, dd, h⟩ := recycleCell_frame s k
  rw [h]

@[simp] theorem recycleCell_navigatableItemsRendered (s : VLVState) (k : String) :
    (recycleCell s k).navigatableItemsRendered = s.navigatableItemsRendered := by
  obtain ⟨ac, rc, dd, h⟩ := recycleCell_frame s k
  rw [h]

@[simp] theorem recycleCell_maxRecycledCells (s : VLVState) (k : String) :
    (recycleCell s k).maxRecycledCells = s.maxRecycledCells := by
  obtain ⟨ac, rc, dd, h⟩ := recycleCell_frame s k
  rw [h]

@[simp] theorem recycleCell_nextCellKey (s : VLVState) (k : String) :
    (recycleCell s k).nextCellKey = s.nextCellKey := by
  obtain ⟨ac, rc, dd, h⟩ := recycleCell_frame s k
  rw [h]

@[simp] theorem recycleCell_lastFocusedItemKey (s : VLVState) (k : String) :
    (recycleCell s k).lastFocusedItemKey = s.lastFocusedItemKey := by
  obtain ⟨ac, rc, dd, h⟩ := recycleCell_frame s k
  rw [h]

@[simp] theorem recycleCell_pendingFocusDirection (s : VLVState) (k : String) :
    (recycleCell s k).pendingFocusDirection = s.pendingFocusDirection := by
  obtain ⟨ac, rc, dd, h⟩ := recycleCell_frame s k
  rw [h]

@[simp] theorem popInvisibleIntoView_itemList (s : VLVState) :
    (popInvisibleIntoView s).itemList = s.itemList := by
  obtain ⟨ac, h⟩ := popInvisibleIntoView_frame s
  rw [h]

@[simp] theorem popInvisibleIntoView_lastScrollTop (s : VLVState) :
    (popInvisibleIntoView s).lastScrollTop = s.lastScrollTop := by
  obtain ⟨ac, h⟩ := popInvisibleIntoView_frame s
  rw [h]

@[simp] theorem popInvisibleIntoView_layoutHeight (s : VLVState) :
    (popInvisibleIntoView s).layoutHeight = s.layoutHeight := by
  obtain ⟨ac, h⟩ := popInvisibleIntoView_frame s
  rw [h]

@[simp] theorem popInvisibleIntoView_containerHeight (s : VLVState) :
    (popInvisibleIntoView s).containerHeight = s.containerHeight := by
  obtain ⟨ac, h⟩ := popInvisibleIntoView_frame s
  rw [h]

@[simp] theorem popInvisibleIntoView_itemMap (s : VLVState) :
    (popInvisibleIntoView s).itemMap = s.itemMap := by
  obtain ⟨ac, h⟩ := popInvisibleIntoView_frame s
  rw [h]

@[simp] theorem popInvisibleIntoView_isRenderDirty (s : VLVState) :
    (popInvisibleIntoView s).isRenderDirty = s.isRenderDirty := by
  obtain ⟨ac, h⟩ := popInvisibleIntoView_frame s
  rw [h]

@[simp] theorem popInvisibleIntoView_pendingAnimations (s : VLVState) :
    (popInvisibleIntoView s).pendingAnimations = s.pendingAnimations := by
  obtain ⟨ac, h⟩ := popInvisibleIntoView_frame s
  rw [h]

@[simp] theorem popInvisibleIntoView_heightAboveRenderAdjustment (s : VLVState) :
    (popInvisibleIntoView s).heightAboveRenderAdjustment = s.heightAboveRenderAdjustment := by
  obtain ⟨ac, h⟩ := popInvisibleIntoView_frame s
  rw [h]

@[simp] theorem popInvisibleIntoView_heightAboveRenderBlock (s : VLVState) :
    (popInvisibleIntoView s).heightAboveRenderBlock = s.heightAboveRenderBlock := by
  obtain ⟨ac, h⟩ := popInvisibleIntoView_frame s
  rw [h]

@[simp] theorem popInvisibleIntoView_heightOfRenderBlock (s : VLVState) :
    (popInvisibleIntoView s).heightOfRenderBlock = s.heightOfRenderBlock := by
  obtain ⟨ac, h⟩ := popInvisibleIntoView_frame s
  rw [h]

@[simp] theorem popInvisibleIntoView_heightBelowRenderBlock (s : VLVState) :
    (popInvisibleIntoView s).heightBelowRenderBlock = s.heightBelowRenderBlock := by
  obtain ⟨ac, h⟩ := popInvisibleIntoView_frame s
  rw [h]

@[simp] theorem popInvisibleIntoView_itemsAboveRenderBlock (s : VLVState) :
    (popInvisibleIntoView s).itemsAboveRenderBlock = s.itemsAboveRenderBlock := by
  obtain ⟨ac, h⟩ := popInvisibleIntoView_frame s
  rw [h]

@[simp] theorem popInvisibleIntoView_itemsInRenderBlock (s : VLVState) :
    (popInvisibleIntoView s).itemsInRenderBlock = s.itemsInRenderBlock := by
  obtain ⟨ac, h⟩ := popInvisibleIntoView_frame s
  rw [h]

@[simp] theorem popInvisibleIntoView_itemsBelowRenderBlock (s : VLVState) :
    (popInvisibleIntoView s).itemsBelowRenderBlock = s.itemsBelowRenderBlock := by
  obtain ⟨ac, h⟩ := popInvisibleIntoView_frame s
  rw [h]

@[simp] theorem popInvisibleIntoView_pendingMeasurements (s : VLVState) :
    (popInvisibleIntoView s).pendingMeasurements = s.pendingMeasurements := by
  obtain ⟨ac, h⟩ := popInvisibleIntoView_frame s
  rw [h]

@[simp] theorem popInvisibleIntoView_heightCache (s : VLVState) :
    (popInvisibleIntoView s).heightCache = s.heightCache := by
  obtain ⟨ac, h⟩ := popInvisibleIntoView_frame s
  rw [h]

@[simp] theorem popInvisibleIntoView_navigatableItemsRendered (s : VLVState) :
    (popInvisibleIntoView s).navigatableItemsRendered = s.navigatableItemsRendered := by
  obtain ⟨ac, h⟩ := popInvisibleIntoView_frame s
  rw [h]

@[simp] theorem popInvisibleIntoView_maxRecycledCells (s : VLVState) :
    (popInvisibleIntoView s).maxRecycledCells = s.maxRecycledCells := by
  obtain ⟨ac, h⟩ := popInvisibleIntoView_frame s
  rw [h]

@[simp] theorem popInvisibleIntoView_nextCellKey (s : VLVState) :
    (popInvisibleIntoView s).nextCellKey = s.nextCellKey := by
  obtain ⟨ac, h⟩ := popInvisibleIntoView_frame s
  rw [h]

@[simp] theorem popInvisibleIntoView_lastFocusedItemKey (s : VLVState) :
    (popInvisibleIntoView s).lastFocusedItemKey = s.lastFocusedItemKey := by
  obtain ⟨ac, h⟩ := popInvisibleIntoView_frame s
  rw [h]

@[simp] theorem popInvisibleIntoView_pendingFocusDirection (s : VLVState) :
    (popInvisibleIntoView s).pendingFocusDirection = s.pendingFocusDirection := by
  obtain ⟨ac, h⟩ := popInvisibleIntoView_frame s
  rw [h]

@[simp] theorem popInvisibleIntoView_isInitialFillComplete (s : VLVState) :
    (popInvisibleIntoView s).isInitialFillComplete = true := by
  obtain ⟨ac, h⟩ := popInvisibleIntoView_frame s
  rw [h]

@[simp] theorem reconcileCorrections_itemList (s : VLVState) :
    (reconcileCorrections s).itemList = s.itemList := by
  obtain ⟨ac, ch, adj, h⟩ := reconcileCorrections_frame s
  rw [h]

@[simp] theorem reconcileCorrections_lastScrollTop (s : VLVState) :
    (reconcileCorrections s).lastScrollTop = s.lastScrollTop := by
  obtain ⟨ac, ch, adj, h⟩ := reconcileCorrections_frame s
  rw [h]

@[simp] theorem reconcileCorrections_layoutHeight (s : VLVState) :
    (reconcileCorrections s).layoutHeight = s.layoutHeight := by
  obtain ⟨ac, ch, adj, h⟩ := reconcileCorrections_frame s
  rw [h]

@[simp] theorem reconcileCorrections_itemMap (s : VLVState) :
    (reconcileCorrections s).itemMap = s.itemMap := by
  obtain ⟨ac, ch, adj, h⟩ := reconcileCorrections_frame s
  rw [h]

@[simp] theorem reconcileCorrections_isRenderDirty (s : VLVState) :
    (reconcileCorrections s).isRenderDirty = s.isRenderDirty := by
  obtain ⟨ac, ch, adj, h⟩ := reconcileCorrections_frame s
  rw [h]

@[simp] theorem reconcileCorrections_pendingAnimations (s : VLVState) :
    (reconcileCorrections s).pendingAnimations = s.pendingAnimations := by
  obtain ⟨ac, ch, adj, h⟩ := reconcileCorrections_frame s
  rw [h]

@[simp] theorem reconcileCorrections_heightAboveRenderBlock (s : VLVState) :
    (reconcileCorrections s).heightAboveRenderBlock = s.heightAboveRenderBlock := by
  obtain ⟨ac, ch, adj, h⟩ := reconcileCorrections_frame s
  rw [h]

@[simp] theorem reconcileCorrections_heightOfRenderBlock (s : VLVState) :
    (reconcileCorrections s).heightOfRenderBlock = s.heightOfRenderBlock := by
  obtain ⟨ac, ch, adj, h⟩ := reconcileCorrections_frame s
  rw [h]

@[simp] theorem reconcileCorrections_heightBelowRenderBlock (s : VLVState) :
    (reconcileCorrections s).heightBelowRenderBlock = s.heightBelowRenderBlock := by
  obtain ⟨ac, ch, adj, h⟩ := reconcileCorrections_frame s
  rw [h]

@[simp] theorem reconcileCorrections_itemsAboveRenderBlock (s : VLVState) :
    (reconcileCorrections s).itemsAboveRenderBlock = s.itemsAboveRenderBlock := by
  obtain ⟨ac, ch, adj, h⟩ := reconcileCorrections_frame s
  rw [h]

@[simp] theorem reconcileCorrections_itemsInRenderBlock (s : VLVState) :
    (reconcileCorrections s).itemsInRenderBlock = s.itemsInRenderBlock := by
  obtain ⟨ac, ch, adj, h⟩ := reconcileCorrections_frame s
  rw [h]

@[simp] theorem reconcileCorrections_itemsBelowRenderBlock (s : VLVState) :
    (reconcileCorrections s).itemsBelowRenderBlock = s.itemsBelowRenderBlock := by
  obtain ⟨ac, ch, adj, h⟩ := reconcileCorrections_frame s
  rw [h]

@[simp] theorem reconcileCorrections_pendingMeasurements (s : VLVState) :
    (reconcileCorrections s).pendingMeasurements = s.pendingMeasurements := by
  obtain ⟨ac, ch, adj, h⟩ := reconcileCorrections_frame s
  rw [h]

@[simp] theorem reconcileCorrections_isInitialFillComplete (s : VLVState) :
    (reconcileCorrections s).isInitialFillComplete = s.isInitialFillComplete := by
  obtain ⟨ac, ch, adj, h⟩ := reconcileCorrections_frame s
  rw [h]

@[simp] theorem reconcileCorrections_heightCache (s : VLVState) :
    (reconcileCorrections s).heightCache = s.heightCache := by
  obtain ⟨ac, ch, adj, h⟩ := reconcileCorrections_frame s
  rw [h]

@[simp] theorem reconcileCorrections_navigatableItemsRendered (s : VLVState) :
    (reconcileCorrections s).navigatableItemsRendered = s.navigatableItemsRendered := by
  obtain ⟨ac, ch, adj, h⟩ := reconcileCorrections_frame s
  rw [h]

@[simp] theorem reconcileCorrections_maxRecycledCells (s : VLVState) :
    (reconcileCorrections s).maxRecycledCells = s.maxRecycledCells := by
  obtain ⟨ac, ch, adj, h⟩ := reconcileCorrections_frame s
  rw [h]

@[simp] theorem reconcileCorrections_nextCellKey (s : VLVState) :
    (reconcileCorrections s).nextCellKey = s.nextCellKey := by
  obtain ⟨ac, ch, adj, h⟩ := reconcileCorrections_frame s
  rw [h]

@[simp] theorem reconcileCorrections_lastFocusedItemKey (s : VLVState) :
    (reconcileCorrections s).lastFocusedItemKey = s.lastFocusedItemKey := by
  obtain ⟨ac, ch, adj, h⟩ := reconcileCorrections_frame s
  rw [h]

@[simp] theorem reconcileCorrections_pendingFocusDirection (s : VLVState) :
    (reconcileCorrections s).pendingFocusDirection = s.pendingFocusDirection := by
  obtain ⟨ac, ch, adj, h⟩ := reconcileCorrections_frame s
  rw [h]

@[simp] theorem renderIfDirty_itemList (s : VLVState) :
    (renderIfDirty s).itemList = s.itemList := by
  obtain ⟨nav, ac, rc, dd, h⟩ := renderIfDirty_frame s
  rw [h]

@[simp] theorem renderIfDirty_lastScrollTop (s : VLVState) :
    (renderIfDirty s).lastScrollTop = s.lastScrollTop := by
  obtain ⟨nav, ac, rc, dd, h⟩ := renderIfDirty_frame s
  rw [h]

@[simp] theorem renderIfDirty_layoutHeight (s : VLVState) :
    (renderIfDirty s).layoutHeight = s.layoutHeight := by
  obtain ⟨nav, ac, rc, dd, h⟩ := renderIfDirty_frame s
  rw [h]

@[simp] theorem renderIfDirty_containerHeight (s : VLVState) :
    (renderIfDirty s).containerHeight = s.containerHeight := by
  obtain ⟨nav, ac, rc, dd, h⟩ := renderIfDirty_frame s
  rw [h]

@[simp] theorem renderIfDirty_itemMap (s : VLVState) :
    (renderIfDirty s).itemMap = s.itemMap := by
  obtain ⟨nav, ac, rc, dd, h⟩ := renderIfDirty_frame s
  rw [h]

@[simp] theorem renderIfDirty_pendingAnimations (s : VLVState) :
    (renderIfDirty s).pendingAnimations = s.pendingAnimations := by
  obtain ⟨nav, ac, rc, dd, h⟩ := renderIfDirty_frame s
  rw [h]

@[simp] theorem renderIfDirty_heightAboveRenderAdjustment (s : VLVState) :
    (renderIfDirty s).heightAboveRenderAdjustment = s.heightAboveRenderAdjustment := by
  obtain ⟨nav, ac, rc, dd, h⟩ := renderIfDirty_frame s
  rw [h]

@[simp] theorem renderIfDirty_heightAboveRenderBlock (s : VLVState) :
    (renderIfDirty s).heightAboveRenderBlock = s.heightAboveRenderBlock := by
  obtain ⟨nav, ac, rc, dd, h⟩ := renderIfDirty_frame s
  rw [h]

@[simp] theorem renderIfDirty_heightOfRenderBlock (s : VLVState) :
    (renderIfDirty s).heightOfRenderBlock = s.heightOfRenderBlock := by
  obtain ⟨nav, ac, rc, dd, h⟩ := renderIfDirty_frame s
  rw [h]

@[simp] theorem renderIfDirty_heightBelowRenderBlock (s : VLVState) :
    (renderIfDirty s).heightBelowRenderBlock = s.heightBelowRenderBlock := by
  obtain ⟨nav, ac, rc, dd, h⟩ := renderIfDirty_frame s
  rw [h]

@[simp] theorem renderIfDirty_itemsAboveRenderBlock (s : VLVState) :
    (renderIfDirty s).itemsAboveRenderBlock = s.itemsAboveRenderBlock := by
  obtain ⟨nav, ac, rc, dd, h⟩ := renderIfDirty_frame s
  rw [h]

@[simp] theorem renderIfDirty_itemsInRenderBlock (s : VLVState) :
    (renderIfDirty s).itemsInRenderBlock = s.itemsInRenderBlock := by
  obtain ⟨nav, ac, rc, dd, h⟩ := renderIfDirty_frame s
  rw [h]

@[simp] theorem renderIfDirty_itemsBelowRenderBlock (s : VLVState) :
    (renderIfDirty s).itemsBelowRenderBlock = s.itemsBelowRenderBlock := by
  obtain ⟨nav, ac, rc, dd, h⟩ := renderIfDirty_frame s
  rw [h]

@[simp] theorem renderIfDirty_pendingMeasurements (s : VLVState) :
    (renderIfDirty s).pendingMeasurements = s.pendingMeasurements := by
  obtain ⟨nav, ac, rc, dd, h⟩ := renderIfDirty_frame s
  rw [h]

@[simp] theorem renderIfDirty_isInitialFillComplete (s : VLVState) :
    (renderIfDirty s).isInitialFillComplete = s.isInitialFillComplete := by
  obtain ⟨nav, ac, rc, dd, h⟩ := renderIfDirty_frame s
  rw [h]

@[simp] theorem renderIfDirty_heightCache (s : VLVState) :
    (renderIfDirty s).heightCache = s.heightCache := by
  obtain ⟨nav, ac, rc, dd, h⟩ := renderIfDirty_frame s
  rw [h]

@[simp] theorem renderIfDirty_maxRecycledCells (s : VLVState) :
    (renderIfDirty s).maxRecycledCells = s.maxRecycledCells := by
  obtain ⟨nav, ac, rc, dd, h⟩ := renderIfDirty_frame s
  rw [h]

@[simp] theorem renderIfDirty_nextCellKey (s : VLVState) :
    (renderIfDirty s).nextCellKey = s.nextCellKey := by
  obtain ⟨nav, ac, rc, dd, h⟩ := renderIfDirty_frame s
  rw [h]

@[simp] theorem renderIfDirty_lastFocusedItemKey (s : VLVState) :
    (renderIfDirty s).lastFocusedItemKey = s.lastFocusedItemKey := by
  obtain ⟨nav, ac, rc, dd, h⟩ := renderIfDirty_frame s
  rw [h]

@[simp] theorem renderIfDirty_pendingFocusDirection (s : VLVState) :
    (renderIfDirty s).pendingFocusDirection = s.pendingFocusDirection := by
  obtain ⟨nav, ac, rc, dd, h⟩ := renderIfDirty_frame s
  rw [h]

@[simp] theorem focusSubsequentItemSnd_itemList (s : VLVState) (d : Int) (r : Bool) :
    ((focusSubsequentItem s d r).2).itemList = s.itemList := by
  obtain ⟨pfd, h⟩ := focusSubsequentItem_frame s d r
  rw [h]

@[simp] theorem focusSubsequentItemSnd_lastScrollTop (s : VLVState) (d : Int) (r : Bool) :
    ((focusSubsequentItem s d r).2).lastScrollTop = s.lastScrollTop := by
  obtain ⟨pfd, h⟩ := focusSubsequentItem_frame s d r
  rw [h]

@[simp] theorem focusSubsequentItemSnd_layoutHeight (s : VLVState) (d : Int) (r : Bool) :
    ((focusSubsequentItem s d r).2).layoutHeight = s.layoutHeight := by
  obtain ⟨pfd, h⟩ := focusSubsequentItem_frame s d r
  rw [h]

@[simp] theorem focusSubsequentItemSnd_containerHeight (s : VLVState) (d : Int) (r : Bool) :
    ((focusSubsequentItem s d r).2).containerHeight = s.containerHeight := by
  obtain ⟨pfd, h⟩ := focusSubsequentItem_frame s d r
  rw [h]

@[simp] theorem focusSubsequentItemSnd_itemMap (s : VLVState) (d : Int) (r : Bool) :
    ((focusSubsequentItem s d r).2).itemMap = s.itemMap := by
  obtain ⟨pfd, h⟩ := focusSubsequentItem_frame s d r
  rw [h]

@[simp] theorem focusSubsequentItemSnd_isRenderDirty (s : VLVState) (d : Int) (r : Bool) :
    ((focusSubsequentItem s d r).2).isRenderDirty = s.isRenderDirty := by
  obtain ⟨pfd, h⟩ := focusSubsequentItem_frame s d r
  rw [h]

@[simp] theorem focusSubsequentItemSnd_pendingAnimations (s : VLVState) (d : Int) (r : Bool) :
    ((focusSubsequentItem s d r).2).pendingAnimations = s.pendingAnimations := by
  obtain ⟨pfd, h⟩ := focusSubsequentItem_frame s d r
  rw [h]

@[simp] theorem focusSubsequentItemSnd_heightAboveRenderAdjustment (s : VLVState) (d : Int) (r : Bool) :
    ((focusSubsequentItem s d r).2).heightAboveRenderAdjustment = s.heightAboveRenderAdjustment := by
  obtain ⟨pfd, h⟩ := focusSubsequentItem_frame s d r
  rw [h]

@[simp] theorem focusSubsequentItemSnd_heightAboveRenderBlock (s : VLVState) (d : Int) (r : Bool) :
    ((focusSubsequentItem s d r).2).heightAboveRenderBlock = s.heightAboveRenderBlock := by
  obtain ⟨pfd, h⟩ := focusSubsequentItem_frame s d r
  rw [h]

@[simp] theorem focusSubsequentItemSnd_heightOfRenderBlock (s : VLVState) (d : Int) (r : Bool) :
    ((focusSubsequentItem s d r).2).heightOfRenderBlock = s.heightOfRenderBlock := by
  obtain ⟨pfd, h⟩ := focusSubsequentItem_frame s d r
  rw [h]

@[simp] theorem focusSubsequentItemSnd_heightBelowRenderBlock (s : VLVState) (d : Int) (r : Bool) :
    ((focusSubsequentItem s d r).2).heightBelowRenderBlock = s.heightBelowRenderBlock := by
  obtain ⟨pfd, h⟩ := focusSubsequentItem_frame s d r
  rw [h]

@[simp] theorem focusSubsequentItemSnd_itemsAboveRenderBlock (s : VLVState) (d : Int) (r : Bool) :
    ((focusSubsequentItem s d r).2).itemsAboveRenderBlock = s.itemsAboveRenderBlock := by
  obtain ⟨pfd, h⟩ := focusSubsequentItem_frame s d r
  rw [h]

@[simp] theorem focusSubsequentItemSnd_itemsInRenderBlock (s : VLVState) (d : Int) (r : Bool) :
    ((focusSubsequentItem s d r).2).itemsInRenderBlock = s.itemsInRenderBlock := by
  obtain ⟨pfd, h⟩ := focusSubsequentItem_frame s d r
  rw [h]

@[simp] theorem focusSubsequentItemSnd_itemsBelowRenderBlock (s : VLVState) (d : Int) (r : Bool) :
    ((focusSubsequentItem s d r).2).itemsBelowRenderBlock = s.itemsBelowRenderBlock := by
  obtain ⟨pfd, h⟩ := focusSubsequentItem_frame s d r
  rw [h]

@[simp] theorem focusSubsequentItemSnd_pendingMeasurements (s : VLVState) (d : Int) (r : Bool) :
    ((focusSubsequentItem s d r).2).pendingMeasurements = s.pendingMeasurements := by
  obtain ⟨pfd, h⟩ := focusSubsequentItem_frame s d r
  rw [h]

@[simp] theorem focusSubsequentItemSnd_isInitialFillComplete (s : VLVState) (d : Int) (r : Bool) :
    ((focusSubsequentItem s d r).2).isInitialFillComplete = s.isInitialFillComplete := by
  obtain ⟨pfd, h⟩ := focusSubsequentItem_frame s d r
  rw [h]

@[simp] theorem focusSubsequentItemSnd_heightCache (s : VLVState) (d : Int) (r : Bool) :
    ((focusSubsequentItem s d r).2).heightCache = s.heightCache := by
  obtain ⟨pfd, h⟩ := focusSubsequentItem_frame s d r
  rw [h]

@[simp] theorem focusSubsequentItemSnd_navigatableItemsRendered (s : VLVState) (d : Int) (r : Bool) :
    ((focusSubsequentItem s d r).2).navigatableItemsRendered = s.navigatableItemsRendered := by
  obtain ⟨pfd, h⟩ := focusSubsequentItem_frame s d r
  rw [h]

@[simp] theorem focusSubsequentItemSnd_maxRecycledCells (s : VLVState) (d : Int) (r : Bool) :
    ((focusSubsequentItem s d r).2).maxRecycledCells = s.maxRecycledCells := by
  obtain ⟨pfd, h⟩ := focusSubsequentItem_frame s d r
  rw [h]

@[simp] theorem focusSubsequentItemSnd_nextCellKey (s : VLVState) (d : Int) (r : Bool) :
    ((focusSubsequentItem s d r).2).nextCellKey = s.nextCellKey := by
  obtain ⟨pfd, h⟩ := focusSubsequentItem_frame s d r
  rw [h]

@[simp] theorem focusSubsequentItemSnd_lastFocusedItemKey (s : VLVState) (d : Int) (r : Bool) :
    ((focusSubsequentItem s d r).2).lastFocusedItemKey = s.lastFocusedItemKey := by
  obtain ⟨pfd, h⟩ := focusSubsequentItem_frame s d r
  rw [h]

@[simp] theorem repositionLoopFst_itemList (i idx : Nat) (y : ℚ) (s : VLVState) :
    ((repositionLoop i idx y s).1).itemList = s.itemList := by
  obtain ⟨ac, h⟩ := repositionLoop_frame i idx y s
  rw [h]

@[simp] theorem repositionLoopFst_lastScrollTop (i idx : Nat) (y : ℚ) (s : VLVState) :
    ((repositionLoop i idx y s).1).lastScrollTop = s.lastScrollTop := by
  obtain ⟨ac, h⟩ := repositionLoop_frame i idx y s
  rw [h]

@[simp] theorem repositionLoopFst_layoutHeight (i idx : Nat) (y : ℚ) (s : VLVState) :
    ((repositionLoop i idx y s).1).layoutHeight = s.layoutHeight := by
  obtain ⟨ac, h⟩ := repositionLoop_frame i idx y s
  rw [h]

@[simp] theorem repositionLoopFst_containerHeight (i idx : Nat) (y : ℚ) (s : VLVState) :
    ((repositionLoop i idx y s).1).containerHeight = s.containerHeight := by
  obtain ⟨ac, h⟩ := repositionLoop_frame i idx y s
  rw [h]

@[simp] theorem repositionLoopFst_itemMap (i idx : Nat) (y : ℚ) (s : VLVState) :
    ((repositionLoop i idx y s).1).itemMap = s.itemMap := by
  obtain ⟨ac, h⟩ := repositionLoop_frame i idx y s
  rw [h]

@[simp] theorem repositionLoopFst_isRenderDirty (i idx : Nat) (y : ℚ) (s : VLVState) :
    ((repositionLoop i idx y s).1).isRenderDirty = s.isRenderDirty := by
  obtain ⟨ac, h⟩ := repositionLoop_frame i idx y s
  rw [h]

@[simp] theorem repositionLoopFst_pendingAnimations (i idx : Nat) (y : ℚ) (s : VLVState) :
    ((repositionLoop i idx y s).1).pendingAnimations = s.pendingAnimations := by
  obtain ⟨ac, h⟩ := repositionLoop_frame i idx y s
  rw [h]

@[simp] theorem repositionLoopFst_heightAboveRenderAdjustment (i idx : Nat) (y : ℚ) (s : VLVState) :
    ((repositionLoop i idx y s).1).heightAboveRenderAdjustment = s.heightAboveRenderAdjustment := by
  obtain ⟨ac, h⟩ := repositionLoop_frame i idx y s
  rw [h]

@[simp] theorem repositionLoopFst_heightAboveRenderBlock (i idx : Nat) (y : ℚ) (s : VLVState) :
    ((repositionLoop i idx y s).1).heightAboveRenderBlock = s.heightAboveRenderBlock := by
  obtain ⟨ac, h⟩ := repositionLoop_frame i idx y s
  rw [h]

@[simp] theorem repositionLoopFst_heightOfRenderBlock (i idx : Nat) (y : ℚ) (s : VLVState) :
    ((repositionLoop i idx y s).1).heightOfRenderBlock = s.heightOfRenderBlock := by
  obtain ⟨ac, h⟩ := repositionLoop_frame i idx y s
  rw [h]

@[simp] theorem repositionLoopFst_heightBelowRenderBlock (i idx : Nat) (y : ℚ) (s : VLVState) :
    ((repositionLoop i idx y s).1).heightBelowRenderBlock = s.heightBelowRenderBlock := by
  obtain ⟨ac, h⟩ := repositionLoop_frame i idx y s
  rw [h]

@[simp] theorem repositionLoopFst_itemsAboveRenderBlock (i idx : Nat) (y : ℚ) (s : VLVState) :
    ((repositionLoop i idx y s).1).itemsAboveRenderBlock = s.itemsAboveRenderBlock := by
  obtain ⟨ac, h⟩ := repositionLoop_frame i idx y s
  rw [h]

@[simp] theorem repositionLoopFst_itemsInRenderBlock (i idx : Nat) (y : ℚ) (s : VLVState) :
    ((repositionLoop i idx y s).1).itemsInRenderBlock = s.itemsInRenderBlock := by
  obtain ⟨ac, h⟩ := repositionLoop_frame i idx y s
  rw [h]

@[simp] theorem repositionLoopFst_itemsBelowRenderBlock (i idx : Nat) (y : ℚ) (s : VLVState) :
    ((repositionLoop i idx y s).1).itemsBelowRenderBlock = s.itemsBelowRenderBlock := by
  obtain ⟨ac, h⟩ := repositionLoop_frame i idx y s
  rw [h]

@[simp] theorem repositionLoopFst_pendingMeasurements (i idx : Nat) (y : ℚ) (s : VLVState) :
    ((repositionLoop i idx y s).1).pendingMeasurements = s.pendingMeasurements := by
  obtain ⟨ac, h⟩ := repositionLoop_frame i idx y s
  rw [h]

@[simp] theorem repositionLoopFst_isInitialFillComplete (i idx : Nat) (y : ℚ) (s : VLVState) :
    ((repositionLoop i idx y s).1).isInitialFillComplete = s.isInitialFillComplete := by
  obtain ⟨ac, h⟩ := repositionLoop_frame i idx y s
  rw [h]

@[simp] theorem repositionLoopFst_heightCache (i idx : Nat) (y : ℚ) (s : VLVState) :
    ((repositionLoop i idx y s).1).heightCache = s.heightCache := by
  obtain ⟨ac, h⟩ := repositionLoop_frame i idx y s
  rw [h]

@[simp] theorem repositionLoopFst_navigatableItemsRendered (i idx : Nat) (y : ℚ) (s : VLVState) :
    ((repositionLoop i idx y s).1).navigatableItemsRendered = s.navigatableItemsRendered := by
  obtain ⟨ac, h⟩ := repositionLoop_frame i idx y s
  rw [h]

@[simp] theorem repositionLoopFst_maxRecycledCells (i idx : Nat) (y : ℚ) (s : VLVState) :
    ((repositionLoop i idx y s).1).maxRecycledCells = s.maxRecycledCells := by
  obtain ⟨ac, h⟩ := repositionLoop_frame i idx y s
  rw [h]

@[simp] theorem repositionLoopFst_nextCellKey (i idx : Nat) (y : ℚ) (s : VLVState) :
    ((repositionLoop i idx y s).1).nextCellKey = s.nextCellKey := by
  obtain ⟨ac, h⟩ := repositionLoop_frame i idx y s
  rw [h]

@[simp] theorem repositionLoopFst_lastFocusedItemKey (i idx : Nat) (y : ℚ) (s : VLVState) :
    ((repositionLoop i idx y s).1).lastFocusedItemKey = s.lastFocusedItemKey := by
  obtain ⟨ac, h⟩ := repositionLoop_frame i idx y s
  rw [h]

@[simp] theorem repositionLoopFst_pendingFocusDirection (i idx : Nat) (y : ℚ) (s : VLVState) :
    ((repositionLoop i idx y s).1).pendingFocusDirection = s.pendingFocusDirection := by
  obtain ⟨ac, h⟩ := repositionLoop_frame i idx y s
  rw [h]

@[simp] theorem hlcMarkPass_itemList (ol : List Item) (om : List (String × Nat)) (items : List Item) (s : VLVState) :
    (hlcMarkPass ol om items s).itemList = s.itemList := by
  obtain ⟨ac, h⟩ := hlcMarkPass_frame ol om items s
  rw [h]

@[simp] theorem hlcMarkPass_lastScrollTop (ol : List Item) (om : List (String × Nat)) (items : List Item) (s : VLVState) :
    (hlcMarkPass ol om items s).lastScrollTop = s.lastScrollTop := by
  obtain ⟨ac, h⟩ := hlcMarkPass_frame ol om items s
  rw [h]

@[simp] theorem hlcMarkPass_layoutHeight (ol : List Item) (om : List (String × Nat)) (items : List Item) (s : VLVState) :
    (hlcMarkPass ol om items s).layoutHeight = s.layoutHeight := by
  obtain ⟨ac, h⟩ := hlcMarkPass_frame ol om items s
  rw [h]

@[simp] theorem hlcMarkPass_containerHeight (ol : List Item) (om : List (String × Nat)) (items : List Item) (s : VLVState) :
    (hlcMarkPass ol om items s).containerHeight = s.containerHeight := by
  obtain ⟨ac, h⟩ := hlcMarkPass_frame ol om items s
  rw [h]

@[simp] theorem hlcMarkPass_itemMap (ol : List Item) (om : List (String × Nat)) (items : List Item) (s : VLVState) :
    (hlcMarkPass ol om items s).itemMap = s.itemMap := by
  obtain ⟨ac, h⟩ := hlcMarkPass_frame ol om items s
  rw [h]

@[simp] theorem hlcMarkPass_isRenderDirty (ol : List Item) (om : List (String × Nat)) (items : List Item) (s : VLVState) :
    (hlcMarkPass ol om items s).isRenderDirty = s.isRenderDirty := by
  obtain ⟨ac, h⟩ := hlcMarkPass_frame ol om items s
  rw [h]

@[simp] theorem hlcMarkPass_pendingAnimations (ol : List Item) (om : List (String × Nat)) (items : List Item) (s : VLVState) :
    (hlcMarkPass ol om items s).pendingAnimations = s.pendingAnimations := by
  obtain ⟨ac, h⟩ := hlcMarkPass_frame ol om items s
  rw [h]

@[simp] theorem hlcMarkPass_heightAboveRenderAdjustment (ol : List Item) (om : List (String × Nat)) (items : List Item) (s : VLVState) :
    (hlcMarkPass ol om items s).heightAboveRenderAdjustment = s.heightAboveRenderAdjustment := by
  obtain ⟨ac, h⟩ := hlcMarkPass_frame ol om items s
  rw [h]

@[simp] theorem hlcMarkPass_heightAboveRenderBlock (ol : List Item) (om : List (String × Nat)) (items : List Item) (s : VLVState) :
    (hlcMarkPass ol om items s).heightAboveRenderBlock = s.heightAboveRenderBlock := by
  obtain ⟨ac, h⟩ := hlcMarkPass_frame ol om items s
  rw [h]

@[simp] theorem hlcMarkPass_heightOfRenderBlock (ol : List Item) (om : List (String × Nat)) (items : List Item) (s : VLVState) :
    (hlcMarkPass ol om items s).heightOfRenderBlock = s.heightOfRenderBlock := by
  obtain ⟨ac, h⟩ := hlcMarkPass_frame ol om items s
  rw [h]

@[simp] theorem hlcMarkPass_heightBelowRenderBlock (ol : List Item) (om : List (String × Nat)) (items : List Item) (s : VLVState) :
    (hlcMarkPass ol om items s).heightBelowRenderBlock = s.heightBelowRenderBlock := by
  obtain ⟨ac, h⟩ := hlcMarkPass_frame ol om items s
  rw [h]

@[simp] theorem hlcMarkPass_itemsAboveRenderBlock (ol : List Item) (om : List (String × Nat)) (items : List Item) (s : VLVState) :
    (hlcMarkPass ol om items s).itemsAboveRenderBlock = s.itemsAboveRenderBlock := by
  obtain ⟨ac, h⟩ := hlcMarkPass_frame ol om items s
  rw [h]

@[simp] theorem hlcMarkPass_itemsInRenderBlock (ol : List Item) (om : List (String × Nat)) (items : List Item) (s : VLVState) :
    (hlcMarkPass ol om items s).itemsInRenderBlock = s.itemsInRenderBlock := by
  obtain ⟨ac, h⟩ := hlcMarkPass_frame ol om items s
  rw [h]

@[simp] theorem hlcMarkPass_itemsBelowRenderBlock (ol : List Item) (om : List (String × Nat)) (items : List Item) (s : VLVState) :
    (hlcMarkPass ol om items s).itemsBelowRenderBlock = s.itemsBelowRenderBlock := by
  obtain ⟨ac, h⟩ := hlcMarkPass_frame ol om items s
  rw [h]

@[simp] theorem hlcMarkPass_pendingMeasurements (ol : List Item) (om : List (String × Nat)) (items : List Item) (s : VLVState) :
    (hlcMarkPass ol om items s).pendingMeasurements = s.pendingMeasurements := by
  obtain ⟨ac, h⟩ := hlcMarkPass_frame ol om items s
  rw [h]

@[simp] theorem hlcMarkPass_isInitialFillComplete (ol : List Item) (om : List (String × Nat)) (items : List Item) (s : VLVState) :
    (hlcMarkPass ol om items s).isInitialFillComplete = s.isInitialFillComplete := by
  obtain ⟨ac, h⟩ := hlcMarkPass_frame ol om items s
  rw [h]

@[simp] theorem hlcMarkPass_heightCache (ol : List Item) (om : List (String × Nat)) (items : List Item) (s : VLVState) :
    (hlcMarkPass ol om items s).heightCache = s.heightCache := by
  obtain ⟨ac, h⟩ := hlcMarkPass_frame ol om items s
  rw [h]

@[simp] theorem hlcMarkPass_navigatableItemsRendered (ol : List Item) (om : List (String × Nat)) (items : List Item) (s : VLVState) :
    (hlcMarkPass ol om items s).navigatableItemsRendered = s.navigatableItemsRendered := by
  obtain ⟨ac, h⟩ := hlcMarkPass_frame ol om items s
  rw [h]

@[simp] theorem hlcMarkPass_maxRecycledCells (ol : List Item) (om : List (String × Nat)) (items : List Item) (s : VLVState) :
    (hlcMarkPass ol om items s).maxRecycledCells = s.maxRecycledCells := by
  obtain ⟨ac, h⟩ := hlcMarkPass_frame ol om items s
  rw [h]

@[simp] theorem hlcMarkPass_nextCellKey (ol : List Item) (om : List (String × Nat)) (items : List Item) (s : VLVState) :
    (hlcMarkPass ol om items s).nextCellKey = s.nextCellKey := by
  obtain ⟨ac, h⟩ := hlcMarkPass_frame ol om items s
  rw [h]

@[simp] theorem hlcMarkPass_lastFocusedItemKey (ol : List Item) (om : List (String × Nat)) (items : List Item) (s : VLVState) :
    (hlcMarkPass ol om items s).lastFocusedItemKey = s.lastFocusedItemKey := by
  obtain ⟨ac, h⟩ := hlcMarkPass_frame ol om items s
  rw [h]

@[simp] theorem hlcMarkPass_pendingFocusDirection (ol : List Item) (om : List (String × Nat)) (items : List Item) (s : VLVState) :
    (hlcMarkPass ol om items s).pendingFocusDirection = s.pendingFocusDirection := by
  obtain ⟨ac, h⟩ := hlcMarkPass_frame ol om items s
  rw [h]

@[simp] theorem hlcDeletedPass_itemList (m : List (String × Nat)) (items : List Item) (idx : Nat) (s : VLVState) :
    (hlcDeletedPass m items idx s).itemList = s.itemList := by
  obtain ⟨adj, hcx, pm, ac, rc, dd, lf, h⟩ := hlcDeletedPass_frame m items idx s
  rw [h]

@[simp] theorem hlcDeletedPass_lastScrollTop (m : List (String × Nat)) (items : List Item) (idx : Nat) (s : VLVState) :
    (hlcDeletedPass m items idx s).lastScrollTop = s.lastScrollTop := by
  obtain ⟨adj, hcx, pm, ac, rc, dd, lf, h⟩ := hlcDeletedPass_frame m items idx s
  rw [h]

@[simp] theorem hlcDeletedPass_layoutHeight (m : List (String × Nat)) (items : List Item) (idx : Nat) (s : VLVState) :
    (hlcDeletedPass m items idx s).layoutHeight = s.layoutHeight := by
  obtain ⟨adj, hcx, pm, ac, rc, dd, lf, h⟩ := hlcDeletedPass_frame m items idx s
  rw [h]

@[simp] theorem hlcDeletedPass_containerHeight (m : List (String × Nat)) (items : List Item) (idx : Nat) (s : VLVState) :
    (hlcDeletedPass m items idx s).containerHeight = s.containerHeight := by
  obtain ⟨adj, hcx, pm, ac, rc, dd, lf, h⟩ := hlcDeletedPass_frame m items idx s
  rw [h]

@[simp] theorem hlcDeletedPass_itemMap (m : List (String × Nat)) (items : List Item) (idx : Nat) (s : VLVState) :
    (hlcDeletedPass m items idx s).itemMap = s.itemMap := by
  obtain ⟨adj, hcx, pm, ac, rc, dd, lf, h⟩ := hlcDeletedPass_frame m items idx s
  rw [h]

@[simp] theorem hlcDeletedPass_pendingAnimations (m : List (String × Nat)) (items : List Item) (idx : Nat) (s : VLVState) :
    (hlcDeletedPass m items idx s).pendingAnimations = s.pendingAnimations := by
  obtain ⟨adj, hcx, pm, ac, rc, dd, lf, h⟩ := hlcDeletedPass_frame m items idx s
  rw [h]

@[simp] theorem hlcDeletedPass_heightAboveRenderBlock (m : List (String × Nat)) (items : List Item) (idx : Nat) (s : VLVState) :
    (hlcDeletedPass m items idx s).heightAboveRenderBlock = s.heightAboveRenderBlock := by
  obtain ⟨adj, hcx, pm, ac, rc, dd, lf, h⟩ := hlcDeletedPass_frame m items idx s
  rw [h]

@[simp] theorem hlcDeletedPass_heightOfRenderBlock (m : List (String × Nat)) (items : List Item) (idx : Nat) (s : VLVState) :
    (hlcDeletedPass m items idx s).heightOfRenderBlock = s.heightOfRenderBlock := by
  obtain ⟨adj, hcx, pm, ac, rc, dd, lf, h⟩ := hlcDeletedPass_frame m items idx s
  rw [h]

@[simp] theorem hlcDeletedPass_heightBelowRenderBlock (m : List (String × Nat)) (items : List Item) (idx : Nat) (s : VLVState) :
    (hlcDeletedPass m items idx s).heightBelowRenderBlock = s.heightBelowRenderBlock := by
  obtain ⟨adj, hcx, pm, ac, rc, dd, lf, h⟩ := hlcDeletedPass_frame m items idx s
  rw [h]

@[simp] theorem hlcDeletedPass_itemsAboveRenderBlock (m : List (String × Nat)) (items : List Item) (idx : Nat) (s : VLVState) :
    (hlcDeletedPass m items idx s).itemsAboveRenderBlock = s.itemsAboveRenderBlock := by
  obtain ⟨adj, hcx, pm, ac, rc, dd, lf, h⟩ := hlcDeletedPass_frame m items idx s
  rw [h]

@[simp] theorem hlcDeletedPass_itemsInRenderBlock (m : List (String × Nat)) (items : List Item) (idx : Nat) (s : VLVState) :
    (hlcDeletedPass m items idx s).itemsInRenderBlock = s.itemsInRenderBlock := by
  obtain ⟨adj, hcx, pm, ac, rc, dd, lf, h⟩ := hlcDeletedPass_frame m items idx s
  rw [h]

@[simp] theorem hlcDeletedPass_itemsBelowRenderBlock (m : List (String × Nat)) (items : List Item) (idx : Nat) (s : VLVState) :
    (hlcDeletedPass m items idx s).itemsBelowRenderBlock = s.itemsBelowRenderBlock := by
  obtain ⟨adj, hcx, pm, ac, rc, dd, lf, h⟩ := hlcDeletedPass_frame m items idx s
  rw [h]

@[simp] theorem hlcDeletedPass_isInitialFillComplete (m : List (String × Nat)) (items : List Item) (idx : Nat) (s : VLVState) :
    (hlcDeletedPass m items idx s).isInitialFillComplete = s.isInitialFillComplete := by
  obtain ⟨adj, hcx, pm, ac, rc, dd, lf, h⟩ := hlcDeletedPass_frame m items idx s
  rw [h]

@[simp] theorem hlcDeletedPass_navigatableItemsRendered (m : List (String × Nat)) (items : List Item) (idx : Nat) (s : VLVState) :
    (hlcDeletedPass m items idx s).navigatableItemsRendered = s.navigatableItemsRendered := by
  obtain ⟨adj, hcx, pm, ac, rc, dd, lf, h⟩ := hlcDeletedPass_frame m items idx s
  rw [h]

@[simp] theorem hlcDeletedPass_maxRecycledCells (m : List (String × Nat)) (items : List Item) (idx : Nat) (s : VLVState) :
    (hlcDeletedPass m items idx s).maxRecycledCells = s.maxRecycledCells := by
  obtain ⟨adj, hcx, pm, ac, rc, dd, lf, h⟩ := hlcDeletedPass_frame m items idx s
  rw [h]

@[simp] theorem hlcDeletedPass_nextCellKey (m : List (String × Nat)) (items : List Item) (idx : Nat) (s : VLVState) :
    (hlcDeletedPass m items idx s).nextCellKey = s.nextCellKey := by
  obtain ⟨adj, hcx, pm, ac, rc, dd, lf, h⟩ := hlcDeletedPass_frame m items idx s
  rw [h]

@[simp] theorem hlcDeletedPass_pendingFocusDirection (m : List (String × Nat)) (items : List Item) (idx : Nat) (s : VLVState) :
    (hlcDeletedPass m items idx s).pendingFocusDirection = s.pendingFocusDirection := by
  obtain ⟨adj, hcx, pm, ac, rc, dd, lf, h⟩ := hlcDeletedPass_frame m items idx s
  rw [h]

theorem hlcBoundsWalk_le (top bot : ℚ) :
    ∀ (items : List Item) (idx : Nat) (y : ℚ) (looking : Bool)
      (s : VLVState),
      (looking = true → s.itemsAboveRenderBlock = 0 ∧
        s.itemsInRenderBlock = 0) →
      (looking = false → s.itemsAboveRenderBlock +
        s.itemsInRenderBlock ≤ idx) →
      (hlcBoundsWalk top bot items idx y looking s).itemsAboveRenderBlock +
        (hlcBoundsWalk top bot items idx y looking s).itemsInRenderBlock ≤
        idx + items.length := by
  intro items
  induction items with
  | nil =>
      intro idx y looking s htrue hfalse
      cases looking with
      | true =>
          obtain ⟨h1, h2⟩ := htrue rfl
          simp only [hlcBoundsWalk, h1, h2, List.length_nil]
          omega
      | false =>
          have := hfalse rfl
          simp only [hlcBoundsWalk, List.length_nil]
          omega
  | cons item rest ih =>
      intro idx y looking s htrue hfalse
      unfold hlcBoundsWalk
      dsimp only
      cases looking with
      | true =>
          obtain ⟨hA0, hI0⟩ := htrue rfl
          repeat' split
          all_goals first
            | exact absurd rfl (by assumption)
            | exact Bool.noConfusion (by assumption : false = true)
            | (refine Nat.le_trans (ih (idx + 1) _ _ _ ?_ ?_)
                 (by simp only [List.length_cons]; omega) <;>
               first
                 | (intro h; exact Bool.noConfusion h)
                 | (intro _; simp_all <;> omega))
      | false =>
          have hle := hfalse rfl
          repeat' split
          all_goals first
            | exact absurd rfl (by assumption)
            | exact Bool.noConfusion (by assumption : false = true)
            | (refine Nat.le_trans (ih (idx + 1) _ _ _ ?_ ?_)
                 (by simp only [List.length_cons]; omega) <;>
               first
                 | (intro h; exact Bool.noConfusion h)
                 | (intro _; simp_all <;> omega))

theorem calcCullPhase_counts (s : VLVState) :
    (calcCullPhase s).itemList = s.itemList ∧
    counts (calcCullPhase s) = counts s := by
  unfold calcCullPhase
  dsimp only
  obtain ⟨hl1, hc1⟩ := cullTop_counts
    (s.lastScrollTop - max (s.layoutHeight * cullFraction) minCullAmount)
    s.itemsInRenderBlock s
  obtain ⟨hl2, hc2⟩ := cullBottom_counts
    (s.lastScrollTop + s.layoutHeight +
      max (s.layoutHeight * cullFraction) minCullAmount)
    (cullTop s.itemsInRenderBlock s
      (s.lastScrollTop - max (s.layoutHeight * cullFraction)
        minCullAmount)).itemsInRenderBlock
    (cullTop s.itemsInRenderBlock s
      (s.lastScrollTop - max (s.layoutHeight * cullFraction)
        minCullAmount))
  exact ⟨hl2.trans hl1, hc2.trans hc1⟩

theorem calcSeedPhase_sumInv (lim : ℚ) (s : VLVState) (h : sumInv s) :
    sumInv (calcSeedPhase lim s) := by
  unfold calcSeedPhase
  split
  · rename_i hin0
    dsimp only
    obtain ⟨hl, hb, hres⟩ := seedLoop_bound lim
      s.itemList 0 s.heightAboveRenderAdjustment
      { s with itemsAboveRenderBlock := 0 } hin0 rfl
    have hlen := congrArg List.length hl
    rw [sumInv_iff]
    simp only [counts]
    rcases hres with heq | ⟨h1, h2⟩
    · rw [heq]
      simp only []
      omega
    · simp only [] at hl hb h1 h2 hlen
      omega
  · exact h

theorem counts_popInvisibleIntoView (s : VLVState) :
    counts (popInvisibleIntoView s) = counts s := by
  simp [counts]

theorem calcMainPhase_counts (topL botL : ℚ) (s : VLVState) :
    (calcMainPhase topL botL s).itemList = s.itemList ∧
    counts (calcMainPhase topL botL s) = counts s := by
  unfold calcMainPhase
  dsimp only
  obtain ⟨acR, hrp⟩ := repositionLoop_frame s.itemsInRenderBlock
    s.itemsAboveRenderBlock
    (s.heightAboveRenderBlock + s.heightAboveRenderAdjustment) s
  rw [hrp]
  dsimp only
  split
  · -- container height updated
    obtain ⟨hgbl, hgbc⟩ := growBottom_counts botL s.itemsBelowRenderBlock
      { s with
        activeCells := acR
        containerHeight := max (s.heightAboveRenderAdjustment +
          s.heightAboveRenderBlock + s.heightOfRenderBlock +
          s.heightBelowRenderBlock) s.layoutHeight }
      ((repositionLoop s.itemsInRenderBlock s.itemsAboveRenderBlock
        (s.heightAboveRenderBlock + s.heightAboveRenderAdjustment) s).2)
    obtain ⟨hgtl, hgtc⟩ := growTop_counts topL
      (growBottom s.itemsBelowRenderBlock
        { s with
          activeCells := acR
          containerHeight := max (s.heightAboveRenderAdjustment +
            s.heightAboveRenderBlock + s.heightOfRenderBlock +
            s.heightBelowRenderBlock) s.layoutHeight }
        ((repositionLoop s.itemsInRenderBlock s.itemsAboveRenderBlock
          (s.heightAboveRenderBlock + s.heightAboveRenderAdjustment) s).2)
        botL).1.itemsAboveRenderBlock
      (growBottom s.itemsBelowRenderBlock
        { s with
          activeCells := acR
          containerHeight := max (s.heightAboveRenderAdjustment +
            s.heightAboveRenderBlock + s.heightOfRenderBlock +
            s.heightBelowRenderBlock) s.layoutHeight }
        ((repositionLoop s.itemsInRenderBlock s.itemsAboveRenderBlock
          (s.heightAboveRenderBlock + s.heightAboveRenderAdjustment) s).2)
        botL).1
      (s.heightAboveRenderBlock + s.heightAboveRenderAdjustment)
    simp only [] at hgbl hgbc
    split
    · refine ⟨?_, ?_⟩
      · simp only [popInvisibleIntoView_itemList]
        rw [hgtl, hgbl]
      · simp only [counts, popInvisibleIntoView_itemsAboveRenderBlock,
          popInvisibleIntoView_itemsInRenderBlock,
          popInvisibleIntoView_itemsBelowRenderBlock] at hgbc hgtc ⊢
        omega
    · refine ⟨?_, ?_⟩
      · rw [hgtl, hgbl]
      · simp only [counts] at hgbc hgtc ⊢
        omega
  · -- container height unchanged
    obtain ⟨hgbl, hgbc⟩ := growBottom_counts botL s.itemsBelowRenderBlock
      { s with activeCells := acR }
      ((repositionLoop s.itemsInRenderBlock s.itemsAboveRenderBlock
        (s.heightAboveRenderBlock + s.heightAboveRenderAdjustment) s).2)
    obtain ⟨hgtl, hgtc⟩ := growTop_counts topL
      (growBottom s.itemsBelowRenderBlock { s with activeCells := acR }
        ((repositionLoop s.itemsInRenderBlock s.itemsAboveRenderBlock
          (s.heightAboveRenderBlock + s.heightAboveRenderAdjustment) s).2)
        botL).1.itemsAboveRenderBlock
      (growBottom s.itemsBelowRenderBlock { s with activeCells := acR }
        ((repositionLoop s.itemsInRenderBlock s.itemsAboveRenderBlock
          (s.heightAboveRenderBlock + s.heightAboveRenderAdjustment) s).2)
        botL).1
      (s.heightAboveRenderBlock + s.heightAboveRenderAdjustment)
    simp only [] at hgbl hgbc
    split
    · refine ⟨?_, ?_⟩
      · simp only [popInvisibleIntoView_itemList]
        rw [hgtl, hgbl]
      · simp only [counts, popInvisibleIntoView_itemsAboveRenderBlock,
          popInvisibleIntoView_itemsInRenderBlock,
          popInvisibleIntoView_itemsBelowRenderBlock] at hgbc hgtc ⊢
        omega
    · refine ⟨?_, ?_⟩
      · rw [hgtl, hgbl]
      · simp only [counts] at hgbc hgtc ⊢
        omega

theorem calcNewRenderedItemState_sumInv (s : VLVState) (h : sumInv s) :
    sumInv (calcNewRenderedItemState s) := by
  unfold calcNewRenderedItemState
  split
  · exact h
  · split
    · exact h
    · split
      · exact h
      · dsimp only
        obtain ⟨hl1, hc1⟩ := calcCullPhase_counts s
        have h1 : sumInv (calcCullPhase s) := by
          rw [sumInv_iff, hl1, hc1]
          exact h
        have h2 := calcSeedPhase_sumInv
          ((calcCullPhase s).lastScrollTop -
            if (calcCullPhase s).isInitialFillComplete = true then
              calcOverdrawAmount (calcCullPhase s) else 0)
          (calcCullPhase s) h1
        obtain ⟨hl3, hc3⟩ := calcMainPhase_counts
          ((calcCullPhase s).lastScrollTop -
            if (calcCullPhase s).isInitialFillComplete = true then
              calcOverdrawAmount (calcCullPhase s) else 0)
          ((calcCullPhase s).lastScrollTop + (calcCullPhase s).layoutHeight +
            if (calcCullPhase s).isInitialFillComplete = true then
              calcOverdrawAmount (calcCullPhase s) else 0)
          (calcSeedPhase
            ((calcCullPhase s).lastScrollTop -
              if (calcCullPhase s).isInitialFillComplete = true then
                calcOverdrawAmount (calcCullPhase s) else 0)
            (calcCullPhase s))
        rw [sumInv_iff] at h2 ⊢
        rw [hl3, hc3]
        exact h2

theorem handleItemListChangePost_sumInv (newItems : List Item)
    (m : List (String × Nat)) (topL botL : ℚ) (s0 : VLVState) :
    sumInv (handleItemListChangePost newItems m topL botL s0) := by
  unfold handleItemListChangePost
  dsimp only
  have hwalk := hlcBoundsWalk_le topL botL newItems 0
    s0.heightAboveRenderAdjustment true
    { s0 with itemsAboveRenderBlock := 0, itemsInRenderBlock := 0 }
    (fun _ => ⟨rfl, rfl⟩) (fun h => Bool.noConfusion h)
  rw [sumInv_iff]
  split
  all_goals (simp only [counts]; omega)

theorem handleItemListChange_sumInv (newItems : List Item) (s : VLVState) :
    sumInv (handleItemListChange newItems s) :=
  handleItemListChangePost_sumInv newItems _ _ _ _

theorem sumInv_renderIfDirty (s : VLVState) (h : sumInv s) :
    sumInv (renderIfDirty s) := by
  unfold sumInv at h ⊢
  simp only [renderIfDirty_itemsAboveRenderBlock,
    renderIfDirty_itemsInRenderBlock, renderIfDirty_itemsBelowRenderBlock,
    renderIfDirty_itemList]
  exact h

theorem sumInv_reconcileCorrections (s : VLVState) (h : sumInv s) :
    sumInv (reconcileCorrections s) := by
  unfold sumInv at h ⊢
  simp only [reconcileCorrections_itemsAboveRenderBlock,
    reconcileCorrections_itemsInRenderBlock,
    reconcileCorrections_itemsBelowRenderBlock,
    reconcileCorrections_itemList]
  exact h

theorem step_sumInv (s : VLVState) (e : Event) (h : sumInv s) :
    sumInv (step s e) := by
  cases e with
  | listChange newItems =>
      exact sumInv_renderIfDirty _ (calcNewRenderedItemState_sumInv _
        (handleItemListChange_sumInv newItems s))
  | scroll t =>
      simp only [step]
      unfold onScroll
      split
      · exact h
      · refine sumInv_reconcileCorrections _ (sumInv_renderIfDirty _
          (calcNewRenderedItemState_sumInv _ ?_))
        unfold sumInv at h ⊢
        simp only []
        exact h
  | resize lh =>
      simp only [step]
      unfold onLayoutContainer
      split
      · exact h
      · refine sumInv_reconcileCorrections _ (sumInv_renderIfDirty _
          (calcNewRenderedItemState_sumInv _ ?_))
        unfold sumInv at h ⊢
        simp only []
        exact h
  | heightReport k nh =>
      simp only [step]
      unfold onLayoutItem
      dsimp only
      repeat' split
      all_goals first
        | exact h
        | (refine sumInv_reconcileCorrections _ ?_
           first
             | (refine sumInv_renderIfDirty _
                  (calcNewRenderedItemState_sumInv _ ?_)
                unfold sumInv at h ⊢
                simp only []
                exact h)
             | (unfold sumInv at h ⊢
                simp only []
                exact h))
  | animStartStop k b =>
      simp only [step]
      unfold onAnimateStartStopItem
      dsimp only
      repeat' split
      all_goals first
        | (unfold sumInv at h ⊢; simp only []; exact h)
        | (refine sumInv_reconcileCorrections _ ?_
           unfold sumInv at h ⊢
           simp only []
           exact h)
  | tick =>
      simp only [step]
      unfold deferredTick
      dsimp only
      have h1 : sumInv (reconcileCorrections (renderIfDirty
          (calcNewRenderedItemState s))) :=
        sumInv_reconcileCorrections _ (sumInv_renderIfDirty _
          (calcNewRenderedItemState_sumInv _ h))
      split
      · exact h1
      · unfold sumInv at h1 ⊢
        simp only [focusSubsequentItemSnd_itemsAboveRenderBlock,
          focusSubsequentItemSnd_itemsInRenderBlock,
          focusSubsequentItemSnd_itemsBelowRenderBlock,
          focusSubsequentItemSnd_itemList]
        exact h1

theorem foldl_step_sumInv :
    ∀ (events : List Event) (s : VLVState), sumInv s →
      sumInv (events.foldl step s) := by
  intro events
  induction events with
  | nil => exact fun s h => h
  | cons e rest ih =>
      intro s h
      exact ih (step s e) (step_sumInv s e h)

theorem initState_sumInv (items : List Item) : sumInv (initState items) :=
  sumInv_renderIfDirty _ (calcNewRenderedItemState_sumInv _
    (handleItemListChange_sumInv items (emptyState items)))

/-- C1: for every item list and every sequence of events (item-list
replacement, scroll, viewport resize, height report, and also animation
notifications and deferred render turns), after each event handler
completes the render-block counters satisfy `itemsAboveRenderBlock +
itemsInRenderBlock + itemsBelowRenderBlock = itemList.length`. -/
theorem c1_render_block_counters_partition (items : List Item)
    (events : List Event) : sumInv (runEvents items events) :=
  foldl_step_sumInv events (initState items) (initState_sumInv items)

/-! ## List slice and height-sum lemmas (claim C2) -/

theorem drop_eq_cons_of_get {α : Type} :
    ∀ (l : List α) (n : Nat) (a : α), l.get? n = some a →
      l.drop n = a :: l.drop (n + 1)
  | [], n, a, h => by simp at h
  | x :: xs, 0, a, h => by
      simp only [List.get?] at h
      injection h with h
      simp [h]
  | x :: xs, n + 1, a, h => by
      simp only [List.get?] at h
      simp only [List.drop_succ_cons]
      exact drop_eq_cons_of_get xs n a h

theorem take_succ_of_get {α : Type} :
    ∀ (l : List α) (n : Nat) (a : α), l.get? n = some a →
      l.take (n + 1) = l.take n ++ [a]
  | [], n, a, h => by simp at h
  | x :: xs, 0, a, h => by
      simp only [List.get?] at h
      injection h with h
      simp [h]
  | x :: xs, n + 1, a, h => by
      simp only [List.get?] at h
      simp only [List.take_succ_cons]
      rw [take_succ_of_get xs n a h]
      rfl

theorem get_drop_eq {α : Type} (l : List α) (i j : Nat) :
    (l.drop i).get? j = l.get? (i + j) := by
  rw [List.get?_drop]

theorem sumHeights_append (cache : List (String × ℚ)) (xs ys : List Item) :
    sumHeights cache (xs ++ ys) =
      sumHeights cache xs + sumHeights cache ys := by
  simp [sumHeights]

theorem sumHeights_cons (cache : List (String × ℚ)) (x : Item)
    (xs : List Item) :
    sumHeights cache (x :: xs) =
      getHeightOfItem cache x + sumHeights cache xs := by
  simp [sumHeights]

theorem sumHeights_single (cache : List (String × ℚ)) (x : Item) :
    sumHeights cache [x] = getHeightOfItem cache x := by
  simp [sumHeights]

/-- Splitting the first element off a block slice. -/
theorem block_split_top (l : List Item) (a n : Nat) (item : Item)
    (h : l.get? a = some item) (hn : n ≠ 0) :
    (l.drop a).take n = item :: (l.drop (a + 1)).take (n - 1) := by
  obtain ⟨m, rfl⟩ := Nat.exists_eq_succ_of_ne_zero hn
  rw [drop_eq_cons_of_get l a item h]
  simp

/-- Splitting the last element off a block slice. -/
theorem block_split_bottom (l : List Item) (a n : Nat) (item : Item)
    (h : l.get? (a + n) = some item) :
    (l.drop a).take (n + 1) = (l.drop a).take n ++ [item] := by
  refine take_succ_of_get (l.drop a) n item ?_
  rw [get_drop_eq]
  exact h

/-- The bridge between the source's inclusive-index `_calcHeightOfItems`
and a sum over a `drop`/`take` slice. -/
theorem calcHeightOfItems_eq_sumHeights (cache : List (String × ℚ))
    (l : List Item) (a cnt : Nat) :
    calcHeightOfItems cache l (a : Int) ((a : Int) + (cnt : Int) - 1) =
      sumHeights cache ((l.drop a).take cnt) := by
  unfold calcHeightOfItems
  have hcnt : (((a : Int) + (cnt : Int) - 1) + 1 - (a : Int)).toNat = cnt := by
    omega
  rw [hcnt]
  induction cnt with
  | zero => simp [sumHeights]
  | succ n ih =>
      rw [List.range_succ, List.foldl_append]
      simp only [List.foldl_cons, List.foldl_nil]
      rw [ih (by omega)]
      cases hg : l.get? (a + n) with
      | none =>
          have hlen : l.length ≤ a + n := by
            by_contra hlt
            push_neg at hlt
            rw [List.get?_eq_get hlt] at hg
            cases hg
          have h1 : (l.drop a).take (n + 1) = (l.drop a).take n := by
            rw [List.take_eq_take]
            simp only [List.length_drop]
            omega
          rw [h1]
          have h2 : listGetI l ((a : Int) + (n : Int)) = none := by
            unfold listGetI
            rw [if_neg (by omega)]
            have : ((a : Int) + (n : Int)).toNat = a + n := by omega
            rw [this, hg]
          rw [h2]
          simp [getHeightOfItemOpt]
      | some item =>
          rw [block_split_bottom l a n item hg, sumHeights_append,
            sumHeights_single]
          have h2 : listGetI l ((a : Int) + (n : Int)) = some item := by
            unfold listGetI
            rw [if_neg (by omega)]
            have : ((a : Int) + (n : Int)).toNat = a + n := by omega
            rw [this, hg]
          rw [h2]
          simp [getHeightOfItemOpt]

/-- The three call shapes of `_calcHeightOfItems` in the source. -/
theorem calcH_prefix (cache : List (String × ℚ)) (l : List Item)
    (above : Nat) :
    calcHeightOfItems cache l 0 ((above : Int) - 1) =
      sumHeights cache (l.take above) := by
  have h := calcHeightOfItems_eq_sumHeights cache l 0 above
  simp only [Nat.cast_zero, zero_add, List.drop_zero] at h
  exact h

theorem calcH_block (cache : List (String × ℚ)) (l : List Item)
    (a n : Nat) :
    calcHeightOfItems cache l (a : Int) ((a : Int) + (n : Int) - 1) =
      sumHeights cache ((l.drop a).take n) :=
  calcHeightOfItems_eq_sumHeights cache l a n

theorem calcH_suffix (cache : List (String × ℚ)) (l : List Item)
    (a b : Nat) (hle : a + b ≤ l.length) :
    calcHeightOfItems cache l ((a : Int) + (b : Int))
      ((l.length : Int) - 1) = sumHeights cache (l.drop (a + b)) := by
  have h := calcHeightOfItems_eq_sumHeights cache l (a + b)
    (l.length - (a + b))
  have e0 : (((a + b : Nat)) : Int) = (a : Int) + (b : Int) := by push_cast; ring
  rw [e0] at h
  have e1 : (a : Int) + (b : Int) + ((l.length - (a + b) : Nat) : Int) - 1 =
      (l.length : Int) - 1 := by omega
  rw [e1] at h
  rw [h]
  congr 1
  exact List.take_all_of_le (by simp only [List.length_drop]; omega)

theorem cullTop_heights (line : ℚ) :
    ∀ (fuel : Nat) (s : VLVState),
      (heightsInvBlock s → heightsInvBlock (cullTop fuel s line)) ∧
      (heightsInvFull s → heightsInvFull (cullTop fuel s line)) := by
  intro fuel
  induction fuel with
  | zero => exact fun s => ⟨id, id⟩
  | succ n ih =>
      intro s
      unfold cullTop
      split
      · exact ⟨id, id⟩
      · split
        · exact ⟨id, id⟩
        · split
          · exact ⟨id, id⟩
          · dsimp only
            split
            · exact ⟨id, id⟩
            · rename_i hin x item heq hkn hge
              obtain ⟨ac, rc, d, hrec⟩ := recycleCell_frame
                { s with
                    itemsInRenderBlock := s.itemsInRenderBlock - 1
                    heightOfRenderBlock := s.heightOfRenderBlock -
                      getHeightOfItem s.heightCache item
                    itemsAboveRenderBlock := s.itemsAboveRenderBlock + 1
                    heightAboveRenderBlock := s.heightAboveRenderBlock +
                      getHeightOfItem s.heightCache item } item.key
              rw [hrec]
              have hsplit := block_split_top s.itemList
                s.itemsAboveRenderBlock s.itemsInRenderBlock item heq hin
              constructor
              · intro hb
                refine (ih _).1 ?_
                unfold heightsInvBlock blockItems at hb ⊢
                simp only []
                rw [hsplit, sumHeights_cons] at hb
                rw [hb]
                ring
              · intro hf
                obtain ⟨ha, hb, hbl⟩ := hf
                refine (ih _).2 ⟨?_, ?_, ?_⟩
                · unfold aboveItems at ha ⊢
                  simp only []
                  rw [take_succ_of_get s.itemList s.itemsAboveRenderBlock
                    item heq, sumHeights_append, sumHeights_single, ha]
                · unfold blockItems at hb ⊢
                  simp only []
                  rw [hsplit, sumHeights_cons] at hb
                  rw [hb]
                  ring
                · unfold belowItems at hbl ⊢
                  simp only []
                  have e : s.itemsAboveRenderBlock + 1 +
                      (s.itemsInRenderBlock - 1) =
                      s.itemsAboveRenderBlock + s.itemsInRenderBlock := by
                    omega
                  rw [e]
                  exact hbl

theorem cullBottom_heights (line : ℚ) :
    ∀ (fuel : Nat) (s : VLVState),
      (heightsInvBlock s → heightsInvBlock (cullBottom fuel s line)) ∧
      (heightsInvFull s → heightsInvFull (cullBottom fuel s line)) := by
  intro fuel
  induction fuel with
  | zero => exact fun s => ⟨id, id⟩
  | succ n ih =>
      intro s
      unfold cullBottom
      split
      · exact ⟨id, id⟩
      · split
        · exact ⟨id, id⟩
        · split
          · exact ⟨id, id⟩
          · dsimp only
            split
            · exact ⟨id, id⟩
            · rename_i hin x item heq hkn hge
              obtain ⟨ac, rc, d, hrec⟩ := recycleCell_frame
                { s with
                    itemsInRenderBlock := s.itemsInRenderBlock - 1
                    heightOfRenderBlock := s.heightOfRenderBlock -
                      getHeightOfItem s.heightCache item
                    itemsBelowRenderBlock := s.itemsBelowRenderBlock + 1
                    heightBelowRenderBlock := s.heightBelowRenderBlock +
                      getHeightOfItem s.heightCache item } item.key
              rw [hrec]
              have heq' : s.itemList.get? (s.itemsAboveRenderBlock +
                  (s.itemsInRenderBlock - 1)) = some item := by
                have e : s.itemsAboveRenderBlock +
                    (s.itemsInRenderBlock - 1) =
                    s.itemsAboveRenderBlock + s.itemsInRenderBlock - 1 := by
                  omega
                rw [e]
                exact heq
              have hsplit : (s.itemList.drop s.itemsAboveRenderBlock).take
                  s.itemsInRenderBlock =
                  (s.itemList.drop s.itemsAboveRenderBlock).take
                    (s.itemsInRenderBlock - 1) ++ [item] := by
                have e : s.itemsInRenderBlock =
                    (s.itemsInRenderBlock - 1) + 1 := by omega
                rw [e]
                exact block_split_bottom s.itemList s.itemsAboveRenderBlock
                  (s.itemsInRenderBlock - 1) item heq'
              have hdrop : s.itemList.drop (s.itemsAboveRenderBlock +
                  s.itemsInRenderBlock - 1) =
                  item :: s.itemList.drop (s.itemsAboveRenderBlock +
                    s.itemsInRenderBlock) := by
                have h1 := drop_eq_cons_of_get s.itemList
                  (s.itemsAboveRenderBlock + s.itemsInRenderBlock - 1)
                  item heq
                have e2 : s.itemsAboveRenderBlock + s.itemsInRenderBlock -
                    1 + 1 = s.itemsAboveRenderBlock +
                      s.itemsInRenderBlock := by omega
                rw [h1, e2]
              constructor
              · intro hb
                refine (ih _).1 ?_
                unfold heightsInvBlock blockItems at hb ⊢
                simp only []
                rw [hsplit, sumHeights_append, sumHeights_single] at hb
                rw [hb]
                ring
              · intro hf
                obtain ⟨ha, hb, hbl⟩ := hf
                refine (ih _).2 ⟨?_, ?_, ?_⟩
                · exact ha
                · unfold blockItems at hb ⊢
                  simp only []
                  rw [hsplit, sumHeights_append, sumHeights_single] at hb
                  rw [hb]
                  ring
                · unfold belowItems at hbl ⊢
                  simp only []
                  have e : s.itemsAboveRenderBlock +
                      (s.itemsInRenderBlock - 1) =
                      s.itemsAboveRenderBlock + s.itemsInRenderBlock - 1 := by
                    omega
                  rw [e, hdrop, sumHeights_cons, hbl]
                  ring

/-! ## Item map and key invariants (claims C2, C10) -/

theorem lookupKey_setKey_cases {α : Type} (m : List (String × α))
    (k k' : String) (v w : α)
    (h : lookupKey (setKey m k v) k' = some w) :
    (k' = k ∧ w = v) ∨ lookupKey m k' = some w := by
  by_cases hk : k' = k
  · subst hk
    rw [lookupKey_setKey_self] at h
    exact Or.inl ⟨rfl, (Option.some.injEq _ _).mp h.symm⟩
  · rw [lookupKey_setKey_ne m k k' v hk] at h
    exact Or.inr h

theorem buildItemMapAux_spec (l0 : List Item) :
    ∀ (items : List Item) (i : Nat) (m : List (String × Nat)),
      items = l0.drop i →
      (∀ k j, lookupKey m k = some j →
        ∃ t, l0.get? j = some t ∧ t.key = k) →
      ∀ k j, lookupKey (buildItemMapAux items i m) k = some j →
        ∃ t, l0.get? j = some t ∧ t.key = k := by
  intro items
  induction items with
  | nil => exact fun i m _ hm => hm
  | cons item rest ih =>
      intro i m hdrop hm k j hl
      have hget : l0.get? i = some item := by
        have : (l0.drop i).get? 0 = some item := by rw [← hdrop]; rfl
        rw [get_drop_eq] at this
        simpa using this
      have hrest : rest = l0.drop (i + 1) := by
        have h1 : l0.drop (i + 1) = (l0.drop i).drop 1 := by
          rw [List.drop_drop]
        rw [h1, ← hdrop]
        rfl
      refine ih (i + 1) (setKey m item.key i) hrest ?_ k j hl
      intro k' j' hl'
      rcases lookupKey_setKey_cases m item.key k' i j' hl' with ⟨hk, hj⟩ | h
      · subst hk hj
        exact ⟨item, hget, rfl⟩
      · exact hm k' j' h

theorem lookup_buildItemMap (items : List Item) (k : String) (i : Nat)
    (h : lookupKey (buildItemMap items) k = some i) :
    ∃ it, items.get? i = some it ∧ it.key = k :=
  buildItemMapAux_spec items items 0 [] (by simp)
    (fun _ _ h' => by simp [lookupKey] at h') k i h

theorem buildItem_heights (s : VLVState) (ab : Bool) (y : ℚ)
    (hab : ab = true → s.itemsAboveRenderBlock ≠ 0) :
    (heightsInvBlock s →
      heightsInvBlock (buildItem s
        (if ab then s.itemsAboveRenderBlock - 1
         else s.itemsAboveRenderBlock + s.itemsInRenderBlock) ab y).1) ∧
    (heightsInvFull s →
      heightsInvFull (buildItem s
        (if ab then s.itemsAboveRenderBlock - 1
         else s.itemsAboveRenderBlock + s.itemsInRenderBlock) ab y).1) := by
  cases ab with
  | false =>
      simp only [Bool.false_eq_true, if_false]
      unfold buildItem
      split
      · exact ⟨id, id⟩
      · rename_i x item heq
        dsimp only
        repeat' split
        all_goals first
          | exact Bool.noConfusion (by assumption : false = true)
          | (obtain ⟨ac, rc, d, n, halloc⟩ :=
               allocateCell_frame _ _ _ _ _ _ _ _
             rw [halloc]
             have hblock := block_split_bottom s.itemList
               s.itemsAboveRenderBlock s.itemsInRenderBlock item heq
             have hdrop := drop_eq_cons_of_get s.itemList
               (s.itemsAboveRenderBlock + s.itemsInRenderBlock) item heq
             constructor
             · intro hb
               unfold heightsInvBlock blockItems at hb ⊢
               simp only []
               rw [hblock, sumHeights_append, sumHeights_single, ← hb]
             · intro ⟨ha, hb, hbl⟩
               refine ⟨ha, ?_, ?_⟩
               · unfold blockItems at hb ⊢
                 simp only []
                 rw [hblock, sumHeights_append, sumHeights_single, ← hb]
               · unfold belowItems at hbl ⊢
                 simp only []
                 rw [hdrop, sumHeights_cons] at hbl
                 rw [hbl]
                 ring)
  | true =>
      have hA := hab rfl
      simp only [if_true]
      unfold buildItem
      split
      · exact ⟨id, id⟩
      · rename_i x item heq
        dsimp only
        repeat' split
        all_goals first
          | exact absurd rfl (by assumption)
          | (obtain ⟨ac, rc, d, n, halloc⟩ :=
               allocateCell_frame _ _ _ _ _ _ _ _
             rw [halloc]
             have hdrop : s.itemList.drop (s.itemsAboveRenderBlock - 1) =
                 item :: s.itemList.drop s.itemsAboveRenderBlock := by
               have h1 := drop_eq_cons_of_get s.itemList
                 (s.itemsAboveRenderBlock - 1) item heq
               have e : s.itemsAboveRenderBlock - 1 + 1 =
                   s.itemsAboveRenderBlock := by omega
               rw [h1, e]
             have htake : s.itemList.take s.itemsAboveRenderBlock =
                 s.itemList.take (s.itemsAboveRenderBlock - 1) ++ [item] := by
               have h1 := take_succ_of_get s.itemList
                 (s.itemsAboveRenderBlock - 1) item heq
               have e : s.itemsAboveRenderBlock - 1 + 1 =
                   s.itemsAboveRenderBlock := by omega
               rw [e] at h1
               exact h1
             have hblock : (s.itemList.drop
                 (s.itemsAboveRenderBlock - 1)).take
                   (s.itemsInRenderBlock + 1) =
                 item :: (s.itemList.drop s.itemsAboveRenderBlock).take
                   s.itemsInRenderBlock := by
               rw [hdrop]
               rfl
             constructor
             · intro hb
               unfold heightsInvBlock blockItems at hb ⊢
               simp only []
               rw [hblock, sumHeights_cons, ← hb]
               ring
             · intro ⟨ha, hb, hbl⟩
               refine ⟨?_, ?_, ?_⟩
               · unfold aboveItems at ha ⊢
                 simp only []
                 rw [htake, sumHeights_append, sumHeights_single] at ha
                 rw [ha]
                 ring
               · unfold blockItems at hb ⊢
                 simp only []
                 rw [hblock, sumHeights_cons, ← hb]
                 ring
               · unfold belowItems at hbl ⊢
                 simp only []
                 have e : s.itemsAboveRenderBlock - 1 +
                     (s.itemsInRenderBlock + 1) =
                     s.itemsAboveRenderBlock + s.itemsInRenderBlock := by
                   omega
                 rw [e]
                 exact hbl)

theorem growBottom_heights (lim : ℚ) :
    ∀ (fuel : Nat) (s : VLVState) (y : ℚ),
      (heightsInvBlock s → heightsInvBlock (growBottom fuel s y lim).1) ∧
      (heightsInvFull s → heightsInvFull (growBottom fuel s y lim).1) := by
  intro fuel
  induction fuel with
  | zero => exact fun s y => ⟨id, id⟩
  | succ n ih =>
      intro s y
      unfold growBottom
      split
      · exact ⟨id, id⟩
      · split
        · exact ⟨id, id⟩
        · have hbi := buildItem_heights s false y (fun h => Bool.noConfusion h)
          simp only [Bool.false_eq_true, if_false] at hbi
          have hih := ih (buildItem s
            (s.itemsAboveRenderBlock + s.itemsInRenderBlock) false y).1
            (y + (buildItem s
              (s.itemsAboveRenderBlock + s.itemsInRenderBlock) false y).2)
          exact ⟨fun hb => hih.1 (hbi.1 hb), fun hf => hih.2 (hbi.2 hf)⟩

theorem growTop_heights (lim : ℚ) :
    ∀ (fuel : Nat) (s : VLVState) (y : ℚ),
      (heightsInvBlock s → heightsInvBlock (growTop fuel s y lim).1) ∧
      (heightsInvFull s → heightsInvFull (growTop fuel s y lim).1) := by
  intro fuel
  induction fuel with
  | zero => exact fun s y => ⟨id, id⟩
  | succ n ih =>
      intro s y
      unfold growTop
      split
      · exact ⟨id, id⟩
      · split
        · exact ⟨id, id⟩
        · rename_i hcond
          push_neg at hcond
          have hbi := buildItem_heights s true
            (y - getHeightOfItemOpt s.heightCache
              (s.itemList.get? (s.itemsAboveRenderBlock - 1)))
            (fun _ => hcond.1)
          simp only [if_true] at hbi
          have hih := ih (buildItem s (s.itemsAboveRenderBlock - 1) true
            (y - getHeightOfItemOpt s.heightCache
              (s.itemList.get? (s.itemsAboveRenderBlock - 1)))).1
            (y - (buildItem s (s.itemsAboveRenderBlock - 1) true
              (y - getHeightOfItemOpt s.heightCache
                (s.itemList.get? (s.itemsAboveRenderBlock - 1)))).2)
          exact ⟨fun hb => hih.1 (hbi.1 hb), fun hf => hih.2 (hbi.2 hf)⟩

theorem seedLoop_cache (lim : ℚ) :
    ∀ (items : List Item) (i : Nat) (y : ℚ) (s : VLVState),
      (seedLoop items i y lim s).heightCache = s.heightCache := by
  intro items
  induction items with
  | nil => exact fun i y s => rfl
  | cons item rest ih =>
      intro i y s
      unfold seedLoop
      dsimp only
      split
      · repeat' split
        all_goals obtain ⟨ac, rc, d, n, halloc⟩ :=
          allocateCell_frame _ _ _ _ _ _ _ _
        all_goals rw [halloc]
      · exact ih (i + 1) _ s

theorem heightsInv_of_hfields_eq (s t : VLVState)
    (h : hfields t = hfields s) :
    (heightsInvBlock s → heightsInvBlock t) ∧
    (heightsInvFull s → heightsInvFull t) := by
  unfold hfields at h
  simp only [Prod.mk.injEq] at h
  obtain ⟨h1, h2, h3, h4, h5, h6, h7⟩ := h
  constructor
  · intro hb
    unfold heightsInvBlock blockItems at hb ⊢
    rw [h1, h2, h3, h4, h6]
    exact hb
  · intro ⟨ha, hb, hc⟩
    refine ⟨?_, ?_, ?_⟩
    · unfold aboveItems at ha ⊢
      rw [h1, h2, h3, h5]
      exact ha
    · unfold blockItems at hb ⊢
      rw [h1, h2, h3, h4, h6]
      exact hb
    · unfold belowItems at hc ⊢
      rw [h1, h2, h3, h4, h7]
      exact hc

theorem calcCullPhase_heights (s : VLVState) :
    (heightsInvBlock s → heightsInvBlock (calcCullPhase s)) ∧
    (heightsInvFull s → heightsInvFull (calcCullPhase s)) := by
  unfold calcCullPhase
  dsimp only
  exact ⟨fun h => (cullBottom_heights _ _ _).1 ((cullTop_heights _ _ _).1 h),
         fun h => (cullBottom_heights _ _ _).2 ((cullTop_heights _ _ _).2 h)⟩

theorem calcSeedPhase_heights (lim : ℚ) (s : VLVState) :
    (heightsInvBlock s → heightsInvBlock (calcSeedPhase lim s)) ∧
    (heightsInvFull s → heightsInvFull (calcSeedPhase lim s)) := by
  unfold calcSeedPhase
  split
  · rename_i hin
    dsimp only
    obtain ⟨hl, hbel, hres⟩ := seedLoop_bound lim s.itemList 0
      s.heightAboveRenderAdjustment { s with itemsAboveRenderBlock := 0 }
      hin rfl
    have hcache := seedLoop_cache lim s.itemList 0
      s.heightAboveRenderAdjustment { s with itemsAboveRenderBlock := 0 }
    simp only [] at hl hcache
    have hle : (seedLoop s.itemList 0 s.heightAboveRenderAdjustment lim
        { s with itemsAboveRenderBlock := 0 }).itemsAboveRenderBlock +
        (seedLoop s.itemList 0 s.heightAboveRenderAdjustment lim
          { s with itemsAboveRenderBlock := 0 }).itemsInRenderBlock ≤
        (seedLoop s.itemList 0 s.heightAboveRenderAdjustment lim
          { s with itemsAboveRenderBlock := 0 }).itemList.length := by
      rcases hres with heq | ⟨h1, h2⟩
      · rw [heq]
        simp [hin]
      · rw [hl, h1]
        omega
    rw [hl] at hle
    constructor
    · intro _
      unfold heightsInvBlock blockItems
      simp only []
      exact calcH_block _ _ _ _
    · intro _
      refine ⟨?_, ?_, ?_⟩
      · unfold aboveItems
        simp only []
        exact calcH_prefix _ _ _
      · unfold blockItems
        simp only []
        exact calcH_block _ _ _ _
      · unfold belowItems
        simp only []
        rw [hl]
        exact calcH_suffix _ _ _ _ hle
  · exact ⟨id, id⟩

theorem calcMainPhase_heights (tl bl : ℚ) (s : VLVState) :
    (heightsInvBlock s → heightsInvBlock (calcMainPhase tl bl s)) ∧
    (heightsInvFull s → heightsInvFull (calcMainPhase tl bl s)) := by
  unfold calcMainPhase
  dsimp only
  obtain ⟨ac, hrp⟩ := repositionLoop_frame s.itemsInRenderBlock
    s.itemsAboveRenderBlock
    (s.heightAboveRenderBlock + s.heightAboveRenderAdjustment) s
  rw [hrp]
  constructor <;> intro h <;>
    (repeat' split) <;>
    first
      | exact (growTop_heights tl _ _ _).1 ((growBottom_heights bl _ _ _).1
          ((heightsInv_of_hfields_eq _ _ rfl).1 h))
      | exact (growTop_heights tl _ _ _).2 ((growBottom_heights bl _ _ _).2
          ((heightsInv_of_hfields_eq _ _ rfl).2 h))
      | (obtain ⟨ac2, hpop⟩ := popInvisibleIntoView_frame _
         rw [hpop]
         exact (heightsInv_of_hfields_eq _ _ rfl).1
           ((growTop_heights tl _ _ _).1 ((growBottom_heights bl _ _ _).1
             ((heightsInv_of_hfields_eq _ _ rfl).1 h))))
      | (obtain ⟨ac2, hpop⟩ := popInvisibleIntoView_frame _
         rw [hpop]
         exact (heightsInv_of_hfields_eq _ _ rfl).2
           ((growTop_heights tl _ _ _).2 ((growBottom_heights bl _ _ _).2
             ((heightsInv_of_hfields_eq _ _ rfl).2 h))))

theorem calcNewRenderedItemState_heights (s : VLVState) :
    (heightsInvBlock s → heightsInvBlock (calcNewRenderedItemState s)) ∧
    (heightsInvFull s → heightsInvFull (calcNewRenderedItemState s)) := by
  unfold calcNewRenderedItemState
  split
  · exact ⟨id, id⟩
  · split
    · exact ⟨id, id⟩
    · split
      · exact ⟨id, id⟩
      · dsimp only
        constructor
        · intro h
          exact (calcMainPhase_heights _ _ _).1
            ((calcSeedPhase_heights _ _).1 ((calcCullPhase_heights _).1 h))
        · intro h
          exact (calcMainPhase_heights _ _ _).2
            ((calcSeedPhase_heights _ _).2 ((calcCullPhase_heights _).2 h))

theorem sumHeights_setKey_no_key (cache : List (String × ℚ)) (k : String)
    (nh : ℚ) :
    ∀ (items : List Item),
      (∀ j it, items.get? j = some it → it.key ≠ k) →
      sumHeights (setKey cache k nh) items = sumHeights cache items := by
  intro items
  induction items with
  | nil => intro _; rfl
  | cons x xs ih =>
      intro h
      rw [sumHeights_cons, sumHeights_cons,
        getHeightOfItem_setKey_ne cache k nh x (h 0 x rfl),
        ih (fun j it hj => h (j + 1) it hj)]

theorem sumHeights_update_at (cache : List (String × ℚ)) (k : String)
    (nh : ℚ) :
    ∀ (items : List Item) (j : Nat) (item : Item),
      items.get? j = some item → item.key = k → item.measureHeight = true →
      (∀ j' it', items.get? j' = some it' → it'.key = k → j' = j) →
      sumHeights (setKey cache k nh) items =
        sumHeights cache items + (nh - getHeightOfItem cache item) := by
  intro items
  induction items with
  | nil => intro j item hj; cases hj
  | cons x xs ih =>
      intro j item hj hk hm huniq
      cases j with
      | zero =>
          have hx : x = item := by
            have : some x = some item := hj
            injection this
          subst hx
          have hself : getHeightOfItem (setKey cache k nh) x = nh := by
            rw [← hk]
            exact getHeightOfItem_setKey_self cache nh x hm
          rw [sumHeights_cons, sumHeights_cons, hself,
            sumHeights_setKey_no_key cache k nh xs (fun j' it' hj' hk' =>
              Nat.succ_ne_zero j' (huniq (j' + 1) it' hj' hk'))]
          ring
      | succ n =>
          have hx : x.key ≠ k := fun hk' =>
            Nat.succ_ne_zero n (huniq 0 x rfl hk').symm
          rw [sumHeights_cons, sumHeights_cons,
            getHeightOfItem_setKey_ne cache k nh x hx,
            ih n item hj hk hm (fun j' it' hj' hk' => by
              have h2 := huniq (j' + 1) it' hj' hk'
              omega)]
          ring

theorem nodup_key_unique (l : List Item)
    (hnd : (l.map Item.key).Nodup) (i j : Nat) (it1 it2 : Item)
    (h1 : l.get? i = some it1) (h2 : l.get? j = some it2)
    (hk : it1.key = it2.key) : i = j := by
  have hm1 : (l.map Item.key).get? i = some it1.key := by
    rw [List.get?_map, h1]
    rfl
  have hm2 : (l.map Item.key).get? j = some it2.key := by
    rw [List.get?_map, h2]
    rfl
  have hlen : i < (l.map Item.key).length := by
    rw [List.length_map]
    exact (List.get?_eq_some.mp h1).1
  exact List.get?_inj hlen hnd (by rw [hm1, hm2, hk])

theorem get?_take_some {α : Type} (l : List α) (n j : Nat) (a : α)
    (h : (l.take n).get? j = some a) : j < n ∧ l.get? j = some a := by
  have hj : j < (l.take n).length := (List.get?_eq_some.mp h).1
  rw [List.length_take] at hj
  have hjn : j < n := lt_of_lt_of_le hj (min_le_left _ _)
  exact ⟨hjn, by rw [← h]; exact (List.get?_take hjn).symm⟩

theorem cullTop_itemMap (line : ℚ) :
    ∀ (fuel : Nat) (s : VLVState),
      (cullTop fuel s line).itemMap = s.itemMap := by
  intro fuel
  induction fuel with
  | zero => exact fun s => rfl
  | succ n ih =>
      intro s
      unfold cullTop
      repeat' split
      all_goals try dsimp only
      all_goals repeat' split
      all_goals first
        | rfl
        | (obtain ⟨ac, rc, d, hrec⟩ := recycleCell_frame _ _
           rw [hrec]
           exact ih _)

theorem cullBottom_itemMap (line : ℚ) :
    ∀ (fuel : Nat) (s : VLVState),
      (cullBottom fuel s line).itemMap = s.itemMap := by
  intro fuel
  induction fuel with
  | zero => exact fun s => rfl
  | succ n ih =>
      intro s
      unfold cullBottom
      repeat' split
      all_goals try dsimp only
      all_goals repeat' split
      all_goals first
        | rfl
        | (obtain ⟨ac, rc, d, hrec⟩ := recycleCell_frame _ _
           rw [hrec]
           exact ih _)

theorem seedLoop_itemMap (lim : ℚ) :
    ∀ (items : List Item) (i : Nat) (y : ℚ) (s : VLVState),
      (seedLoop items i y lim s).itemMap = s.itemMap := by
  intro items
  induction items with
  | nil => exact fun i y s => rfl
  | cons item rest ih =>
      intro i y s
      unfold seedLoop
      dsimp only
      split
      · repeat' split
        all_goals obtain ⟨ac, rc, d, n, halloc⟩ :=
          allocateCell_frame _ _ _ _ _ _ _ _
        all_goals rw [halloc]
      · exact ih (i + 1) _ s

theorem buildItem_itemMap (s : VLVState) (idx : Nat) (ab : Bool) (y : ℚ) :
    (buildItem s idx ab y).1.itemMap = s.itemMap := by
  unfold buildItem
  split
  · rfl
  · dsimp only
    repeat' split
    all_goals obtain ⟨ac, rc, d, n, halloc⟩ :=
      allocateCell_frame _ _ _ _ _ _ _ _
    all_goals rw [halloc]

theorem growBottom_itemMap (lim : ℚ) :
    ∀ (fuel : Nat) (s : VLVState) (y : ℚ),
      (growBottom fuel s y lim).1.itemMap = s.itemMap := by
  intro fuel
  induction fuel with
  | zero => exact fun s y => rfl
  | succ n ih =>
      intro s y
      unfold growBottom
      split
      · rfl
      · split
        · rfl
        · exact (ih _ _).trans (buildItem_itemMap _ _ _ _)

theorem growTop_itemMap (lim : ℚ) :
    ∀ (fuel : Nat) (s : VLVState) (y : ℚ),
      (growTop fuel s y lim).1.itemMap = s.itemMap := by
  intro fuel
  induction fuel with
  | zero => exact fun s y => rfl
  | succ n ih =>
      intro s y
      unfold growTop
      split
      · rfl
      · split
        · rfl
        · exact (ih _ _).trans (buildItem_itemMap _ _ _ _)

theorem calcCullPhase_itemMap (s : VLVState) :
    (calcCullPhase s).itemMap = s.itemMap := by
  unfold calcCullPhase
  dsimp only
  exact (cullBottom_itemMap _ _ _).trans (cullTop_itemMap _ _ _)

theorem calcSeedPhase_itemMap (lim : ℚ) (s : VLVState) :
    (calcSeedPhase lim s).itemMap = s.itemMap := by
  unfold calcSeedPhase
  split
  · dsimp only
    exact seedLoop_itemMap lim _ _ _ _
  · rfl

theorem seedLoop_itemList (lim : ℚ) :
    ∀ (items : List Item) (i : Nat) (y : ℚ) (s : VLVState),
      (seedLoop items i y lim s).itemList = s.itemList := by
  intro items
  induction items with
  | nil => exact fun i y s => rfl
  | cons item rest ih =>
      intro i y s
      unfold seedLoop
      dsimp only
      split
      · repeat' split
        all_goals obtain ⟨ac, rc, d, n, halloc⟩ :=
          allocateCell_frame _ _ _ _ _ _ _ _
        all_goals rw [halloc]
      · exact ih (i + 1) _ s

theorem calcSeedPhase_itemList (lim : ℚ) (s : VLVState) :
    (calcSeedPhase lim s).itemList = s.itemList := by
  unfold calcSeedPhase
  split
  · dsimp only
    exact seedLoop_itemList lim _ _ _ _
  · rfl

theorem calcMainPhase_itemMap (tl bl : ℚ) (s : VLVState) :
    (calcMainPhase tl bl s).itemMap = s.itemMap := by
  unfold calcMainPhase
  dsimp only
  obtain ⟨ac, hrp⟩ := repositionLoop_frame s.itemsInRenderBlock
    s.itemsAboveRenderBlock
    (s.heightAboveRenderBlock + s.heightAboveRenderAdjustment) s
  rw [hrp]
  repeat' split
  all_goals first
    | exact (growTop_itemMap _ _ _ _).trans (growBottom_itemMap _ _ _ _)
    | (obtain ⟨ac2, hpop⟩ := popInvisibleIntoView_frame _
       rw [hpop]
       exact (growTop_itemMap _ _ _ _).trans (growBottom_itemMap _ _ _ _))

theorem calcNewRenderedItemState_itemMap (s : VLVState) :
    (calcNewRenderedItemState s).itemMap = s.itemMap := by
  unfold calcNewRenderedItemState
  repeat' split
  all_goals first
    | rfl
    | exact ((calcMainPhase_itemMap _ _ _).trans
        (calcSeedPhase_itemMap _ _)).trans (calcCullPhase_itemMap _)

theorem calcNewRenderedItemState_itemList (s : VLVState) :
    (calcNewRenderedItemState s).itemList = s.itemList := by
  unfold calcNewRenderedItemState
  repeat' split
  all_goals first
    | rfl
    | exact ((calcMainPhase_counts _ _ _).1.trans
        (calcSeedPhase_itemList _ _)).trans (calcCullPhase_counts _).1

theorem heightsInvBlock_reconcile (t : VLVState)
    (h : heightsInvBlock t) :
    heightsInvBlock (reconcileCorrections t) := by
  unfold heightsInvBlock blockItems at h ⊢
  simp only [reconcileCorrections_heightOfRenderBlock,
    reconcileCorrections_heightCache, reconcileCorrections_itemList,
    reconcileCorrections_itemsAboveRenderBlock,
    reconcileCorrections_itemsInRenderBlock]
  exact h

theorem heightsInvBlock_renderIfDirty (t : VLVState)
    (h : heightsInvBlock t) :
    heightsInvBlock (renderIfDirty t) := by
  unfold heightsInvBlock blockItems at h ⊢
  simp only [renderIfDirty_heightOfRenderBlock, renderIfDirty_heightCache,
    renderIfDirty_itemList, renderIfDirty_itemsAboveRenderBlock,
    renderIfDirty_itemsInRenderBlock]
  exact h

theorem onLayoutItem_heightsInvBlock (k : String) (nh : ℚ) (s : VLVState)
    (hmap : itemMapInv s) (hnd : nodupKeys s) (hb : heightsInvBlock s) :
    heightsInvBlock (onLayoutItem k nh s) := by
  unfold onLayoutItem
  split
  · exact hb
  · rename_i i hlook
    split
    · exact hb
    · rename_i item hget
      obtain ⟨it2, hget2, hkey2⟩ := hmap k i hlook
      rw [hget] at hget2
      have hik : item.key = k := by
        injection hget2 with h2
        rw [← h2] at hkey2
        exact hkey2
      split
      · exact hb
      · rename_i hmh
        have hm : item.measureHeight = true := by
          cases hcase : item.measureHeight
          · rw [hcase] at hmh
            exact absurd rfl hmh
          · rfl
        dsimp only
        split
        · rename_i hout
          unfold heightsInvBlock blockItems at hb ⊢
          simp only []
          rw [hb]
          refine Eq.symm (sumHeights_setKey_no_key _ _ _ _ ?_)
          intro j it hj hkj
          obtain ⟨hjin, hj2⟩ := get?_take_some _ _ _ _ hj
          rw [get_drop_eq] at hj2
          have := nodup_key_unique s.itemList hnd _ _ _ _ hj2 hget
            (hkj.trans hik.symm)
          omega
        · rename_i hout
          push_neg at hout
          obtain ⟨hge, hlt⟩ := hout
          unfold heightsInvBlock blockItems at hb
          have hblockEq : sumHeights (setKey s.heightCache k nh)
              ((s.itemList.drop s.itemsAboveRenderBlock).take
                s.itemsInRenderBlock) =
              sumHeights s.heightCache
                ((s.itemList.drop s.itemsAboveRenderBlock).take
                  s.itemsInRenderBlock) +
                (nh - getHeightOfItem s.heightCache item) := by
            refine sumHeights_update_at s.heightCache k nh _
              (i - s.itemsAboveRenderBlock) item ?_ hik hm ?_
            · rw [List.get?_take (by omega), get_drop_eq]
              have he : s.itemsAboveRenderBlock +
                  (i - s.itemsAboveRenderBlock) = i := by omega
              rw [he]
              exact hget
            · intro j' it' hj' hk'
              obtain ⟨hjin, hj2⟩ := get?_take_some _ _ _ _ hj'
              rw [get_drop_eq] at hj2
              have := nodup_key_unique s.itemList hnd _ _ _ _ hj2 hget
                (hk'.trans hik.symm)
              omega
          by_cases hne : getHeightOfItem s.heightCache item ≠ nh
          · rw [if_pos hne]
            repeat' split
            all_goals refine heightsInvBlock_reconcile _ ?_
            all_goals try
              (refine heightsInvBlock_renderIfDirty _ ?_
               refine (calcNewRenderedItemState_heights _).1 ?_)
            all_goals
              (unfold heightsInvBlock blockItems
               simp only []
               rw [hblockEq, ← hb]
               try ring)
          · rw [if_neg hne]
            repeat' split
            all_goals refine heightsInvBlock_reconcile _ ?_
            all_goals try
              (refine heightsInvBlock_renderIfDirty _ ?_
               refine (calcNewRenderedItemState_heights _).1 ?_)
            all_goals
              (unfold heightsInvBlock blockItems
               simp only []
               rw [hblockEq, ← hb, not_ne_iff.mp hne]
               ring)

theorem onLayoutItem_lm (k : String) (nh : ℚ) (s : VLVState) :
    (onLayoutItem k nh s).itemList = s.itemList ∧
    (onLayoutItem k nh s).itemMap = s.itemMap := by
  unfold onLayoutItem
  dsimp only
  repeat' split
  all_goals constructor
  all_goals simp [calcNewRenderedItemState_itemList,
    calcNewRenderedItemState_itemMap]

theorem handleItemListChangePost_lm (newItems : List Item)
    (m : List (String × Nat)) (tl bl : ℚ) (s0 : VLVState) :
    (handleItemListChangePost newItems m tl bl s0).itemList = newItems ∧
    (handleItemListChangePost newItems m tl bl s0).itemMap = m := by
  unfold handleItemListChangePost
  dsimp only
  split
  all_goals exact ⟨rfl, rfl⟩

theorem handleItemListChangePost_heights (newItems : List Item)
    (m : List (String × Nat)) (tl bl : ℚ) (s0 : VLVState) :
    heightsInvBlock (handleItemListChangePost newItems m tl bl s0) ∧
    heightsInvFull (handleItemListChangePost newItems m tl bl s0) := by
  unfold handleItemListChangePost
  dsimp only
  have hwalk := hlcBoundsWalk_le tl bl newItems 0
    s0.heightAboveRenderAdjustment true
    { s0 with itemsAboveRenderBlock := 0, itemsInRenderBlock := 0 }
    (fun _ => ⟨rfl, rfl⟩) (fun h => Bool.noConfusion h)
  split
  all_goals constructor
  all_goals first
    | (unfold heightsInvBlock blockItems
       try simp only []
       exact calcH_block _ _ _ _)
    | (refine ⟨?_, ?_, ?_⟩
       · unfold aboveItems
         try simp only []
         exact calcH_prefix _ _ _
       · unfold blockItems
         try simp only []
         exact calcH_block _ _ _ _
       · unfold belowItems
         try simp only []
         refine calcH_suffix _ _ _ _ ?_
         omega)

theorem handleItemListChange_lm (newItems : List Item) (s : VLVState) :
    (handleItemListChange newItems s).itemList = newItems ∧
    (handleItemListChange newItems s).itemMap = buildItemMap newItems := by
  unfold handleItemListChange
  dsimp only
  exact handleItemListChangePost_lm _ _ _ _ _

theorem handleItemListChange_heights (newItems : List Item) (s : VLVState) :
    heightsInvBlock (handleItemListChange newItems s) ∧
    heightsInvFull (handleItemListChange newItems s) := by
  unfold handleItemListChange
  dsimp only
  exact handleItemListChangePost_heights _ _ _ _ _

theorem heightsInvFull_reconcile (t : VLVState) (h : heightsInvFull t) :
    heightsInvFull (reconcileCorrections t) := by
  obtain ⟨h1, h2, h3⟩ := h
  refine ⟨?_, ?_, ?_⟩
  · unfold aboveItems at h1 ⊢
    simp only [reconcileCorrections_heightAboveRenderBlock,
      reconcileCorrections_heightCache, reconcileCorrections_itemList,
      reconcileCorrections_itemsAboveRenderBlock]
    exact h1
  · unfold blockItems at h2 ⊢
    simp only [reconcileCorrections_heightOfRenderBlock,
      reconcileCorrections_heightCache, reconcileCorrections_itemList,
      reconcileCorrections_itemsAboveRenderBlock,
      reconcileCorrections_itemsInRenderBlock]
    exact h2
  · unfold belowItems at h3 ⊢
    simp only [reconcileCorrections_heightBelowRenderBlock,
      reconcileCorrections_heightCache, reconcileCorrections_itemList,
      reconcileCorrections_itemsAboveRenderBlock,
      reconcileCorrections_itemsInRenderBlock]
    exact h3

theorem heightsInvFull_renderIfDirty (t : VLVState) (h : heightsInvFull t) :
    heightsInvFull (renderIfDirty t) := by
  obtain ⟨h1, h2, h3⟩ := h
  refine ⟨?_, ?_, ?_⟩
  · unfold aboveItems at h1 ⊢
    simp only [renderIfDirty_heightAboveRenderBlock, renderIfDirty_heightCache,
      renderIfDirty_itemList, renderIfDirty_itemsAboveRenderBlock]
    exact h1
  · unfold blockItems at h2 ⊢
    simp only [renderIfDirty_heightOfRenderBlock, renderIfDirty_heightCache,
      renderIfDirty_itemList, renderIfDirty_itemsAboveRenderBlock,
      renderIfDirty_itemsInRenderBlock]
    exact h2
  · unfold belowItems at h3 ⊢
    simp only [renderIfDirty_heightBelowRenderBlock, renderIfDirty_heightCache,
      renderIfDirty_itemList, renderIfDirty_itemsAboveRenderBlock,
      renderIfDirty_itemsInRenderBlock]
    exact h3

theorem heightsInvBlock_focusSnd (s : VLVState) (d : Int) (r : Bool)
    (h : heightsInvBlock s) :
    heightsInvBlock ((focusSubsequentItem s d r).2) := by
  unfold heightsInvBlock blockItems at h ⊢
  simp only [focusSubsequentItemSnd_heightOfRenderBlock,
    focusSubsequentItemSnd_heightCache, focusSubsequentItemSnd_itemList,
    focusSubsequentItemSnd_itemsAboveRenderBlock,
    focusSubsequentItemSnd_itemsInRenderBlock]
  exact h

theorem heightsInvFull_focusSnd (s : VLVState) (d : Int) (r : Bool)
    (h : heightsInvFull s) :
    heightsInvFull ((focusSubsequentItem s d r).2) := by
  obtain ⟨h1, h2, h3⟩ := h
  refine ⟨?_, ?_, ?_⟩
  · unfold aboveItems at h1 ⊢
    simp only [focusSubsequentItemSnd_heightAboveRenderBlock,
      focusSubsequentItemSnd_heightCache, focusSubsequentItemSnd_itemList,
      focusSubsequentItemSnd_itemsAboveRenderBlock]
    exact h1
  · unfold blockItems at h2 ⊢
    simp only [focusSubsequentItemSnd_heightOfRenderBlock,
      focusSubsequentItemSnd_heightCache, focusSubsequentItemSnd_itemList,
      focusSubsequentItemSnd_itemsAboveRenderBlock,
      focusSubsequentItemSnd_itemsInRenderBlock]
    exact h2
  · unfold belowItems at h3 ⊢
    simp only [focusSubsequentItemSnd_heightBelowRenderBlock,
      focusSubsequentItemSnd_heightCache, focusSubsequentItemSnd_itemList,
      focusSubsequentItemSnd_itemsAboveRenderBlock,
      focusSubsequentItemSnd_itemsInRenderBlock]
    exact h3

theorem onScroll_heights (st : ℚ) (t : VLVState) :
    (heightsInvBlock t → heightsInvBlock (onScroll st t)) ∧
    (heightsInvFull t → heightsInvFull (onScroll st t)) := by
  unfold onScroll
  split
  · exact ⟨id, id⟩
  · dsimp only
    constructor
    · intro h
      exact heightsInvBlock_reconcile _ (heightsInvBlock_renderIfDirty _
        ((calcNewRenderedItemState_heights _).1
          ((heightsInv_of_hfields_eq _ _ rfl).1 h)))
    · intro h
      exact heightsInvFull_reconcile _ (heightsInvFull_renderIfDirty _
        ((calcNewRenderedItemState_heights _).2
          ((heightsInv_of_hfields_eq _ _ rfl).2 h)))

theorem onLayoutContainer_heights (lh : ℚ) (t : VLVState) :
    (heightsInvBlock t → heightsInvBlock (onLayoutContainer lh t)) ∧
    (heightsInvFull t → heightsInvFull (onLayoutContainer lh t)) := by
  unfold onLayoutContainer
  split
  · exact ⟨id, id⟩
  · dsimp only
    constructor
    · intro h
      exact heightsInvBlock_reconcile _ (heightsInvBlock_renderIfDirty _
        ((calcNewRenderedItemState_heights _).1
          ((heightsInv_of_hfields_eq _ _ rfl).1 h)))
    · intro h
      exact heightsInvFull_reconcile _ (heightsInvFull_renderIfDirty _
        ((calcNewRenderedItemState_heights _).2
          ((heightsInv_of_hfields_eq _ _ rfl).2 h)))

theorem onAnimateStartStopItem_heights (k : String) (b : Bool)
    (t : VLVState) :
    (heightsInvBlock t → heightsInvBlock (onAnimateStartStopItem k b t)) ∧
    (heightsInvFull t → heightsInvFull (onAnimateStartStopItem k b t)) := by
  unfold onAnimateStartStopItem
  split
  · exact ⟨fun h => (heightsInv_of_hfields_eq _ _ rfl).1 h,
           fun h => (heightsInv_of_hfields_eq _ _ rfl).2 h⟩
  · dsimp only
    split
    · exact ⟨fun h => heightsInvBlock_reconcile _
          ((heightsInv_of_hfields_eq _ _ rfl).1 h),
        fun h => heightsInvFull_reconcile _
          ((heightsInv_of_hfields_eq _ _ rfl).2 h)⟩
    · exact ⟨fun h => (heightsInv_of_hfields_eq _ _ rfl).1 h,
        fun h => (heightsInv_of_hfields_eq _ _ rfl).2 h⟩

theorem deferredTick_heights (t : VLVState) :
    (heightsInvBlock t → heightsInvBlock (deferredTick t)) ∧
    (heightsInvFull t → heightsInvFull (deferredTick t)) := by
  unfold deferredTick
  dsimp only
  split
  · exact ⟨fun h => heightsInvBlock_reconcile _
        (heightsInvBlock_renderIfDirty _
          ((calcNewRenderedItemState_heights _).1 h)),
      fun h => heightsInvFull_reconcile _ (heightsInvFull_renderIfDirty _
        ((calcNewRenderedItemState_heights _).2 h))⟩
  · constructor
    · intro h
      exact (heightsInv_of_hfields_eq _ _ rfl).1
        (heightsInvBlock_focusSnd _ _ _ (heightsInvBlock_reconcile _
          (heightsInvBlock_renderIfDirty _
            ((calcNewRenderedItemState_heights _).1 h))))
    · intro h
      exact (heightsInv_of_hfields_eq _ _ rfl).2
        (heightsInvFull_focusSnd _ _ _ (heightsInvFull_reconcile _
          (heightsInvFull_renderIfDirty _
            ((calcNewRenderedItemState_heights _).2 h))))

theorem onScroll_lm (st : ℚ) (t : VLVState) :
    (onScroll st t).itemList = t.itemList ∧
    (onScroll st t).itemMap = t.itemMap := by
  unfold onScroll
  split
  · exact ⟨rfl, rfl⟩
  · dsimp only
    constructor
    · simp [calcNewRenderedItemState_itemList]
    · simp [calcNewRenderedItemState_itemMap]

theorem onLayoutContainer_lm (lh : ℚ) (t : VLVState) :
    (onLayoutContainer lh t).itemList = t.itemList ∧
    (onLayoutContainer lh t).itemMap = t.itemMap := by
  unfold onLayoutContainer
  split
  · exact ⟨rfl, rfl⟩
  · dsimp only
    constructor
    · simp [calcNewRenderedItemState_itemList]
    · simp [calcNewRenderedItemState_itemMap]

theorem onAnimateStartStopItem_lm (k : String) (b : Bool) (t : VLVState) :
    (onAnimateStartStopItem k b t).itemList = t.itemList ∧
    (onAnimateStartStopItem k b t).itemMap = t.itemMap := by
  unfold onAnimateStartStopItem
  split
  · exact ⟨rfl, rfl⟩
  · dsimp only
    split
    · constructor
      · simp
      · simp
    · exact ⟨rfl, rfl⟩

theorem deferredTick_lm (t : VLVState) :
    (deferredTick t).itemList = t.itemList ∧
    (deferredTick t).itemMap = t.itemMap := by
  unfold deferredTick
  dsimp only
  split
  · constructor
    · simp [calcNewRenderedItemState_itemList]
    · simp [calcNewRenderedItemState_itemMap]
  · constructor
    · simp [calcNewRenderedItemState_itemList]
    · simp [calcNewRenderedItemState_itemMap]

theorem lm_preserves_mapNodup (t s : VLVState)
    (hl : t.itemList = s.itemList) (hm : t.itemMap = s.itemMap)
    (h1 : itemMapInv s) (h2 : nodupKeys s) :
    itemMapInv t ∧ nodupKeys t := by
  constructor
  · intro k i hlook
    rw [hm] at hlook
    obtain ⟨it, hg, hk⟩ := h1 k i hlook
    exact ⟨it, by rw [hl]; exact hg, hk⟩
  · unfold nodupKeys
    rw [hl]
    exact h2

theorem mapInv_of_buildItemMap (t : VLVState) (items : List Item)
    (hl : t.itemList = items) (hm : t.itemMap = buildItemMap items) :
    itemMapInv t := by
  intro k i hlook
  rw [hm] at hlook
  obtain ⟨it, hg, hk⟩ := lookup_buildItemMap items k i hlook
  exact ⟨it, by rw [hl]; exact hg, hk⟩

theorem step_goodState (s : VLVState) (e : Event) (hg : goodState s)
    (hwf : wfEvent e) : goodState (step s e) := by
  obtain ⟨hmap, hnd, hb⟩ := hg
  cases e with
  | listChange items =>
      have hndI : (items.map Item.key).Nodup := hwf
      simp only [step]
      obtain ⟨hl, hm⟩ := handleItemListChange_lm items s
      have hl2 : (renderIfDirty (calcNewRenderedItemState
          (handleItemListChange items s))).itemList = items := by
        rw [renderIfDirty_itemList, calcNewRenderedItemState_itemList, hl]
      have hm2 : (renderIfDirty (calcNewRenderedItemState
          (handleItemListChange items s))).itemMap = buildItemMap items := by
        rw [renderIfDirty_itemMap, calcNewRenderedItemState_itemMap, hm]
      refine ⟨mapInv_of_buildItemMap _ items hl2 hm2, ?_, ?_⟩
      · unfold nodupKeys
        rw [hl2]
        exact hndI
      · exact heightsInvBlock_renderIfDirty _
          ((calcNewRenderedItemState_heights _).1
            (handleItemListChange_heights items s).1)
  | scroll st =>
      simp only [step]
      obtain ⟨hl, hm⟩ := onScroll_lm st s
      obtain ⟨hmi, hnd2⟩ := lm_preserves_mapNodup _ _ hl hm hmap hnd
      exact ⟨hmi, hnd2, (onScroll_heights st s).1 hb⟩
  | resize lh =>
      simp only [step]
      obtain ⟨hl, hm⟩ := onLayoutContainer_lm lh s
      obtain ⟨hmi, hnd2⟩ := lm_preserves_mapNodup _ _ hl hm hmap hnd
      exact ⟨hmi, hnd2, (onLayoutContainer_heights lh s).1 hb⟩
  | heightReport k nh =>
      simp only [step]
      obtain ⟨hl, hm⟩ := onLayoutItem_lm k nh s
      obtain ⟨hmi, hnd2⟩ := lm_preserves_mapNodup _ _ hl hm hmap hnd
      exact ⟨hmi, hnd2, onLayoutItem_heightsInvBlock k nh s hmap hnd hb⟩
  | animStartStop k b =>
      simp only [step]
      obtain ⟨hl, hm⟩ := onAnimateStartStopItem_lm k b s
      obtain ⟨hmi, hnd2⟩ := lm_preserves_mapNodup _ _ hl hm hmap hnd
      exact ⟨hmi, hnd2, (onAnimateStartStopItem_heights k b s).1 hb⟩
  | tick =>
      simp only [step]
      obtain ⟨hl, hm⟩ := deferredTick_lm s
      obtain ⟨hmi, hnd2⟩ := lm_preserves_mapNodup _ _ hl hm hmap hnd
      exact ⟨hmi, hnd2, (deferredTick_heights s).1 hb⟩

theorem emptyState_goodState (items : List Item)
    (h0 : (items.map Item.key).Nodup) : goodState (emptyState items) := by
  refine ⟨?_, h0, ?_⟩
  · intro k i hlook
    simp [emptyState, lookupKey] at hlook
  · unfold heightsInvBlock blockItems emptyState
    simp [sumHeights]

theorem foldl_step_goodState :
    ∀ (events : List Event) (s : VLVState), goodState s →
      (∀ e ∈ events, wfEvent e) → goodState (events.foldl step s) := by
  intro events
  induction events with
  | nil => exact fun s h _ => h
  | cons e rest ih =>
      intro s h hwf
      exact ih (step s e) (step_goodState s e h
          (hwf e (List.mem_cons_self e rest)))
        (fun e' he' => hwf e' (List.mem_cons_of_mem e he'))

theorem initState_goodState (items : List Item)
    (h0 : (items.map Item.key).Nodup) : goodState (initState items) :=
  step_goodState (emptyState items) (.listChange items)
    (emptyState_goodState items h0) h0

theorem runEvents_goodState (items : List Item) (events : List Event)
    (h0 : (items.map Item.key).Nodup) (hwf : ∀ e ∈ events, wfEvent e) :
    goodState (runEvents items events) :=
  foldl_step_goodState events (initState items)
    (initState_goodState items h0) hwf

theorem step_heightsInvFull (s : VLVState) (e : Event)
    (hf : heightsInvFull s) (hnr : isHeightReport e = false) :
    heightsInvFull (step s e) := by
  cases e with
  | listChange items =>
      simp only [step]
      exact heightsInvFull_renderIfDirty _
        ((calcNewRenderedItemState_heights _).2
          (handleItemListChange_heights items s).2)
  | scroll st =>
      simp only [step]
      exact (onScroll_heights st s).2 hf
  | resize lh =>
      simp only [step]
      exact (onLayoutContainer_heights lh s).2 hf
  | heightReport k nh => exact absurd hnr (by simp [isHeightReport])
  | animStartStop k b =>
      simp only [step]
      exact (onAnimateStartStopItem_heights k b s).2 hf
  | tick =>
      simp only [step]
      exact (deferredTick_heights s).2 hf

theorem foldl_step_heightsInvFull :
    ∀ (events : List Event) (s : VLVState), heightsInvFull s →
      (∀ e ∈ events, isHeightReport e = false) →
      heightsInvFull (events.foldl step s) := by
  intro events
  induction events with
  | nil => exact fun s h _ => h
  | cons e rest ih =>
      intro s h hnr
      exact ih (step s e) (step_heightsInvFull s e h
          (hnr e (List.mem_cons_self e rest)))
        (fun e' he' => hnr e' (List.mem_cons_of_mem e he'))

theorem initState_heightsInvFull (items : List Item) :
    heightsInvFull (initState items) :=
  heightsInvFull_renderIfDirty _
    ((calcNewRenderedItemState_heights _).2
      (handleItemListChange_heights items (emptyState items)).2)

/-- C2 (amended): for every item list with unique keys and every event
sequence whose list replacements also carry unique keys, after each event
handler completes the in-block cumulative height `heightOfRenderBlock`
equals the oracle sum of `_getHeightOfItem` over the render-block index
range; and for sequences containing no measured-height report, all three
cumulative heights (`heightAboveRenderBlock`, `heightOfRenderBlock`,
`heightBelowRenderBlock`) equal the oracle sums over their ranges.  The
original claim — that all three sums also survive height reports — is
refuted by `c2_cumulative_height_sums_counterexample`: `_onLayoutItem`
writes an out-of-block report into the height cache and returns without
touching `heightBelowRenderBlock`. -/
theorem c2_cumulative_height_sums (items : List Item) (events : List Event)
    (h0 : (items.map Item.key).Nodup) (hwf : ∀ e ∈ events, wfEvent e) :
    heightsInvBlock (runEvents items events) ∧
    ((∀ e ∈ events, isHeightReport e = false) →
      heightsInvFull (runEvents items events)) :=
  ⟨(runEvents_goodState items events h0 hwf).2.2,
   fun hnr => foldl_step_heightsInvFull events (initState items)
     (initState_heightsInvFull items) hnr⟩

/-- C2 counterexample to the claim as stated: twelve measured items of
declared height 50, a resize to 500, then a height report of 80 for item
`k11`, which lies below the render block; the report is cached but
`heightBelowRenderBlock` stays at the sum computed from the old cache, so
the three-way sum invariant fails after the handler completes. -/
theorem c2_cumulative_height_sums_counterexample :
    ¬ heightsInvFull (runEvents items12
      [Event.resize 500, Event.heightReport "k11" 80]) := by decide!

/-- C2 witness: the amended theorem applied to the same concrete trace —
the in-block component holds there. -/
theorem c2_cumulative_height_sums_witness :
    (items12.map Item.key).Nodup ∧
    heightsInvBlock (runEvents items12
      [Event.resize 500, Event.heightReport "k11" 80]) :=
  ⟨by decide, (c2_cumulative_height_sums items12
    [Event.resize 500, Event.heightReport "k11" 80]
    (by decide) (by decide)).1⟩

theorem calc_guard_noop (s : VLVState)
    (h : s.layoutHeight = 0 ∨ s.itemList.length = 0 ∨
      0 < s.pendingMeasurements.length) :
    calcNewRenderedItemState s = s := by
  unfold calcNewRenderedItemState
  repeat' split
  all_goals first
    | rfl
    | (rcases h with h | h | h
       · exact absurd h (by assumption)
       · exact absurd h (by assumption)
       · exact absurd h (by assumption))

/-- C3 (amended): invoking `_calcNewRenderedItemState` twice in a row
produces no change on the second call whenever one of its no-op guards
holds before either call — zero viewport height, an empty item list,
outstanding height measurements, or measurements queued by the first call
itself.  Unconditional idempotence, as claimed, is false: on a reachable
state mid initial fill the first call completes the fill, so the second
call activates the overdraw margin and grows the render block
(`c3_recalculation_idempotent_counterexample`). -/
theorem c3_recalculation_idempotent (s : VLVState)
    (h : s.layoutHeight = 0 ∨ s.itemList.length = 0 ∨
      0 < s.pendingMeasurements.length ∨
      0 < (calcNewRenderedItemState s).pendingMeasurements.length) :
    calcNewRenderedItemState (calcNewRenderedItemState s) =
      calcNewRenderedItemState s := by
  rcases h with h | h | h | h
  · have h0 := calc_guard_noop s (Or.inl h)
    rw [h0]
    exact h0
  · have h0 := calc_guard_noop s (Or.inr (Or.inl h))
    rw [h0]
    exact h0
  · have h0 := calc_guard_noop s (Or.inr (Or.inr h))
    rw [h0]
    exact h0
  · exact calc_guard_noop (calcNewRenderedItemState s) (Or.inr (Or.inr h))

/-- C3 counterexample to the claim as stated: thirty constant-height items
after a resize to 500 — a reachable state whose initial fill is not yet
complete.  The first recalculation completes the fill; the second then
applies the overdraw margin and grows the block from 10 to 21 items, an
observable change. -/
theorem c3_recalculation_idempotent_counterexample :
    calcNewRenderedItemState (calcNewRenderedItemState
      (runEvents items30 [Event.resize 500])) ≠
    calcNewRenderedItemState (runEvents items30 [Event.resize 500]) := by
  decide!

/-- C3 witness: the amended theorem applied at the freshly constructed
state with no viewport, where the zero-height guard holds. -/
theorem c3_recalculation_idempotent_witness :
    (emptyState []).layoutHeight = 0 ∧
    calcNewRenderedItemState (calcNewRenderedItemState (emptyState [])) =
      calcNewRenderedItemState (emptyState []) :=
  ⟨rfl, c3_recalculation_idempotent (emptyState []) (Or.inl rfl)⟩

theorem reconcileShiftCell_lookup_ne (t : VLVState) (i : Nat) (k : String)
    (h : ∀ item, t.itemList.get? (t.itemsAboveRenderBlock + i) = some item →
      item.key ≠ k) :
    lookupKey (reconcileShiftCell t i).activeCells k =
      lookupKey t.activeCells k := by
  unfold reconcileShiftCell
  split
  · rfl
  · rename_i item hitem
    split
    · rfl
    · rename_i cell hcell
      unfold setCellTopAndVisibility
      split
      · rfl
      · simp only []
        exact lookupKey_setKey_ne _ _ _ _ (fun hk =>
          h item hitem (hk ▸ rfl) )

theorem reconcileShiftCell_lookup_self (t : VLVState) (i : Nat)
    (item : Item) (cell : Cell)
    (hitem : t.itemList.get? (t.itemsAboveRenderBlock + i) = some item)
    (hcell : lookupKey t.activeCells item.key = some cell) :
    lookupKey (reconcileShiftCell t i).activeCells item.key =
      some { cell with top := cell.top - t.heightAboveRenderAdjustment } := by
  unfold reconcileShiftCell
  rw [hitem]
  simp only []
  rw [hcell]
  simp only []
  unfold setCellTopAndVisibility
  rw [hcell]
  simp only []
  rw [lookupKey_setKey_self]

theorem foldl_shift_frame (k : String) :
    ∀ (idxs : List Nat) (t : VLVState),
      (∀ j' ∈ idxs, ∀ item',
        t.itemList.get? (t.itemsAboveRenderBlock + j') = some item' →
        item'.key ≠ k) →
      lookupKey ((idxs.foldl reconcileShiftCell t)).activeCells k =
        lookupKey t.activeCells k := by
  intro idxs
  induction idxs with
  | nil => exact fun t _ => rfl
  | cons i rest ih =>
      intro t h
      rw [List.foldl_cons]
      obtain ⟨ac, hfr⟩ := reconcileShiftCell_frame t i
      have hstep := reconcileShiftCell_lookup_ne t i k
        (h i (List.mem_cons_self i rest))
      have hrest : ∀ j' ∈ rest, ∀ item',
          (reconcileShiftCell t i).itemList.get?
            ((reconcileShiftCell t i).itemsAboveRenderBlock + j') =
            some item' → item'.key ≠ k := by
        rw [hfr]
        simp only []
        exact fun j' hj' item' hg => h j' (List.mem_cons_of_mem i hj') item' hg
      rw [ih (reconcileShiftCell t i) hrest, hstep]

theorem foldl_shift_self :
    ∀ (idxs : List Nat) (t : VLVState) (j : Nat) (item : Item)
      (cell : Cell), idxs.Nodup → j ∈ idxs →
      t.itemList.get? (t.itemsAboveRenderBlock + j) = some item →
      lookupKey t.activeCells item.key = some cell →
      (∀ j' ∈ idxs, j' ≠ j → ∀ item',
        t.itemList.get? (t.itemsAboveRenderBlock + j') = some item' →
        item'.key ≠ item.key) →
      lookupKey ((idxs.foldl reconcileShiftCell t)).activeCells item.key =
        some { cell with
          top := cell.top - t.heightAboveRenderAdjustment } := by
  intro idxs
  induction idxs with
  | nil => intro t j item cell _ hmem; cases hmem
  | cons i rest ih =>
      intro t j item cell hnodup hmem hitem hcell huniq
      rw [List.foldl_cons]
      obtain ⟨ac, hfr⟩ := reconcileShiftCell_frame t i
      by_cases hij : i = j
      · subst hij
        have hstep := reconcileShiftCell_lookup_self t i item cell hitem hcell
        have hframe := foldl_shift_frame item.key rest (reconcileShiftCell t i)
          (by
            rw [hfr]
            simp only []
            intro j' hj' item' hg
            refine huniq j' (List.mem_cons_of_mem i hj') ?_ item' hg
            intro hji
            subst hji
            exact (List.nodup_cons.mp hnodup).1 hj')
        rw [hframe, hstep]
      · have hmem2 : j ∈ rest := by
          rcases List.mem_cons.mp hmem with h | h
          · exact absurd h.symm hij
          · exact h
        have hstep := reconcileShiftCell_lookup_ne t i item.key
          (fun item' hg => huniq i (List.mem_cons_self i rest)
            (fun he => hij he) item' hg)
        have hres := ih (reconcileShiftCell t i) j item cell
          (List.nodup_cons.mp hnodup).2
          hmem2
          (by rw [hfr]; simp only []; exact hitem)
          (by rw [hstep]; exact hcell)
          (by
            rw [hfr]
            simp only []
            exact fun j' hj' hne item' hg =>
              huniq j' (List.mem_cons_of_mem i hj') hne item' hg)
        rw [hres, hfr]

/-- C4: `_reconcileCorrections` defers while item animations are pending
(no state change); with none pending and a nonzero phantom offset it
performs the atomic correction — the container height drops by the offset,
the offset is zeroed, and (keys being unique) every in-block cell's `top`
shifts by minus the offset without animation; and `_onAnimateStartStopItem`
retries the reconciliation as soon as the pending-animation set drains. -/
theorem c4_reconcile_atomic_correction (s : VLVState)
    (hpend : s.pendingAnimations = [])
    (hadj : s.heightAboveRenderAdjustment ≠ 0) (hnd : nodupKeys s) :
    ((reconcileCorrections s).containerHeight =
        s.containerHeight - s.heightAboveRenderAdjustment ∧
      (reconcileCorrections s).heightAboveRenderAdjustment = 0 ∧
      (∀ j item cell, j < s.itemsInRenderBlock →
        s.itemList.get? (s.itemsAboveRenderBlock + j) = some item →
        lookupKey s.activeCells item.key = some cell →
        lookupKey (reconcileCorrections s).activeCells item.key =
          some { cell with
            top := cell.top - s.heightAboveRenderAdjustment })) ∧
    (∀ t : VLVState, 0 < t.pendingAnimations.length →
      reconcileCorrections t = t) ∧
    (∀ t : VLVState, ∀ k : String,
      eraseKeyset t.pendingAnimations k = [] →
      onAnimateStartStopItem k false t =
        reconcileCorrections { t with pendingAnimations := [] }) := by
  refine ⟨?_, ?_, ?_⟩
  · unfold reconcileCorrections
    rw [if_neg (by rw [hpend]; simp)]
    dsimp only
    rw [ite_self]
    rw [if_pos (abs_pos.mpr hadj)]
    obtain ⟨ac0, hfold⟩ := foldl_activeCells_frame reconcileShiftCell
      reconcileShiftCell_frame (List.range s.itemsInRenderBlock)
      { s with containerHeight :=
          s.containerHeight - s.heightAboveRenderAdjustment }
    refine ⟨by rw [hfold], by rw [hfold], ?_⟩
    intro j item cell hj hitem hcell
    have hres := foldl_shift_self (List.range s.itemsInRenderBlock)
      { s with containerHeight :=
          s.containerHeight - s.heightAboveRenderAdjustment }
      j item cell (List.nodup_range _) (List.mem_range.mpr hj)
      hitem hcell
      (by
        simp only []
        intro j' hj' hne item' hg hk
        have heq := nodup_key_unique s.itemList hnd
          (s.itemsAboveRenderBlock + j') (s.itemsAboveRenderBlock + j)
          item' item hg hitem hk
        exact hne (by omega))
    simp only [] at hres
    exact hres
  · intro t ht
    unfold reconcileCorrections
    rw [if_pos ht]
  · intro t k herase
    unfold onAnimateStartStopItem
    rw [if_neg (by simp)]
    dsimp only
    rw [herase]
    simp

/-- C4 witness: the theorem applied at `c4state` — the container shrinks by
the offset there. -/
theorem c4_reconcile_atomic_correction_witness :
    c4state.pendingAnimations = [] ∧
    c4state.heightAboveRenderAdjustment ≠ 0 ∧
    nodupKeys c4state ∧
    (reconcileCorrections c4state).containerHeight =
      c4state.containerHeight - c4state.heightAboveRenderAdjustment :=
  ⟨rfl, by norm_num [c4state], by decide,
   (c4_reconcile_atomic_correction c4state rfl (by norm_num [c4state])
     (by decide)).1.1⟩

theorem buildItem_total (s : VLVState) (idx : Nat) (ab : Bool) (y : ℚ) :
    htotal (buildItem s idx ab y).1 = htotal s ∧
    (buildItem s idx ab y).1.containerHeight = s.containerHeight ∧
    (buildItem s idx ab y).1.layoutHeight = s.layoutHeight := by
  unfold buildItem
  split
  · exact ⟨rfl, rfl, rfl⟩
  · dsimp only
    repeat' split
    all_goals obtain ⟨ac, rc, d, n, halloc⟩ :=
      allocateCell_frame _ _ _ _ _ _ _ _
    all_goals rw [halloc]
    all_goals refine ⟨?_, rfl, rfl⟩
    all_goals unfold htotal
    all_goals simp only []
    all_goals ring

theorem growBottom_total (lim : ℚ) :
    ∀ (fuel : Nat) (s : VLVState) (y : ℚ),
      htotal (growBottom fuel s y lim).1 = htotal s ∧
      (growBottom fuel s y lim).1.containerHeight = s.containerHeight ∧
      (growBottom fuel s y lim).1.layoutHeight = s.layoutHeight := by
  intro fuel
  induction fuel with
  | zero => exact fun s y => ⟨rfl, rfl, rfl⟩
  | succ n ih =>
      intro s y
      unfold growBottom
      split
      · exact ⟨rfl, rfl, rfl⟩
      · split
        · exact ⟨rfl, rfl, rfl⟩
        · obtain ⟨hb1, hb2, hb3⟩ := buildItem_total s
            (s.itemsAboveRenderBlock + s.itemsInRenderBlock) false y
          obtain ⟨hi1, hi2, hi3⟩ := ih (buildItem s
            (s.itemsAboveRenderBlock + s.itemsInRenderBlock) false y).1 _
          exact ⟨hi1.trans hb1, hi2.trans hb2, hi3.trans hb3⟩

theorem growTop_total (lim : ℚ) :
    ∀ (fuel : Nat) (s : VLVState) (y : ℚ),
      htotal (growTop fuel s y lim).1 = htotal s ∧
      (growTop fuel s y lim).1.containerHeight = s.containerHeight ∧
      (growTop fuel s y lim).1.layoutHeight = s.layoutHeight := by
  intro fuel
  induction fuel with
  | zero => exact fun s y => ⟨rfl, rfl, rfl⟩
  | succ n ih =>
      intro s y
      unfold growTop
      split
      · exact ⟨rfl, rfl, rfl⟩
      · split
        · exact ⟨rfl, rfl, rfl⟩
        · obtain ⟨hb1, hb2, hb3⟩ := buildItem_total s
            (s.itemsAboveRenderBlock - 1) true _
          obtain ⟨hi1, hi2, hi3⟩ := ih (buildItem s
            (s.itemsAboveRenderBlock - 1) true _).1 _
          exact ⟨hi1.trans hb1, hi2.trans hb2, hi3.trans hb3⟩

theorem htotal_pop (t : VLVState) :
    htotal (popInvisibleIntoView t) = htotal t ∧
    (popInvisibleIntoView t).containerHeight = t.containerHeight ∧
    (popInvisibleIntoView t).layoutHeight = t.layoutHeight := by
  obtain ⟨ac, hpop⟩ := popInvisibleIntoView_frame t
  rw [hpop]
  exact ⟨rfl, rfl, rfl⟩

theorem growBottom_fst_hsum (lim : ℚ) (fuel : Nat) (s : VLVState)
    (y : ℚ) :
    (growBottom fuel s y lim).1.heightAboveRenderAdjustment +
      (growBottom fuel s y lim).1.heightAboveRenderBlock +
      (growBottom fuel s y lim).1.heightOfRenderBlock +
      (growBottom fuel s y lim).1.heightBelowRenderBlock =
    s.heightAboveRenderAdjustment + s.heightAboveRenderBlock +
      s.heightOfRenderBlock + s.heightBelowRenderBlock := by
  have h := (growBottom_total lim fuel s y).1
  unfold htotal at h
  exact h

theorem growBottom_fst_containerHeight (lim : ℚ) (fuel : Nat)
    (s : VLVState) (y : ℚ) :
    (growBottom fuel s y lim).1.containerHeight = s.containerHeight :=
  (growBottom_total lim fuel s y).2.1

theorem growBottom_fst_layoutHeight (lim : ℚ) (fuel : Nat)
    (s : VLVState) (y : ℚ) :
    (growBottom fuel s y lim).1.layoutHeight = s.layoutHeight :=
  (growBottom_total lim fuel s y).2.2

theorem growTop_fst_hsum (lim : ℚ) (fuel : Nat) (s : VLVState) (y : ℚ) :
    (growTop fuel s y lim).1.heightAboveRenderAdjustment +
      (growTop fuel s y lim).1.heightAboveRenderBlock +
      (growTop fuel s y lim).1.heightOfRenderBlock +
      (growTop fuel s y lim).1.heightBelowRenderBlock =
    s.heightAboveRenderAdjustment + s.heightAboveRenderBlock +
      s.heightOfRenderBlock + s.heightBelowRenderBlock := by
  have h := (growTop_total lim fuel s y).1
  unfold htotal at h
  exact h

theorem growTop_fst_containerHeight (lim : ℚ) (fuel : Nat) (s : VLVState)
    (y : ℚ) :
    (growTop fuel s y lim).1.containerHeight = s.containerHeight :=
  (growTop_total lim fuel s y).2.1

theorem growTop_fst_layoutHeight (lim : ℚ) (fuel : Nat) (s : VLVState)
    (y : ℚ) :
    (growTop fuel s y lim).1.layoutHeight = s.layoutHeight :=
  (growTop_total lim fuel s y).2.2

theorem calcMainPhase_container (tl bl : ℚ) (s : VLVState) :
    (calcMainPhase tl bl s).containerHeight =
      max (htotal (calcMainPhase tl bl s))
        (calcMainPhase tl bl s).layoutHeight := by
  unfold calcMainPhase
  dsimp only
  obtain ⟨ac, hrp⟩ := repositionLoop_frame s.itemsInRenderBlock
    s.itemsAboveRenderBlock
    (s.heightAboveRenderBlock + s.heightAboveRenderAdjustment) s
  rw [hrp]
  split
  all_goals rename_i hcond
  all_goals split
  all_goals try
    (obtain ⟨ac2, hpop⟩ := popInvisibleIntoView_frame _
     rw [hpop])
  all_goals unfold htotal
  all_goals try simp only []
  all_goals simp only [growTop_fst_hsum, growTop_fst_containerHeight,
    growTop_fst_layoutHeight, growBottom_fst_hsum,
    growBottom_fst_containerHeight, growBottom_fst_layoutHeight]
  all_goals try simp only []
  all_goals first
    | rfl
    | exact (not_ne_iff.mp hcond).symm

/-- C5 (amended): after a recalculation on a state with a nonzero viewport,
a non-empty item list, and — in addition to the claim as stated — no
outstanding height measurements, the container height equals
`max(phantomOffset + heightAbove + heightInBlock + heightBelow,
viewportHeight)` over the resulting state (the conditional write in the
source only skips rewriting an unchanged value, which is unobservable in
the engine state).  Without the no-pending-measurements condition the
claim is false: the recalculation returns through its measurement guard
without touching the container (`c5_container_height_counterexample`). -/
theorem c5_container_height (s : VLVState)
    (h1 : s.layoutHeight ≠ 0) (h2 : s.itemList ≠ [])
    (h3 : s.pendingMeasurements = []) :
    (calcNewRenderedItemState s).containerHeight =
      max ((calcNewRenderedItemState s).heightAboveRenderAdjustment +
        (calcNewRenderedItemState s).heightAboveRenderBlock +
        (calcNewRenderedItemState s).heightOfRenderBlock +
        (calcNewRenderedItemState s).heightBelowRenderBlock)
        (calcNewRenderedItemState s).layoutHeight := by
  unfold calcNewRenderedItemState
  rw [if_neg h1]
  rw [if_neg (fun h => h2 (List.length_eq_zero.mp h))]
  rw [if_neg (by rw [h3]; simp)]
  dsimp only
  exact calcMainPhase_container _ _ _

/-- C5 counterexample to the claim as stated: items `A` (declared 100) and
`B` (declared 600), resize to 500, then a measurement report `A ↦ 50`.
The handler updates the in-block height and recalculates, but the
recalculation returns through its pending-measurements guard (`B` is still
queued), leaving the container at 700 while the height fields sum to
650. -/
theorem c5_container_height_counterexample :
    (runEvents itemsAB
        [Event.resize 500, Event.heightReport "A" 50]).containerHeight ≠
      max ((runEvents itemsAB
          [Event.resize 500,
            Event.heightReport "A" 50]).heightAboveRenderAdjustment +
        (runEvents itemsAB
          [Event.resize 500,
            Event.heightReport "A" 50]).heightAboveRenderBlock +
        (runEvents itemsAB
          [Event.resize 500,
            Event.heightReport "A" 50]).heightOfRenderBlock +
        (runEvents itemsAB
          [Event.resize 500,
            Event.heightReport "A" 50]).heightBelowRenderBlock)
        (runEvents itemsAB
          [Event.resize 500, Event.heightReport "A" 50]).layoutHeight := by
  decide!

/-- C5 witness: the amended theorem applied to thirty constant-height-50
items after a resize to 500; the recalculated container height is 1500,
the total content height. -/
theorem c5_container_height_witness :
    ((runEvents items30 [Event.resize 500]).layoutHeight ≠ 0 ∧
     (runEvents items30 [Event.resize 500]).itemList ≠ [] ∧
     (runEvents items30 [Event.resize 500]).pendingMeasurements = []) ∧
    (calcNewRenderedItemState
        (runEvents items30 [Event.resize 500])).containerHeight =
      max ((calcNewRenderedItemState
          (runEvents items30 [Event.resize 500])).heightAboveRenderAdjustment +
        (calcNewRenderedItemState
          (runEvents items30 [Event.resize 500])).heightAboveRenderBlock +
        (calcNewRenderedItemState
          (runEvents items30 [Event.resize 500])).heightOfRenderBlock +
        (calcNewRenderedItemState
          (runEvents items30 [Event.resize 500])).heightBelowRenderBlock)
        (calcNewRenderedItemState
          (runEvents items30 [Event.resize 500])).layoutHeight ∧
    (calcNewRenderedItemState
        (runEvents items30 [Event.resize 500])).containerHeight = 1500 :=
  ⟨by decide!,
   c5_container_height _ (by decide!) (by decide!) (by decide!),
   by decide!⟩

/-- C6: the height oracle.  For a non-measured item `_getHeightOfItem`
returns the declared height — and a measurement report for such an item is
ignored outright by `_onLayoutItem`, so the declared height is never
overridden.  For a measured item the oracle returns the height-cache entry
when present and otherwise the declared height as a provisional guess; and
`_isItemHeightKnown` holds exactly when the item is non-measured or
cached. -/
theorem c6_height_oracle (cache : List (String × ℚ)) (item : Item) :
    (item.measureHeight = false →
      getHeightOfItem cache item = item.height) ∧
    (item.measureHeight = true → ∀ h : ℚ,
      lookupKey cache item.key = some h →
      getHeightOfItem cache item = h) ∧
    (item.measureHeight = true → lookupKey cache item.key = none →
      getHeightOfItem cache item = item.height) ∧
    (isItemHeightKnown cache item = true ↔
      item.measureHeight = false ∨
        (lookupKey cache item.key).isSome = true) ∧
    (∀ (s : VLVState) (i : Nat) (nh : ℚ),
      lookupKey s.itemMap item.key = some i →
      s.itemList.get? i = some item →
      item.measureHeight = false →
      onLayoutItem item.key nh s = s) := by
  refine ⟨?_, ?_, ?_, ?_, ?_⟩
  · intro hm
    unfold getHeightOfItem
    rw [hm]
    rfl
  · intro hm h hl
    unfold getHeightOfItem
    rw [hm, hl]
    rfl
  · intro hm hl
    unfold getHeightOfItem
    rw [hm, hl]
    rfl
  · unfold isItemHeightKnown
    cases hm : item.measureHeight
    · simp
    · cases hl : (lookupKey cache item.key).isSome
      · simp [hl]
      · simp [hl]
  · intro s i nh hlook hget hm
    unfold onLayoutItem
    rw [hlook]
    simp only []
    rw [hget]
    simp only []
    rw [hm]
    rfl

/-- C6 witness: the oracle applied to the constant-height fixture item with
a (necessarily ignored) cache entry under its key. -/
theorem c6_height_oracle_witness :
    itemA.measureHeight = false ∧
    getHeightOfItem [("a", 70)] itemA = itemA.height :=
  ⟨rfl, (c6_height_oracle [("a", 70)] itemA).1 rfl⟩

/-- C7 (amended): the two genuinely stale event kinds are full no-ops — a
height report whose key is no longer in the item map, and a scroll event
at the already-known position.  A report for an item that
merely moved out of the tracked render block is, contrary to the claim as
stated, not a full no-op: it still stores the measurement in the height
cache, and changes nothing else
(`c7_stale_events_counterexample`). -/
theorem c7_stale_events (s : VLVState) :
    (∀ (k : String) (nh : ℚ), lookupKey s.itemMap k = none →
      onLayoutItem k nh s = s) ∧
    onScroll s.lastScrollTop s = s ∧
    (∀ (k : String) (nh : ℚ) (i : Nat) (item : Item),
      lookupKey s.itemMap k = some i →
      s.itemList.get? i = some item → item.measureHeight = true →
      (i < s.itemsAboveRenderBlock ∨
        i ≥ s.itemsAboveRenderBlock + s.itemsInRenderBlock) →
      onLayoutItem k nh s =
        { s with heightCache := setKey s.heightCache k nh }) := by
  refine ⟨?_, ?_, ?_⟩
  · intro k nh hlook
    unfold onLayoutItem
    rw [hlook]
  · unfold onScroll
    rw [if_pos rfl]
  · intro k nh i item hlook hget hm hout
    unfold onLayoutItem
    rw [hlook]
    simp only []
    rw [hget]
    simp only []
    rw [hm]
    rw [if_neg (by simp)]
    try simp only []
    rw [if_pos hout]

/-- C7 counterexample to the claim as stated: in the twelve-item fixture
after a resize to 500, item `k11` sits below the render block; a height
report for it is not a state no-op — the height cache gains the entry. -/
theorem c7_stale_events_counterexample :
    onLayoutItem "k11" 80 (runEvents items12 [Event.resize 500]) ≠
      runEvents items12 [Event.resize 500] := by
  decide!

/-- C7 witness: a report for a key absent from the item map leaves the
state of the twelve-item fixture unchanged. -/
theorem c7_stale_events_witness :
    lookupKey (runEvents items12 [Event.resize 500]).itemMap "zz" = none ∧
    onLayoutItem "zz" 33 (runEvents items12 [Event.resize 500]) =
      runEvents items12 [Event.resize 500] :=
  ⟨by decide!, (c7_stale_events _).1 "zz" 33 (by decide!)⟩

theorem lookupKey_eraseKey_self {α : Type} :
    ∀ (m : List (String × α)) (k : String),
      lookupKey (eraseKey m k) k = none
  | [], _ => rfl
  | (k', v) :: rest, k => by
      unfold eraseKey
      split
      · exact lookupKey_eraseKey_self rest k
      · unfold lookupKey
        rw [if_neg (by assumption)]
        exact lookupKey_eraseKey_self rest k

theorem findIdx?_append_last {α : Type} (p : α → Bool) :
    ∀ (l : List α) (a : α) (i : Nat), (∀ c ∈ l, p c = false) →
      p a = true → (l ++ [a]).findIdx? p i = some (i + l.length) := by
  intro l
  induction l with
  | nil =>
      intro a i _ ha
      simp [List.findIdx?_cons, ha]
  | cons x xs ih =>
      intro a i hl ha
      rw [List.cons_append, List.findIdx?_cons,
        hl x (List.mem_cons_self x xs)]
      simp only [Bool.false_eq_true, if_false]
      rw [ih a (i + 1) (fun c hc => hl c (List.mem_cons_of_mem x hc)) ha]
      congr 1
      simp only [List.length_cons]
      omega

/-- C8 (amended): recycling reuses the cell identity under the conditions
the pool search actually implements.  If the item's active cell carries its
key as `cachedItemKey` (true whenever the cell was minted for this item and
never rebound), a template and a constant height, recycling is enabled with
room in the pool, and no earlier pool cell presents the same
template/key/height triple, then evicting the cell and immediately
re-allocating for the same key, template, and height rebinds a cell with
the same `virtualKey`.  Unconditionally the claim is false: a pool cell can
be rebound to a different key in between (the template-only match), after
which the reintroduced item mints a fresh cell identity
(`c8_cell_identity_reuse_counterexample`). -/
theorem c8_cell_identity_reuse (s : VLVState) (key tpl : String)
    (cell : Cell) (idx : Nat) (top : ℚ) (vis : Bool)
    (hcell : lookupKey s.activeCells key = some cell)
    (htpl : cell.itemTemplate = some tpl)
    (hconst : cell.isHeightConstant = true)
    (hkey : cell.cachedItemKey = key)
    (hmax : s.maxRecycledCells > 0)
    (hroom : s.recycledCells.length + 1 ≤ s.maxRecycledCells)
    (hpool : ∀ c ∈ s.recycledCells, ¬(c.itemTemplate = some tpl ∧
      c.cachedItemKey = key ∧ c.height = cell.height)) :
    (lookupKey (allocateCell (recycleCell s key) key (some tpl) idx
        true cell.height top vis).activeCells key).map Cell.virtualKey =
      some cell.virtualKey := by
  unfold recycleCell
  rw [hcell]
  simp only []
  rw [if_pos hmax]
  try dsimp only
  rw [if_pos (show (cell.itemTemplate.isSome &&
      cell.isHeightConstant) = true by rw [htpl, hconst]; rfl)]
  split
  · rename_i hgt
    exfalso
    simp only [List.length_append, List.length_cons, List.length_nil] at hgt
    omega
  · unfold allocateCell
    simp only []
    rw [lookupKey_eraseKey_self]
    simp only []
    unfold poolMatchIndex
    rw [if_pos (show ((some tpl).isSome && true) = true from rfl)]
    rw [findIdx?_append_last _ s.recycledCells _ 0
      (fun c hc => decide_eq_false (hpool c hc))
      (by
        refine decide_eq_true ?_
        exact ⟨htpl, hkey, rfl⟩)]
    simp only [Nat.zero_add]
    rw [List.get?_concat_length]
    simp only []
    rw [lookupKey_setKey_self]
    rfl

/-- C8 counterexample to the claim as stated: cell 1 is minted for item
`A`, evicted, rebound to item `B` by the template-only pool match, and when
`A` returns with the identical template, key, and height the pool is empty,
so `A` receives a brand-new cell identity 2. -/
theorem c8_cell_identity_reuse_counterexample :
    (lookupKey (allocateCell (allocateCell (recycleCell (allocateCell
        (emptyState []) "A" (some "t") 0 true 50 0 true) "A")
        "B" (some "t") 0 true 50 0 true)
        "A" (some "t") 0 true 50 0 true).activeCells "A").map
          Cell.virtualKey ≠
      (lookupKey (allocateCell (emptyState []) "A" (some "t") 0 true 50 0
        true).activeCells "A").map Cell.virtualKey := by
  decide!

/-- C8 witness: the amended theorem applied to a freshly minted cell for
`A` that is evicted and immediately re-allocated — identity 1 is reused. -/
theorem c8_cell_identity_reuse_witness :
    lookupKey (allocateCell (emptyState []) "A" (some "t") 0 true 50 0
        true).activeCells "A" =
      some { virtualKey := 1, itemTemplate := some "t",
             isHeightConstant := true, height := 50, cachedItemKey := "A",
             top := 0, isVisible := true, shouldUpdate := true } ∧
    (lookupKey (allocateCell (recycleCell (allocateCell (emptyState [])
        "A" (some "t") 0 true 50 0 true) "A") "A" (some "t") 0 true
        50 0 true).activeCells "A").map Cell.virtualKey = some 1 :=
  ⟨by decide!,
   c8_cell_identity_reuse
     (allocateCell (emptyState []) "A" (some "t") 0 true 50 0 true)
     "A" "t"
     { virtualKey := 1, itemTemplate := some "t", isHeightConstant := true,
       height := 50, cachedItemKey := "A", top := 0, isVisible := true,
       shouldUpdate := true }
     0 0 true (by decide!) rfl rfl rfl (by decide!) (by decide!)
     (by decide!)⟩

/-- C9: `_focusSubsequentItem direction viaKeyboard retry` returns failure
exactly when no adjacent navigable rendered target exists in the requested
direction and no scroll-and-defer retry applies; and on the deletion path
of `_handleItemListChange`, when the focused item leaves the list and both
the downward and the upward fallback fail, the focused-item key is reset to
`none`. -/
theorem c9_focus_after_deletion (s : VLVState) :
    (∀ (direction : Int) (retry : Bool),
      (focusSubsequentItem s direction retry).1 = false ↔
        (¬∃ index,
          s.navigatableItemsRendered.findIdx?
            (fun k => s.lastFocusedItemKey = some k) = some index ∧
          0 ≤ (index : Int) + direction ∧
          (index : Int) + direction <
            (s.navigatableItemsRendered.length : Int)) ∧
        ¬(retry = true ∧
          s.navigatableItemsRendered.findIdx?
            (fun k => s.lastFocusedItemKey = some k) = none ∧
          ∃ lastKey, s.lastFocusedItemKey = some lastKey ∧
            (lookupKey s.itemMap lastKey).isSome = true)) ∧
    (∀ (m : List (String × Nat)) (idx : Nat) (item : Item),
      s.lastFocusedItemKey = some item.key →
      lookupKey m item.key = none →
      (focusSubsequentItem s 1 false).1 = false →
      (focusSubsequentItem s (-1) false).1 = false →
      (hlcDeleteItem m idx item s).lastFocusedItemKey = none) := by
  constructor
  · intro direction retry
    unfold focusSubsequentItem
    dsimp only
    cases hidx : s.navigatableItemsRendered.findIdx?
        (fun k => decide (s.lastFocusedItemKey = some k)) with
    | some index =>
        simp only []
        by_cases hc : 0 ≤ (index : Int) + direction ∧
            (index : Int) + direction <
              (s.navigatableItemsRendered.length : Int)
        · rw [if_pos hc]
          simp only []
          constructor
          · intro h
            exact absurd h (by simp)
          · intro ⟨hA, hB⟩
            exact absurd ⟨index, rfl, hc.1, hc.2⟩ hA
        · rw [if_neg hc]
          simp only []
          constructor
          · intro _
            constructor
            · intro ⟨i, hf, h1, h2⟩
              injection hf with hf
              subst hf
              exact hc ⟨h1, h2⟩
            · intro ⟨_, hnone, _⟩
              cases hnone
          · intro _
            trivial
    | none =>
        simp only []
        cases hfk : s.lastFocusedItemKey with
        | none =>
            simp only []
            constructor
            · intro _
              constructor
              · intro ⟨i, hf, _, _⟩
                cases hf
              · intro ⟨_, _, k, hk, _⟩
                cases hk
            · intro _
              trivial
        | some lastKey =>
            simp only []
            cases retry with
            | false =>
                simp only [Bool.false_eq_true, if_false]
                constructor
                · intro _
                  constructor
                  · intro ⟨i, hf, _, _⟩
                    cases hf
                  · intro ⟨hr, _, _⟩
                    cases hr
                · intro _
                  trivial
            | true =>
                simp only [if_true]
                cases hlk : lookupKey s.itemMap lastKey with
                | none =>
                    simp only []
                    constructor
                    · intro _
                      constructor
                      · intro ⟨i, hf, _, _⟩
                        cases hf
                      · intro ⟨_, _, k, hk, hks⟩
                        injection hk with hk
                        subst hk
                        rw [hlk] at hks
                        cases hks
                    · intro _
                      trivial
                | some i0 =>
                    try simp only []
                    constructor
                    · intro h
                      exact absurd h (by simp)
                    · intro ⟨_, hB⟩
                      exact absurd ⟨trivial, trivial, lastKey, rfl,
                        by rw [hlk]; rfl⟩ hB
  · intro m idx item hfk hlook h1 h2
    unfold hlcDeleteItem
    rw [if_neg (by rw [hlook]; simp)]
    dsimp only
    rw [if_pos hfk]
    split
    · repeat' split
      all_goals first
        | rfl
        | (obtain ⟨ac, rc, d, hrec⟩ := recycleCell_frame _ _
           rw [hrec])
    · rename_i hcontra
      exact absurd ⟨by rw [h1]; rfl, by rw [h2]; rfl⟩ hcontra

/-- C9 witness: a state focused on item `a` with nothing rendered; both
fallbacks fail and the deletion pass resets the focus key. -/
theorem c9_focus_after_deletion_witness :
    ({ emptyState [] with
        lastFocusedItemKey := some "a" } : VLVState).lastFocusedItemKey =
      some itemA.key ∧
    (hlcDeleteItem [] 0 itemA
      { emptyState [] with
          lastFocusedItemKey := some "a" }).lastFocusedItemKey = none :=
  ⟨rfl, (c9_focus_after_deletion _).2 [] 0 itemA rfl rfl rfl rfl⟩

/-- C10: a height report for a measurable item still present in the list
but outside the tracked render block stores the height in the cache and
changes nothing else — the resulting state is exactly the old state with
the cache entry set, so the counters, cumulative heights, phantom offset,
container height, cells, and in particular the pending-measurement set are
untouched. -/
theorem c10_out_of_block_report (s : VLVState) (k : String) (nh : ℚ)
    (i : Nat) (item : Item)
    (hlook : lookupKey s.itemMap k = some i)
    (hget : s.itemList.get? i = some item)
    (hm : item.measureHeight = true)
    (hout : i < s.itemsAboveRenderBlock ∨
      i ≥ s.itemsAboveRenderBlock + s.itemsInRenderBlock) :
    onLayoutItem k nh s =
      { s with heightCache := setKey s.heightCache k nh } := by
  unfold onLayoutItem
  rw [hlook]
  simp only []
  rw [hget]
  simp only []
  rw [hm]
  rw [if_neg (by simp)]
  try simp only []
  rw [if_pos hout]

/-- C10 witness: the theorem applied to the below-block item `k11` of the
twelve-item fixture; its pending entry survives the report. -/
theorem c10_out_of_block_report_witness :
    (lookupKey (runEvents items12 [Event.resize 500]).itemMap "k11" =
        some 11 ∧
      (runEvents items12 [Event.resize 500]).itemList.get? 11 =
        some { key := "k11", height := 50, measureHeight := true,
               template := some "t", isNavigable := true } ∧
      11 ≥ (runEvents items12 [Event.resize 500]).itemsAboveRenderBlock +
        (runEvents items12 [Event.resize 500]).itemsInRenderBlock) ∧
    onLayoutItem "k11" 80 (runEvents items12 [Event.resize 500]) =
      { runEvents items12 [Event.resize 500] with
          heightCache := setKey
            (runEvents items12 [Event.resize 500]).heightCache "k11" 80 } :=
  ⟨by decide!,
   c10_out_of_block_report _ "k11" 80 11
     { key := "k11", height := 50, measureHeight := true,
       template := some "t", isNavigable := true }
     (by decide!) (by decide!) rfl (Or.inr (by decide!))⟩

end VLV
